import Mathlib

/-!
# Forms-clone-GraphQL: a shallow embedding of the resolver engine

The development follows the layers of the repository:

* `src/db/db.js` and `scripts/init-db.js`: the SQLite tables and the statements
  run against them (`Db`, `withDb`, `userDb`, `formDb`);
* `src/models/*.js`: `UserModel`, `FormModel`, `QuestionModel`, `ResponseModel`;
* `src/resolvers/index.js`: `Query` and `Mutation`, and the map `resolvers`;
* `src/context.js`: `createContext`.

Conventions of the embedding.

* GraphQL `ID` values are the decimal renderings of SQLite integer keys; they
  are modelled by `Nat`.
* A JavaScript `async` function that may throw is a function
  `World → Except JsError α × World`: the world after the call is kept on the
  error path too, because nothing in the source rolls a statement back.
* Every statement sent to SQLite may be rejected by the driver
  (`withDb`: `if (err) reject(err)`).  The `faults` component of the world lists
  the outcome of the next statements: `some msg` rejects the statement with
  error text `msg`, `none` (or an exhausted list) lets it run.
* `datetime('now')` reads the `now` component of the world.
-/

namespace FormsClone

/-! ## JavaScript helpers -/

/-- A thrown JavaScript error: its `message` and, for a `GraphQLError`, the
`extensions.code` it carries. -/
structure JsError where
  message : String
  code : Option String := none
deriving DecidableEq, Repr

/-- An input field the code tests with `!== undefined`: it may be left out,
be an explicit `null`, or carry a value. -/
inductive Arg (α : Type) where
  | undefined : Arg α
  | null : Arg α
  | value (a : α) : Arg α
deriving DecidableEq, Repr

/-- The value written to a nullable column for an `Arg` that is not `undefined`. -/
def Arg.toColumn {α : Type} : Arg α → Option α
  | .value a => some a
  | _ => none

/-- Code points that `String.prototype.trim` removes (ECMAScript WhiteSpace and
LineTerminator). -/
def jsIsWhitespace (c : Char) : Bool :=
  let n := c.toNat
  n == 0x09 || n == 0x0A || n == 0x0B || n == 0x0C || n == 0x0D || n == 0x20 ||
  n == 0xA0 || n == 0x1680 || (0x2000 ≤ n && n ≤ 0x200A) || n == 0x2028 ||
  n == 0x2029 || n == 0x202F || n == 0x205F || n == 0x3000 || n == 0xFEFF

/-- The test `!s || !s.trim()` on a string field that may be missing. -/
def jsBlank : Option String → Bool
  | none => true
  | some s => s.data.all jsIsWhitespace

/-- The `length` of a JavaScript string: UTF-16 code units. -/
def jsLength (s : String) : Nat :=
  s.data.foldl (fun n c => n + (if 0x10000 ≤ c.toNat then 2 else 1)) 0

/-- Whether `needle` starts the character list. -/
def startsWithChars : List Char → List Char → Bool
  | [], _ => true
  | _ :: _, [] => false
  | a :: as, b :: bs => a == b && startsWithChars as bs

/-- Whether `needle` occurs in the character list. -/
def includesChars (needle : List Char) : List Char → Bool
  | [] => needle.isEmpty
  | c :: cs => startsWithChars needle (c :: cs) || includesChars needle cs

/-- The method `String.prototype.includes`. -/
def jsIncludes (s needle : String) : Bool :=
  includesChars needle.data s.data

/-! ## The SQLite store (`scripts/init-db.js`) -/

/-- A row of table `users`. -/
structure UserRow where
  id : Nat
  email : String
  password : String
  name : String
  createdAt : Nat
  updatedAt : Nat
deriving DecidableEq, Repr

/-- A row of table `forms`. -/
structure FormRow where
  id : Nat
  userId : Nat
  title : String
  description : Option String
  createdAt : Nat
  updatedAt : Nat
deriving DecidableEq, Repr

/-- A row of table `questions`.  Column `options` holds JSON text: `none` is
the text `null`, `some l` the array `l`. -/
structure QuestionRow where
  id : Nat
  formId : Nat
  questionText : String
  questionType : String
  required : Bool
  options : Option (List String)
  questionOrder : Option Int
  createdAt : Nat
  updatedAt : Nat
deriving DecidableEq, Repr

/-- A row of table `responses`. -/
structure ResponseRow where
  id : Nat
  formId : Nat
  respondentName : Option String
  respondentEmail : Option String
  createdAt : Nat
  updatedAt : Nat
deriving DecidableEq, Repr

/-- A row of table `answer_values`; column `formId` is `NULL` (`none`) in a row
written without it. -/
structure AnswerRow where
  id : Nat
  responseId : Nat
  questionId : Nat
  formId : Option Nat
  answerText : String
  createdAt : Nat
deriving DecidableEq, Repr

/-- The database file: the five tables, their `AUTOINCREMENT` counters, the
connection's
`PRAGMA foreign_keys` setting (SQLite's default is off, and no statement of
the source switches it on), and whether column `formId` of `answer_values` is
`NOT NULL` without a default.  It is in the table `scripts/init-db.js` creates
(the default here); `db.js` opens the file `REST-api/forms.db`, whose schema is
not part of the repository, and `responseModel.js` writes its answers without
that column. -/
structure Db where
  users : List UserRow := []
  forms : List FormRow := []
  questions : List QuestionRow := []
  responses : List ResponseRow := []
  answers : List AnswerRow := []
  userSeq : Nat := 0
  formSeq : Nat := 0
  questionSeq : Nat := 0
  responseSeq : Nat := 0
  answerSeq : Nat := 0
  foreignKeys : Bool := false
  answerFormIdRequired : Bool := true
deriving DecidableEq, Repr

/-- The state a resolver runs in. -/
structure World where
  db : Db
  now : Nat := 0
  faults : List (Option String) := []
deriving DecidableEq, Repr

/-- No pending statement is rejected by the driver. -/
def World.Quiet (w : World) : Prop :=
  ∀ f ∈ w.faults, f = none

instance (w : World) : Decidable w.Quiet :=
  inferInstanceAs (Decidable (∀ f ∈ w.faults, f = none))

/-! ## Effects -/

/-- An `async` function of the source. -/
def Eff (α : Type) : Type :=
  World → Except JsError α × World

/-- Sequencing of `await`s: the rest runs only after a normal return. -/
def Eff.bind {α β : Type} (m : Eff α) (f : α → Eff β) : Eff β := fun w =>
  match m w with
  | (.ok a, w1) => f a w1
  | (.error e, w1) => (.error e, w1)

/-- The statement `throw e`. -/
def Eff.throw {α : Type} (e : JsError) : Eff α := fun w => (.error e, w)

/-- The statement `try { m } catch (error) { h error }`. -/
def Eff.tryCatch {α : Type} (m : Eff α) (h : JsError → Eff α) : Eff α := fun w =>
  match m w with
  | (.ok a, w1) => (.ok a, w1)
  | (.error e, w1) => h e w1

instance : Monad Eff where
  pure a := fun w => (.ok a, w)
  bind := Eff.bind

/-- The helper `withDb` of `db.js` (and the `db.run` / `db.get` calls beside
it): one statement, rejected when the driver reports an error, otherwise run
against the tables at the current time.  A statement may also fail on its own
(a constraint), with SQLite's error text. -/
def withDb {α : Type} (run : Nat → Db → Except String (α × Db)) : Eff α := fun w =>
  let w1 : World := { w with faults := w.faults.tail }
  match w.faults.head?.join with
  | some msg => (.error { message := msg }, w1)
  | none =>
      match run w1.now w1.db with
      | .ok (a, db1) => (.ok a, { w1 with db := db1 })
      | .error msg => (.error { message := msg }, w1)

/-- A statement that only reads. -/
def query {α : Type} (read : Db → α) : Eff α :=
  withDb (fun _ db => .ok (read db, db))

/-- A statement that only writes and cannot violate a constraint. -/
def execute (write : Nat → Db → Db) : Eff (List Unit) :=
  withDb (fun now db => .ok ([], write now db))

/-! ## Statements (`src/db/db.js` and the SQL text inside the models) -/

/-- The clause `ORDER BY key ASC` (`desc = false`) or `ORDER BY key DESC`. -/
def orderBy {α : Type} (le : α → α → Bool) (desc : Bool) (rows : List α) : List α :=
  rows.insertionSort (fun a b => if desc then le b a = true else le a b = true)

/-- Comparison of a nullable column: `NULL` sorts before every value. -/
def nullsFirst {α : Type} (le : α → α → Bool) : Option α → Option α → Bool
  | none, _ => true
  | some _, none => false
  | some a, some b => le a b

/-- The operator `LIKE` of SQLite on character lists: `%` matches any run of
characters, `_` any one character, ASCII letters match without regard to case.
`fuel` bounds the number of steps. -/
def likeChars : Nat → List Char → List Char → Bool
  | 0, _, _ => false
  | _ + 1, [], s => s.isEmpty
  | fuel + 1, '%' :: ps, s =>
      likeChars fuel ps s ||
        (match s with
         | [] => false
         | _ :: cs => likeChars fuel ('%' :: ps) cs)
  | _ + 1, _ :: _, [] => false
  | fuel + 1, p :: ps, c :: cs =>
      (p == '_' || p.toLower == c.toLower) && likeChars fuel ps cs

/-- The condition `column LIKE pattern`. -/
def sqlLike (column pattern : String) : Bool :=
  likeChars (2 * (column.length + pattern.length) + 2) pattern.data column.data

/-- The values `questionType` may take (`CHECK` constraint of table `questions`,
and `validTypes` of `createQuestion`). -/
def validTypes : List String :=
  ["shorttext", "paragraph", "multiplechoice", "checkbox", "dropdown"]

/-- Stand-in for the library call `bcrypt.hash(password, 10)`. -/
def bcryptHash (password : String) : String :=
  "$2a$10$" ++ password

/-- Rows removed with a form when foreign keys are enforced
(`ON DELETE CASCADE` from `questions`, `responses` and `answer_values`). -/
def cascadeForms (gone : FormRow → Bool) (db : Db) : Db :=
  let goneForm (fid : Nat) : Bool := db.forms.any (fun f => gone f && f.id == fid)
  let goneQuestion (qid : Nat) : Bool :=
    db.questions.any (fun q => goneForm q.formId && q.id == qid)
  let goneResponse (rid : Nat) : Bool :=
    db.responses.any (fun r => goneForm r.formId && r.id == rid)
  { db with
    questions := db.questions.filter (fun q => !goneForm q.formId)
    responses := db.responses.filter (fun r => !goneForm r.formId)
    answers := db.answers.filter (fun a =>
      !((match a.formId with
         | some fid => goneForm fid
         | none => false) || goneQuestion a.questionId || goneResponse a.responseId)) }

/-- The statement `DELETE FROM users WHERE id = ?`. -/
def deleteUserRows (id : Nat) (db : Db) : Db :=
  let db1 := if db.foreignKeys then cascadeForms (fun f => f.userId == id) db else db
  { db1 with
    forms := if db.foreignKeys then db1.forms.filter (fun f => !(f.userId == id)) else db1.forms
    users := db1.users.filter (fun u => !(u.id == id)) }

/-- The statement `DELETE FROM forms WHERE id = ?`. -/
def deleteFormRows (id : Nat) (db : Db) : Db :=
  let db1 := if db.foreignKeys then cascadeForms (fun f => f.id == id) db else db
  { db1 with forms := db1.forms.filter (fun f => !(f.id == id)) }

/-- The statement `DELETE FROM questions WHERE id = ?`. -/
def deleteQuestionRows (id : Nat) (db : Db) : Db :=
  { db with
    questions := db.questions.filter (fun q => !(q.id == id))
    answers := if db.foreignKeys then db.answers.filter (fun a => !(a.questionId == id))
               else db.answers }

/-- The statement `DELETE FROM answer_values WHERE responseId = ?`. -/
def deleteAnswerRows (responseId : Nat) (db : Db) : Db :=
  { db with answers := db.answers.filter (fun a => !(a.responseId == responseId)) }

/-- The statement `DELETE FROM responses WHERE id = ?`. -/
def deleteResponseRows (id : Nat) (db : Db) : Db :=
  { db with
    responses := db.responses.filter (fun r => !(r.id == id))
    answers := if db.foreignKeys then db.answers.filter (fun a => !(a.responseId == id))
               else db.answers }

/-- The statement
`UPDATE questions SET questionOrder = ?, updatedAt = datetime('now') WHERE id = ? AND formId = ?`. -/
def updateQuestionOrder (newOrder : Int) (questionId formId : Nat) (now : Nat) (db : Db) : Db :=
  { db with
    questions := db.questions.map (fun q =>
      if q.id == questionId && q.formId == formId then
        { q with questionOrder := some newOrder, updatedAt := now }
      else q) }

/-- The row the `INSERT INTO answer_values` of `responseModel.js` writes: the
next key, the response, the question and the text; no `formId`. -/
def newAnswerRow (db : Db) (now responseId questionId : Nat) (answerText : String) : AnswerRow :=
  { id := db.answerSeq + 1, responseId := responseId, questionId := questionId, formId := none,
    answerText := answerText, createdAt := now }

/-- The tables with the row of `newAnswerRow` appended. -/
def insertAnswerRow (responseId questionId : Nat) (answerText : String) (now : Nat) (db : Db) :
    Db :=
  { db with
    answerSeq := db.answerSeq + 1
    answers := db.answers ++ [newAnswerRow db now responseId questionId answerText] }

/-- The statement `INSERT INTO answer_values (responseId, questionId, answerText, createdAt)`.
The `NOT NULL` columns are checked in the order of the table: `questionId`,
then `formId`, to which the statement gives no value (so the table of
`scripts/init-db.js` refuses every row), then `answerText`; the foreign keys to
`responses` and `questions` are checked when the connection enforces them. -/
def insertAnswer (responseId : Nat) (questionId : Option Nat) (answerText : Option String) :
    Eff (List Unit) :=
  withDb (fun now db =>
    match questionId with
    | none => .error "SQLITE_CONSTRAINT: NOT NULL constraint failed: answer_values.questionId"
    | some question =>
        if db.answerFormIdRequired then
          .error "SQLITE_CONSTRAINT: NOT NULL constraint failed: answer_values.formId"
        else
          match answerText with
          | none =>
              .error "SQLITE_CONSTRAINT: NOT NULL constraint failed: answer_values.answerText"
          | some text =>
              if db.foreignKeys &&
                  !(db.responses.any (fun r => r.id == responseId) &&
                    db.questions.any (fun q => q.id == question)) then
                .error "SQLITE_CONSTRAINT: FOREIGN KEY constraint failed"
              else .ok ([], insertAnswerRow responseId question text now db))

/-! ## Objects returned by the models -/

/-- A user as returned by `UserModel`. -/
structure User where
  id : Nat
  email : String
  name : String
  createdAt : Nat
  updatedAt : Nat
deriving DecidableEq, Repr

/-- A form as returned by `FormModel`. -/
structure Form where
  id : Nat
  userId : Nat
  title : String
  description : Option String
  createdAt : Nat
  updatedAt : Nat
deriving DecidableEq, Repr

/-- A question as returned by `QuestionModel`; `order` is `questionOrder || 0`. -/
structure Question where
  id : Nat
  formId : Nat
  text : String
  type : String
  required : Bool
  options : Option (List String)
  order : Int
  createdAt : Nat
  updatedAt : Nat
deriving DecidableEq, Repr

/-- A response as returned by `ResponseModel`. -/
structure Response where
  id : Nat
  formId : Nat
  respondentName : Option String
  respondentEmail : Option String
  createdAt : Nat
  updatedAt : Nat
deriving DecidableEq, Repr

/-- The object literal every `UserModel` function builds from a row. -/
def UserRow.toUser (u : UserRow) : User :=
  { id := u.id, email := u.email, name := u.name,
    createdAt := u.createdAt, updatedAt := u.updatedAt }

/-- The object literal every `FormModel` function builds from a row. -/
def FormRow.toForm (f : FormRow) : Form :=
  { id := f.id, userId := f.userId, title := f.title, description := f.description,
    createdAt := f.createdAt, updatedAt := f.updatedAt }

/-- The object literal every `QuestionModel` function builds from a row. -/
def QuestionRow.toQuestion (q : QuestionRow) : Question :=
  { id := q.id, formId := q.formId, text := q.questionText, type := q.questionType,
    required := q.required, options := q.options, order := q.questionOrder.getD 0,
    createdAt := q.createdAt, updatedAt := q.updatedAt }

/-- The object literal every `ResponseModel` function builds from a row. -/
def ResponseRow.toResponse (r : ResponseRow) : Response :=
  { id := r.id, formId := r.formId, respondentName := r.respondentName,
    respondentEmail := r.respondentEmail, createdAt := r.createdAt, updatedAt := r.updatedAt }

/-! ## `userDb` and `formDb` (`src/db/db.js`) -/

/-- The `updates` object of `userDb.updateUser`. -/
structure UserUpdate where
  email : Option String := none
  password : Option String := none
  name : Option String := none
deriving DecidableEq, Repr

/-- The test `if (s)` on a string field: present and not empty. -/
def truthy : Option String → Option String
  | some s => if s = "" then none else some s
  | none => none

namespace userDb

/-- The function `userDb.getAllUsers`. -/
def getAllUsers : Eff (List UserRow) :=
  query (fun db => orderBy (fun a b : UserRow => decide (a.createdAt ≤ b.createdAt)) true db.users)

/-- The function `userDb.getUserById`. -/
def getUserById (id : Nat) : Eff UserRow := do
  let rows ← query (fun db => db.users.filter (fun u => u.id == id))
  match rows with
  | [] => Eff.throw { message := s!"User with id {id} not found" }
  | row :: _ => pure row

/-- The function `userDb.updateUser`: the `UPDATE users SET ... WHERE id = ?`
statement with the `this.changes === 0` test, then the re-read. -/
def updateUser (id : Nat) (updates : UserUpdate) : Eff UserRow := do
  let email := truthy updates.email
  let password := (truthy updates.password).map bcryptHash
  let name := truthy updates.name
  let changes ← withDb (fun now db =>
    let hit := db.users.filter (fun u => u.id == id)
    match email with
    | some e =>
        if !hit.isEmpty && db.users.any (fun u => !(u.id == id) && u.email == e) then
          .error "SQLITE_CONSTRAINT: UNIQUE constraint failed: users.email"
        else
          .ok (hit.length, { db with users := db.users.map (fun u =>
            if u.id == id then
              { u with email := e, password := password.getD u.password,
                       name := name.getD u.name, updatedAt := now }
            else u) })
    | none =>
        .ok (hit.length, { db with users := db.users.map (fun u =>
          if u.id == id then
            { u with password := password.getD u.password,
                     name := name.getD u.name, updatedAt := now }
          else u) }))
  if changes = 0 then
    Eff.throw { message := s!"User with id {id} not found" }
  else
    getUserById id

/-- The function `userDb.deleteUser`. -/
def deleteUser (id : Nat) : Eff Unit := do
  let changes ← withDb (fun _ db =>
    .ok ((db.users.filter (fun u => u.id == id)).length, deleteUserRows id db))
  if changes = 0 then
    Eff.throw { message := s!"User with id {id} not found" }
  else
    pure ()

end userDb

/-- The `filter` argument of `formDb.getAllForms`. -/
structure FormFilter where
  title : Option String := none
  createdAfter : Option Nat := none
  createdBefore : Option Nat := none
deriving DecidableEq, Repr

/-- The `updates` object of `formDb.updateForm`. -/
structure FormUpdate where
  title : Option String := none
  description : Arg String := .undefined
deriving DecidableEq, Repr

/-- The `sort` argument of the `forms` query (`FormSort` of the schema). -/
structure FormSort where
  field : String
  order : String
deriving DecidableEq, Repr

/-- The row the `INSERT INTO forms` of `formDb.createForm` writes: the next key,
the owner, the title and the description. -/
def newFormRow (db : Db) (now userId : Nat) (title : String) (description : Option String) :
    FormRow :=
  { id := db.formSeq + 1, userId := userId, title := title, description := description,
    createdAt := now, updatedAt := now }

/-- The statement `INSERT INTO forms (userId, title, description, createdAt, updatedAt)`. -/
def insertFormRow (userId : Nat) (title : String) (description : Option String) (now : Nat)
    (db : Db) : Db :=
  { db with
    formSeq := db.formSeq + 1
    forms := db.forms ++ [newFormRow db now userId title description] }

namespace formDb

/-- The function `formDb.createForm`: the `INSERT`, then the `SELECT` of
`this.lastID`. -/
def createForm (userId : Nat) (title : String) (description : Option String) :
    Eff (Option FormRow) := do
  let lastID ← withDb (fun now db =>
    if db.foreignKeys && !db.users.any (fun u => u.id == userId) then
      .error "SQLITE_CONSTRAINT: FOREIGN KEY constraint failed"
    else
      .ok (db.formSeq + 1, insertFormRow userId title description now db))
  query (fun db => (db.forms.filter (fun f => f.id == lastID)).head?)

/-- The function `formDb.getAllForms`; the result is always `ORDER BY createdAt DESC`. -/
def getAllForms (userId : Option Nat) (filter : FormFilter) : Eff (List FormRow) :=
  query (fun db =>
    orderBy (fun a b : FormRow => decide (a.createdAt ≤ b.createdAt)) true
      (db.forms.filter (fun f =>
        (match userId with
         | some u => f.userId == u
         | none => true) &&
        (match truthy filter.title with
         | some t => sqlLike f.title ("%" ++ t ++ "%")
         | none => true) &&
        (match filter.createdAfter with
         | some t => decide (t ≤ f.createdAt)
         | none => true) &&
        (match filter.createdBefore with
         | some t => decide (f.createdAt ≤ t)
         | none => true))))

/-- The function `formDb.getFormById`. -/
def getFormById (id : Nat) : Eff FormRow := do
  let rows ← query (fun db => db.forms.filter (fun f => f.id == id))
  match rows with
  | [] => Eff.throw { message := s!"Form with id {id} not found" }
  | row :: _ => pure row

/-- The function `formDb.updateForm`. -/
def updateForm (id : Nat) (updates : FormUpdate) : Eff FormRow := do
  let title := truthy updates.title
  let changes ← withDb (fun now db =>
    .ok ((db.forms.filter (fun f => f.id == id)).length,
      { db with forms := db.forms.map (fun f =>
          if f.id == id then
            { f with
              title := title.getD f.title
              description :=
                (match updates.description with
                 | .undefined => f.description
                 | d => d.toColumn)
              updatedAt := now }
          else f) }))
  if changes = 0 then
    Eff.throw { message := s!"Form with id {id} not found" }
  else
    getFormById id

/-- The function `formDb.deleteForm`. -/
def deleteForm (id : Nat) : Eff Unit := do
  let changes ← withDb (fun _ db =>
    .ok ((db.forms.filter (fun f => f.id == id)).length, deleteFormRows id db))
  if changes = 0 then
    Eff.throw { message := s!"Form with id {id} not found" }
  else
    pure ()

end formDb

/-! ## `UserModel` and `FormModel` (`src/models`) -/

namespace UserModel

/-- The function `UserModel.getAll`. -/
def getAll : Eff (List User) := do
  let users ← userDb.getAllUsers
  pure (users.map UserRow.toUser)

/-- The function `UserModel.getById`. -/
def getById (id : Nat) : Eff User := do
  let user ← userDb.getUserById id
  pure user.toUser

/-- The function `UserModel.update`. -/
def update (id : Nat) (userData : UserUpdate) : Eff User := do
  let user ← userDb.updateUser id userData
  pure user.toUser

/-- The function `UserModel.delete`. -/
def delete (id : Nat) : Eff Unit :=
  userDb.deleteUser id

end UserModel

namespace FormModel

/-- The function `FormModel.create`; reading `form.id` of a missing row throws
a `TypeError`. -/
def create (userId : Nat) (title : String) (description : Option String) : Eff Form := do
  let form ← formDb.createForm userId title description
  match form with
  | some row => pure row.toForm
  | none => Eff.throw { message := "Cannot read properties of undefined (reading 'id')" }

/-- The function `FormModel.getAll`; the `sort` argument is not used. -/
def getAll (userId : Option Nat) (filter : FormFilter) (_sort : Option FormSort) :
    Eff (List Form) := do
  let forms ← formDb.getAllForms userId filter
  pure (forms.map FormRow.toForm)

/-- The function `FormModel.getById`. -/
def getById (id : Nat) : Eff Form := do
  let form ← formDb.getFormById id
  pure form.toForm

/-- The function `FormModel.update`. -/
def update (id : Nat) (formData : FormUpdate) : Eff Form := do
  let form ← formDb.updateForm id formData
  pure form.toForm

/-- The function `FormModel.delete`. -/
def delete (id : Nat) : Eff Unit :=
  formDb.deleteForm id

end FormModel

/-! ## `QuestionModel` (`src/models/questionModel.js`) -/

/-- The `questionData` argument of `QuestionModel.create`. -/
structure QuestionCreateInput where
  text : Option String := none
  type : Option String := none
  required : Option Bool := none
  options : Arg (List String) := .undefined
  order : Option Int := none
deriving DecidableEq, Repr

/-- The `questionData` argument of `QuestionModel.update`. -/
structure QuestionUpdateInput where
  text : Option String := none
  type : Option String := none
  required : Arg Bool := .undefined
  options : Arg (List String) := .undefined
  order : Arg Int := .undefined
deriving DecidableEq, Repr

/-- The `sort` argument of `QuestionModel.getByFormId`, which reads `sort.field`
and `sort.direction`. -/
structure QuestionSort where
  field : String
  direction : Option String := none
deriving DecidableEq, Repr

/-- The default clause `ORDER BY questionOrder ASC, id ASC`. -/
def questionOrderThenId (a b : QuestionRow) : Bool :=
  if a.questionOrder = b.questionOrder then decide (a.id ≤ b.id)
  else nullsFirst (fun x y : Int => decide (x ≤ y)) a.questionOrder b.questionOrder

/-- Whitespace between the tokens of an SQL statement. -/
def sqlIsSpace (c : Char) : Bool :=
  let n := c.toNat
  n == 0x20 || n == 0x09 || n == 0x0A || n == 0x0C || n == 0x0D

/-- The characters without the whitespace before and after them. -/
def sqlTrim (text : List Char) : List Char :=
  ((text.dropWhile sqlIsSpace).reverse.dropWhile sqlIsSpace).reverse

/-- The text `${sort.direction}` spliced after `ORDER BY column`.  SQLite reads
keywords without regard to case: `ASC`, or no text at all, sorts ascending
(`some false`), `DESC` descending (`some true`).  A `direction` that is
`undefined` is spliced as the word `undefined`, which the parser refuses
(`none`); every other text is taken to be refused as well (texts that continue
the clause, such as `DESC, id`, are not modelled). -/
def sqlDirection : Option String → Option Bool
  | none => none
  | some direction =>
      let word := (sqlTrim direction.data).map Char.toUpper
      if word = [] ∨ word = "ASC".data then some false
      else if word = "DESC".data then some true
      else none

namespace QuestionModel

/-- The function `QuestionModel.getByFormId`. -/
def getByFormId (formId : Nat) (sort : Option QuestionSort) : Eff (List Question) := do
  let ofForm (db : Db) : List QuestionRow := db.questions.filter (fun q => q.formId == formId)
  let byDefault : Eff (List QuestionRow) :=
    query (fun db => orderBy questionOrderThenId false (ofForm db))
  let byColumn (le : QuestionRow → QuestionRow → Bool) (direction : Option String) :
      Eff (List QuestionRow) :=
    withDb (fun _ db =>
      match sqlDirection direction with
      | some desc => .ok (orderBy le desc (ofForm db), db)
      | none => .error "SQLITE_ERROR: syntax error")
  let questions ←
    match sort with
    | none => byDefault
    | some s =>
        if s.field = "createdAt" then
          byColumn (fun a b => decide (a.createdAt ≤ b.createdAt)) s.direction
        else if s.field = "updatedAt" then
          byColumn (fun a b => decide (a.updatedAt ≤ b.updatedAt)) s.direction
        else if s.field = "order" then
          byColumn (fun a b => nullsFirst (fun x y : Int => decide (x ≤ y))
            a.questionOrder b.questionOrder) s.direction
        else byDefault
  pure (questions.map QuestionRow.toQuestion)

/-- The function `QuestionModel.getById`. -/
def getById (id : Nat) : Eff Question := do
  let questions ← query (fun db => db.questions.filter (fun q => q.id == id))
  match questions with
  | [] => Eff.throw { message := "Question not found" }
  | question :: _ => pure question.toQuestion

/-- The row the `INSERT INTO questions` of `QuestionModel.create` writes
(`required ? 1 : 0`, `JSON.stringify(options)`, `order || 0`, the next key). -/
def newQuestionRow (db : Db) (now formId : Nat) (text type : String)
    (questionData : QuestionCreateInput) : QuestionRow :=
  { id := db.questionSeq + 1, formId := formId, questionText := text, questionType := type,
    required := questionData.required.getD false,
    options :=
      (match questionData.options with
       | .undefined => some []
       | o => o.toColumn),
    questionOrder := some (questionData.order.getD 0),
    createdAt := now, updatedAt := now }

/-- The statement `INSERT INTO questions (formId, questionText, questionType, ...)`. -/
def insertQuestionRow (formId : Nat) (text type : String) (questionData : QuestionCreateInput)
    (now : Nat) (db : Db) : Db :=
  { db with
    questionSeq := db.questionSeq + 1
    questions := db.questions ++ [newQuestionRow db now formId text type questionData] }

/-- The function `QuestionModel.create`: the `INSERT`, then the `SELECT` of the
newest question of the form with the same text. -/
def create (formId : Nat) (questionData : QuestionCreateInput) : Eff Question := do
  let _ ← withDb (fun now db =>
    match questionData.text, questionData.type with
    | none, _ => .error "SQLITE_CONSTRAINT: NOT NULL constraint failed: questions.questionText"
    | some _, none =>
        .error "SQLITE_CONSTRAINT: NOT NULL constraint failed: questions.questionType"
    | some text, some type =>
        if !validTypes.contains type then
          .error "SQLITE_CONSTRAINT: CHECK constraint failed: questionType"
        else if db.foreignKeys && !db.forms.any (fun f => f.id == formId) then
          .error "SQLITE_CONSTRAINT: FOREIGN KEY constraint failed"
        else .ok (([] : List Unit), insertQuestionRow formId text type questionData now db))
  let questions ← query (fun db =>
    (orderBy (fun a b : QuestionRow => decide (a.id ≤ b.id)) true
      (db.questions.filter (fun q =>
        q.formId == formId && some q.questionText == questionData.text))).take 1)
  match questions with
  | [] => Eff.throw { message := "Failed to create question" }
  | question :: _ => pure question.toQuestion

/-- The function `QuestionModel.update`: `UPDATE questions SET ... WHERE id = ?`,
then the re-read.  The row is found by `id` alone. -/
def update (id : Nat) (questionData : QuestionUpdateInput) : Eff Question := do
  let text := truthy questionData.text
  let type := truthy questionData.type
  let _ ← withDb (fun now db =>
    if db.questions.any (fun q => q.id == id) &&
        (match type with
         | some t => !validTypes.contains t
         | none => false) then
      .error "SQLITE_CONSTRAINT: CHECK constraint failed: questionType"
    else
      .ok (([] : List Unit), { db with questions := db.questions.map (fun q =>
        if q.id == id then
          { q with
            questionText := text.getD q.questionText
            questionType := type.getD q.questionType
            required :=
              (match questionData.required with
               | .undefined => q.required
               | .null => false
               | .value b => b)
            options :=
              (match questionData.options with
               | .undefined => q.options
               | o => o.toColumn)
            questionOrder :=
              (match questionData.order with
               | .undefined => q.questionOrder
               | o => o.toColumn)
            updatedAt := now }
        else q) }))
  getById id

/-- The function `QuestionModel.deleteQuestion`. -/
def deleteQuestion (id : Nat) : Eff Unit := do
  let _ ← execute (fun _ db => deleteQuestionRows id db)
  pure ()

/-- The loop `for (let i = 0; i < questionIds.length; i++)` of
`QuestionModel.reorderQuestions`, from index `i` on. -/
def reorderLoop (formId : Nat) : List Nat → Nat → Eff Unit
  | [], _ => pure ()
  | questionId :: rest, i => do
      let newOrder : Int := i + 1
      let _ ← execute (updateQuestionOrder newOrder questionId formId)
      reorderLoop formId rest (i + 1)

/-- The function `QuestionModel.reorderQuestions`. -/
def reorderQuestions (formId : Nat) (questionIds : List Nat) : Eff Unit := do
  let existingQuestions ← getByFormId formId none
  let existingIds := existingQuestions.map (fun q => q.id)
  match questionIds.find? (fun id => !existingIds.contains id) with
  | some id => Eff.throw { message := s!"Question with ID {id} not found in form {formId}" }
  | none =>
      if questionIds.length ≠ existingIds.length then
        Eff.throw { message := "All questions must be included in the reorder operation" }
      else
        reorderLoop formId questionIds 0

end QuestionModel

/-! ## `ResponseModel` (`src/models/responseModel.js`) -/

/-- An entry of the `answers` list of a response payload. -/
structure AnswerInput where
  questionId : Option Nat := none
  answer : Option String := none
deriving DecidableEq, Repr

/-- The `responseData` argument of `ResponseModel.update`. -/
structure ResponseUpdateInput where
  respondentName : Arg String := .undefined
  respondentEmail : Arg String := .undefined
  answers : Option (List AnswerInput) := none
deriving DecidableEq, Repr

/-- The `sort` argument of `ResponseModel.getByFormId`. -/
structure ResponseSort where
  field : String
  order : String
deriving DecidableEq, Repr

namespace ResponseModel

/-- The function `ResponseModel.getByFormId`. -/
def getByFormId (formId : Nat) (sort : Option ResponseSort) : Eff (List Response) := do
  let byCreatedAt (a b : ResponseRow) : Bool := decide (a.createdAt ≤ b.createdAt)
  let responses ← query (fun db =>
    let ofForm := db.responses.filter (fun r => r.formId == formId)
    match sort with
    | some s =>
        let desc : Bool := s.order = "DESC"
        if s.field = "CREATED_AT" then orderBy byCreatedAt desc ofForm
        else if s.field = "UPDATED_AT" then
          orderBy (fun a b => decide (a.updatedAt ≤ b.updatedAt)) desc ofForm
        else if s.field = "RESPONDENT_NAME" then
          orderBy (fun a b => nullsFirst (fun x y : String => decide (x ≤ y))
            a.respondentName b.respondentName) desc ofForm
        else orderBy byCreatedAt desc ofForm
    | none => orderBy byCreatedAt true ofForm)
  pure (responses.map ResponseRow.toResponse)

/-- The function `ResponseModel.getById`. -/
def getById (id : Nat) : Eff Response := do
  let responses ← query (fun db => db.responses.filter (fun r => r.id == id))
  match responses with
  | [] => Eff.throw { message := s!"Response with id {id} not found" }
  | response :: _ => pure response.toResponse

/-- The loop `for (const answer of responseData.answers)`. -/
def insertAnswers (responseId : Nat) : List AnswerInput → Eff Unit
  | [] => pure ()
  | answer :: rest => do
      let _ ← insertAnswer responseId answer.questionId answer.answer
      insertAnswers responseId rest

/-- The statement `UPDATE responses SET ... WHERE id = ?` of `ResponseModel.update`. -/
def updateResponseRow (id : Nat) (responseData : ResponseUpdateInput) (now : Nat) (db : Db) :
    Db :=
  { db with responses := db.responses.map (fun r =>
      if r.id == id then
        { r with
          respondentName :=
            (match responseData.respondentName with
             | .undefined => r.respondentName
             | n => n.toColumn)
          respondentEmail :=
            (match responseData.respondentEmail with
             | .undefined => r.respondentEmail
             | e => e.toColumn)
          updatedAt := now }
      else r) }

/-- The function `ResponseModel.update`.  The row is found by `id` alone. -/
def update (id : Nat) (responseData : ResponseUpdateInput) : Eff Response := do
  let _ ← execute (updateResponseRow id responseData)
  match responseData.answers with
  | some answers =>
      let _ ← execute (fun _ db => deleteAnswerRows id db)
      insertAnswers id answers
  | none => pure ()
  getById id

/-- The function `ResponseModel.delete`. -/
def delete (id : Nat) : Eff Unit := do
  let _ ← execute (fun _ db => deleteAnswerRows id db)
  let _ ← execute (fun _ db => deleteResponseRows id db)
  pure ()

end ResponseModel

/-! ## Resolvers (`src/resolvers/index.js`) -/

/-- An entry of `details`, built by `createErrorDetail`. -/
structure ErrorDetail where
  field : String
  message : String
  constraint : Option String := none
deriving DecidableEq, Repr

/-- The `Error` object built by `createError`. -/
structure ErrorEnvelope where
  code : String
  message : String
  httpStatus : Nat
  details : List ErrorDetail
deriving DecidableEq, Repr

/-- The user object `UserModel.validateCredentials` returns. -/
structure SessionUser where
  id : Nat
  email : String
  name : String
deriving DecidableEq, Repr

/-- The `Session` object built by `login`. -/
structure Session where
  token : String
  userId : Nat
  user : SessionUser
  expiresAt : Nat
deriving DecidableEq, Repr

/-- The `HealthStatus` object built by `health`. -/
structure HealthStatus where
  status : String
  message : String
  timestamp : Nat
  version : String
deriving DecidableEq, Repr

/-- What a resolver returns, tagged by the GraphQL type it resolves to. -/
inductive Result where
  | error (e : ErrorEnvelope)
  | user (u : User)
  | usersList (users : List User) (count : Nat)
  | form (f : Form)
  | formsList (forms : List Form) (count : Nat)
  | question (q : Question)
  | questionsList (questions : List Question) (count : Nat)
  | response (r : Response)
  | responsesList (responses : List Response) (count : Nat)
  | successResult (success : Bool) (message : String)
  | session (s : Session)
  | healthStatus (h : HealthStatus)
deriving DecidableEq, Repr

/-- Whether the result is an `Error` envelope. -/
def Result.isError : Result → Bool
  | .error _ => true
  | _ => false

/-- The helper `createError`, with its defaults `httpStatus = 400`, `details = []`. -/
def createError (code message : String) (httpStatus : Nat := 400)
    (details : List ErrorDetail := []) : Result :=
  .error { code := code, message := message, httpStatus := httpStatus, details := details }

/-- The helper `createErrorDetail`, with its default `constraint = null`. -/
def createErrorDetail (field message : String) (constraint : Option String := none) :
    ErrorDetail :=
  { field := field, message := message, constraint := constraint }

/-- The identity `createContext` decodes from a token. -/
structure Identity where
  id : Nat
  email : String
deriving DecidableEq, Repr

/-- The GraphQL context; `user` is `null` for an anonymous caller. -/
structure Context where
  user : Option Identity
deriving DecidableEq, Repr

/-- The helper `getAuthenticatedUser`. -/
def getAuthenticatedUser (context : Context) : Eff Identity :=
  match context.user with
  | none => Eff.throw { message := "Authentication required", code := some "UNAUTHORIZED" }
  | some user => pure user

/-- The test `error.extensions?.code === 'UNAUTHORIZED'` of the `catch` blocks. -/
def isUnauthorized (error : JsError) : Bool :=
  error.code == some "UNAUTHORIZED"

/-- The `input` argument of `createForm`. -/
structure FormCreateInput where
  title : Option String := none
  description : Option String := none
deriving DecidableEq, Repr

namespace Query

/-- The resolver `Query.me`. -/
def me (context : Context) : Eff Result :=
  Eff.tryCatch (do
    let user ← getAuthenticatedUser context
    let u ← UserModel.getById user.id
    pure (.user u))
  (fun error =>
    if isUnauthorized error then pure (createError "UNAUTHORIZED" "Authentication required" 401)
    else pure (createError "USER_NOT_FOUND" error.message 404))

/-- The resolver `Query.users`. -/
def users (context : Context) : Eff Result :=
  Eff.tryCatch (do
    let _ ← getAuthenticatedUser context
    let users ← UserModel.getAll
    pure (.usersList users users.length))
  (fun error =>
    if isUnauthorized error then pure (createError "UNAUTHORIZED" "Authentication required" 401)
    else pure (createError "INTERNAL_ERROR" "Failed to fetch users" 500))

/-- The resolver `Query.user`. -/
def user (id : Nat) (context : Context) : Eff Result :=
  Eff.tryCatch (do
    let _ ← getAuthenticatedUser context
    let u ← UserModel.getById id
    pure (.user u))
  (fun error =>
    if isUnauthorized error then pure (createError "UNAUTHORIZED" "Authentication required" 401)
    else pure (createError "USER_NOT_FOUND" error.message 404))

/-- The resolver `Query.forms`.  A `filter` that is `undefined` takes the
default `{}`; reading `filter.title` of `null` throws a `TypeError`. -/
def forms (filter : Arg FormFilter) (sort : Option FormSort) (context : Context) :
    Eff Result :=
  Eff.tryCatch (do
    let user ← getAuthenticatedUser context
    let forms ←
      match filter with
      | .undefined => FormModel.getAll (some user.id) {} sort
      | .value f => FormModel.getAll (some user.id) f sort
      | .null => Eff.throw { message := "Cannot read properties of null (reading 'title')" }
    pure (.formsList forms forms.length))
  (fun error =>
    if isUnauthorized error then pure (createError "UNAUTHORIZED" "Authentication required" 401)
    else pure (createError "INTERNAL_ERROR" "Failed to fetch forms" 500))

/-- The resolver `Query.form`. -/
def form (id : Nat) (context : Context) : Eff Result :=
  Eff.tryCatch (do
    let _ ← getAuthenticatedUser context
    let f ← FormModel.getById id
    pure (.form f))
  (fun error =>
    if isUnauthorized error then pure (createError "UNAUTHORIZED" "Authentication required" 401)
    else pure (createError "FORM_NOT_FOUND" error.message 404))

/-- The resolver `Query.questions`. -/
def questions (formId : Nat) (sort : Option QuestionSort) (context : Context) : Eff Result :=
  Eff.tryCatch (do
    let _ ← getAuthenticatedUser context
    let questions ← QuestionModel.getByFormId formId sort
    pure (.questionsList questions questions.length))
  (fun error =>
    if isUnauthorized error then pure (createError "UNAUTHORIZED" "Authentication required" 401)
    else pure (createError "INTERNAL_ERROR" "Failed to fetch questions" 500))

/-- The resolver `Query.question`; `formId` is not used. -/
def question (_formId id : Nat) (context : Context) : Eff Result :=
  Eff.tryCatch (do
    let _ ← getAuthenticatedUser context
    let q ← QuestionModel.getById id
    pure (.question q))
  (fun error =>
    if isUnauthorized error then pure (createError "UNAUTHORIZED" "Authentication required" 401)
    else pure (createError "QUESTION_NOT_FOUND" error.message 404))

/-- The resolver `Query.responses`. -/
def responses (formId : Nat) (sort : Option ResponseSort) (context : Context) : Eff Result :=
  Eff.tryCatch (do
    let _ ← getAuthenticatedUser context
    let responses ← ResponseModel.getByFormId formId sort
    pure (.responsesList responses responses.length))
  (fun error =>
    if isUnauthorized error then pure (createError "UNAUTHORIZED" "Authentication required" 401)
    else pure (createError "INTERNAL_ERROR" "Failed to fetch responses" 500))

/-- The resolver `Query.response`; `formId` is not used. -/
def response (_formId id : Nat) (context : Context) : Eff Result :=
  Eff.tryCatch (do
    let _ ← getAuthenticatedUser context
    let r ← ResponseModel.getById id
    pure (.response r))
  (fun error =>
    if isUnauthorized error then pure (createError "UNAUTHORIZED" "Authentication required" 401)
    else pure (createError "RESPONSE_NOT_FOUND" error.message 404))

end Query

namespace Mutation

/-- The resolver `Mutation.logout`. -/
def logout (context : Context) : Eff Result :=
  Eff.tryCatch (do
    let _ ← getAuthenticatedUser context
    pure (.successResult true "Logged out successfully"))
  (fun _ => pure (createError "UNAUTHORIZED" "Authentication required" 401))

/-- The resolver `Mutation.updateUser`. -/
def updateUser (id : Nat) (input : UserUpdate) (context : Context) : Eff Result :=
  Eff.tryCatch (do
    let currentUser ← getAuthenticatedUser context
    if currentUser.id ≠ id then
      pure (createError "FORBIDDEN" "You can only update your own profile" 403)
    else do
      let user ← UserModel.update id input
      pure (.user user))
  (fun error =>
    if isUnauthorized error then pure (createError "UNAUTHORIZED" "Authentication required" 401)
    else pure (createError "VALIDATION_ERROR" error.message 400))

/-- The resolver `Mutation.deleteUser` (the assignment `context.user = null`
only affects the request's own context object). -/
def deleteUser (id : Nat) (context : Context) : Eff Result :=
  Eff.tryCatch (do
    let currentUser ← getAuthenticatedUser context
    if currentUser.id ≠ id then
      pure (createError "FORBIDDEN" "You can only delete your own account" 403)
    else do
      UserModel.delete id
      pure (.successResult true "User deleted successfully and logged out"))
  (fun error =>
    if isUnauthorized error then pure (createError "UNAUTHORIZED" "Authentication required" 401)
    else pure (createError "USER_NOT_FOUND" error.message 404))

/-- The validation block of `createForm`. -/
def createFormErrors (input : FormCreateInput) : List ErrorDetail :=
  (if jsBlank input.title then
     [createErrorDetail "title" "Form title is required"]
   else if 200 < jsLength (input.title.getD "") then
     [createErrorDetail "title" "Form title must be 200 characters or less" (some "MAX_LENGTH")]
   else []) ++
  (match truthy input.description with
   | some d =>
       if 1000 < jsLength d then
         [createErrorDetail "description" "Form description must be 1000 characters or less"
            (some "MAX_LENGTH")]
       else []
   | none => [])

/-- The resolver `Mutation.createForm`. -/
def createForm (input : FormCreateInput) (context : Context) : Eff Result :=
  Eff.tryCatch (do
    let user ← getAuthenticatedUser context
    let errors := createFormErrors input
    if 0 < errors.length then
      pure (createError "VALIDATION_ERROR" "Invalid form data" 400 errors)
    else do
      let form ← FormModel.create user.id (input.title.getD "") input.description
      pure (.form form))
  (fun error =>
    if isUnauthorized error then pure (createError "UNAUTHORIZED" "Authentication required" 401)
    else pure (createError "INTERNAL_ERROR" "Failed to create form" 500))

/-- The resolver `Mutation.updateForm`. -/
def updateForm (id : Nat) (input : FormUpdate) (context : Context) : Eff Result :=
  Eff.tryCatch (do
    let user ← getAuthenticatedUser context
    let form ← FormModel.getById id
    if form.userId ≠ user.id then
      pure (createError "FORBIDDEN" "You can only update your own forms" 403)
    else do
      let updatedForm ← FormModel.update id input
      pure (.form updatedForm))
  (fun error =>
    if isUnauthorized error then pure (createError "UNAUTHORIZED" "Authentication required" 401)
    else pure (createError "FORM_NOT_FOUND" error.message 404))

/-- The resolver `Mutation.deleteForm`. -/
def deleteForm (id : Nat) (context : Context) : Eff Result :=
  Eff.tryCatch (do
    let user ← getAuthenticatedUser context
    let form ← FormModel.getById id
    if form.userId ≠ user.id then
      pure (createError "FORBIDDEN" "You can only delete your own forms" 403)
    else do
      FormModel.delete id
      pure (.successResult true "Form deleted successfully"))
  (fun error =>
    if isUnauthorized error then pure (createError "UNAUTHORIZED" "Authentication required" 401)
    else pure (createError "FORM_NOT_FOUND" error.message 404))

/-- The validation block of `createQuestion`. -/
def createQuestionErrors (input : QuestionCreateInput) : List ErrorDetail :=
  (if jsBlank input.text then
     [createErrorDetail "text" "Question text is required"]
   else if 500 < jsLength (input.text.getD "") then
     [createErrorDetail "text" "Question text must be 500 characters or less" (some "MAX_LENGTH")]
   else []) ++
  (match truthy input.type with
   | some t =>
       if validTypes.contains t then []
       else [createErrorDetail "type"
               ("Question type must be one of: " ++ ", ".intercalate validTypes)
               (some "INVALID_VALUE")]
   | none => [createErrorDetail "type"
               ("Question type must be one of: " ++ ", ".intercalate validTypes)
               (some "INVALID_VALUE")]) ++
  (match input.type with
   | some t =>
       if ["multiplechoice", "checkbox", "dropdown"].contains t then
         (match input.options with
          | .value options =>
              if options.length < 2 then
                [createErrorDetail "options"
                   "At least 2 options are required for choice questions" (some "MIN_OPTIONS")]
              else []
          | _ => [createErrorDetail "options"
                   "At least 2 options are required for choice questions" (some "MIN_OPTIONS")])
       else []
   | none => [])

/-- The resolver `Mutation.createQuestion` (the test `!form` never holds of the
object `FormModel.getById` returns). -/
def createQuestion (formId : Nat) (input : QuestionCreateInput) (context : Context) :
    Eff Result :=
  Eff.tryCatch (do
    let user ← getAuthenticatedUser context
    let form ← FormModel.getById formId
    if form.userId ≠ user.id then
      pure (createError "FORBIDDEN" "You can only add questions to your own forms" 403)
    else
      let errors := createQuestionErrors input
      if 0 < errors.length then
        pure (createError "VALIDATION_ERROR" "Invalid question data" 400 errors)
      else do
        let question ← QuestionModel.create formId input
        pure (.question question))
  (fun error =>
    if isUnauthorized error then pure (createError "UNAUTHORIZED" "Authentication required" 401)
    else pure (createError "INTERNAL_ERROR" "Failed to create question" 500))

/-- The resolver `Mutation.updateQuestion`. -/
def updateQuestion (formId id : Nat) (input : QuestionUpdateInput) (context : Context) :
    Eff Result :=
  Eff.tryCatch (do
    let user ← getAuthenticatedUser context
    let form ← FormModel.getById formId
    if form.userId ≠ user.id then
      pure (createError "FORBIDDEN" "You can only update questions in your own forms" 403)
    else do
      let question ← QuestionModel.update id input
      pure (.question question))
  (fun error =>
    if isUnauthorized error then pure (createError "UNAUTHORIZED" "Authentication required" 401)
    else pure (createError "QUESTION_NOT_FOUND" error.message 404))

/-- The resolver `Mutation.deleteQuestion`. -/
def deleteQuestion (formId id : Nat) (context : Context) : Eff Result :=
  Eff.tryCatch (do
    let user ← getAuthenticatedUser context
    let form ← FormModel.getById formId
    if form.userId ≠ user.id then
      pure (createError "FORBIDDEN" "You can only delete questions from your own forms" 403)
    else do
      QuestionModel.deleteQuestion id
      pure (.successResult true "Question deleted successfully"))
  (fun error =>
    if isUnauthorized error then pure (createError "UNAUTHORIZED" "Authentication required" 401)
    else pure (createError "QUESTION_NOT_FOUND" error.message 404))

/-- The resolver `Mutation.reorderQuestions` (the test `!form` never holds of
the object `FormModel.getById` returns; `questionIds` is a list). -/
def reorderQuestions (formId : Nat) (questionIds : List Nat) (context : Context) :
    Eff Result :=
  Eff.tryCatch (do
    let user ← getAuthenticatedUser context
    let form ← FormModel.getById formId
    if form.userId ≠ user.id then
      pure (createError "FORBIDDEN" "You can only reorder questions in your own forms" 403)
    else if questionIds.length = 0 then
      pure (createError "VALIDATION_ERROR" "Question IDs array is required" 400
        [createErrorDetail "questionIds" "At least one question ID is required"])
    else do
      QuestionModel.reorderQuestions formId questionIds
      let updatedForm ← FormModel.getById formId
      pure (.form updatedForm))
  (fun error =>
    if isUnauthorized error then pure (createError "UNAUTHORIZED" "Authentication required" 401)
    else if jsIncludes error.message "not found in form" then
      pure (createError "VALIDATION_ERROR" error.message 400
        [createErrorDetail "questionIds" error.message (some "INVALID_QUESTION_ID")])
    else pure (createError "INTERNAL_ERROR" "Failed to reorder questions" 500))

/-- The resolver `Mutation.updateResponse`. -/
def updateResponse (formId id : Nat) (input : ResponseUpdateInput) (context : Context) :
    Eff Result :=
  Eff.tryCatch (do
    let user ← getAuthenticatedUser context
    let form ← FormModel.getById formId
    if form.userId ≠ user.id then
      pure (createError "FORBIDDEN" "You can only update responses in your own forms" 403)
    else do
      let response ← ResponseModel.update id input
      pure (.response response))
  (fun error =>
    if isUnauthorized error then pure (createError "UNAUTHORIZED" "Authentication required" 401)
    else pure (createError "RESPONSE_NOT_FOUND" error.message 404))

/-- The resolver `Mutation.deleteResponse`. -/
def deleteResponse (formId id : Nat) (context : Context) : Eff Result :=
  Eff.tryCatch (do
    let user ← getAuthenticatedUser context
    let form ← FormModel.getById formId
    if form.userId ≠ user.id then
      pure (createError "FORBIDDEN" "You can only delete responses from your own forms" 403)
    else do
      ResponseModel.delete id
      pure (.successResult true "Response deleted successfully"))
  (fun error =>
    if isUnauthorized error then pure (createError "UNAUTHORIZED" "Authentication required" 401)
    else pure (createError "RESPONSE_NOT_FOUND" error.message 404))

end Mutation

/-! ## Registration (`userDb.createUser`, `UserModel.create`, `Mutation.register`) -/

/-- The row the `INSERT INTO users` of `userDb.createUser` writes: the next
key, the e-mail, the hashed password and the name. -/
def newUserRow (db : Db) (now : Nat) (email hashedPassword name : String) : UserRow :=
  { id := db.userSeq + 1, email := email, password := hashedPassword, name := name,
    createdAt := now, updatedAt := now }

/-- The statement `INSERT INTO users (email, password, name, createdAt, updatedAt)`. -/
def insertUserRow (email hashedPassword name : String) (now : Nat) (db : Db) : Db :=
  { db with
    userSeq := db.userSeq + 1
    users := db.users ++ [newUserRow db now email hashedPassword name] }

/-- The function `userDb.createUser`: the `INSERT` (column `email` is
`UNIQUE`), then the `SELECT` of `this.lastID`. -/
def userDb.createUser (email password name : String) : Eff (Option UserRow) := do
  let hashedPassword := bcryptHash password
  let lastID ← withDb (fun now db =>
    if db.users.any (fun u => u.email == email) then
      .error "SQLITE_CONSTRAINT: UNIQUE constraint failed: users.email"
    else
      .ok (db.userSeq + 1, insertUserRow email hashedPassword name now db))
  query (fun db => (db.users.filter (fun u => u.id == lastID)).head?)

/-- The function `UserModel.create`; reading `user.id` of a missing row throws
a `TypeError`. -/
def UserModel.create (email password name : String) : Eff User := do
  let user ← userDb.createUser email password name
  match user with
  | some row => pure row.toUser
  | none => Eff.throw { message := "Cannot read properties of undefined (reading 'id')" }

/-- The `input` argument of `register`. -/
structure UserCreateInput where
  email : Option String := none
  password : Option String := none
  name : Option String := none
deriving DecidableEq, Repr

/-- The class `[^\s@]` of the e-mail pattern. -/
def isEmailChar (c : Char) : Bool :=
  !(jsIsWhitespace c || c == '@')

/-- The tail `[^\s@]+$` of the e-mail pattern. -/
def matchTld (rest : List Char) : Bool :=
  !rest.isEmpty && rest.all isEmailChar

/-- The part `[^\s@]*\.[^\s@]+$`: what may follow the first character of the
second group. -/
def matchDomainRest : List Char → Bool
  | [] => false
  | c :: cs => (c == '.' && matchTld cs) || (isEmailChar c && matchDomainRest cs)

/-- The part `[^\s@]+\.[^\s@]+$` of the e-mail pattern. -/
def matchDomain : List Char → Bool
  | [] => false
  | c :: cs => isEmailChar c && matchDomainRest cs

/-- The part `[^\s@]*@[^\s@]+\.[^\s@]+$`: what may follow the first character
of the first group. -/
def matchLocalRest : List Char → Bool
  | [] => false
  | c :: cs => (c == '@' && matchDomain cs) || (isEmailChar c && matchLocalRest cs)

/-- The test `/^[^\s@]+@[^\s@]+\.[^\s@]+$/.test(email)`. -/
def emailRegexTest (email : String) : Bool :=
  match email.data with
  | [] => false
  | c :: cs => isEmailChar c && matchLocalRest cs

/-- The validation block of `register`. -/
def registerErrors (input : UserCreateInput) : List ErrorDetail :=
  (if jsBlank input.email then
     [createErrorDetail "email" "Email is required"]
   else if !emailRegexTest (input.email.getD "") then
     [createErrorDetail "email" "Invalid email format" (some "EMAIL_FORMAT")]
   else []) ++
  (match input.password with
   | some p =>
       if jsLength p < 8 then
         [createErrorDetail "password" "Password must be at least 8 characters long"
            (some "MIN_LENGTH")]
       else []
   | none => [createErrorDetail "password" "Password must be at least 8 characters long"
               (some "MIN_LENGTH")]) ++
  (if jsBlank input.name then [createErrorDetail "name" "Name is required"] else [])

/-- The `catch` block of `register`. -/
def registerCatch (error : JsError) : Eff Result :=
  if jsIncludes error.message "UNIQUE constraint failed" then
    pure (createError "DUPLICATE_EMAIL" "Email already exists" 409
      [createErrorDetail "email" "This email is already registered" (some "UNIQUE")])
  else if jsIncludes error.message "validation" then
    pure (createError "VALIDATION_ERROR" "Password does not meet requirements" 400
      [createErrorDetail "password" error.message (some "PASSWORD_POLICY")])
  else pure (createError "INTERNAL_ERROR" "Registration failed" 500)

/-- The resolver `Mutation.register`. -/
def Mutation.register (input : UserCreateInput) : Eff Result :=
  Eff.tryCatch (do
    let errors := registerErrors input
    if 0 < errors.length then
      pure (createError "VALIDATION_ERROR" "Invalid input data" 400 errors)
    else do
      let user ← UserModel.create (input.email.getD "") (input.password.getD "")
        (input.name.getD "")
      pure (.user user))
  registerCatch

/-! ## Login and health (`userDb.validatePassword`, `Mutation.login`, `Query.health`) -/

/-- Stand-in for the library call `bcrypt.compare(password, hash)`. -/
def bcryptCompare (password hash : String) : Bool :=
  hash == bcryptHash password

/-- Stand-in for the library call
`jwt.sign({ userId, email }, JWT_SECRET, { expiresIn: '24h' })`; time is counted
in seconds. -/
def jwtSign (userId : Nat) (email : String) (now : Nat) : String :=
  s!"jwt.{userId}.{email}.{now + 86400}"

/-- The clock read by `new Date()` and `Date.now()`. -/
def currentTime : Eff Nat := fun w => (.ok w.now, w)

/-- The function `userDb.getUserByEmail`. -/
def userDb.getUserByEmail (email : String) : Eff (Option UserRow) :=
  query (fun db => (db.users.filter (fun u => u.email == email)).head?)

/-- The function `userDb.validatePassword`. -/
def userDb.validatePassword (email password : String) : Eff (Option SessionUser) := do
  let user ← userDb.getUserByEmail email
  match user with
  | none => pure none
  | some row =>
      if bcryptCompare password row.password then
        pure (some { id := row.id, email := row.email, name := row.name })
      else pure none

/-- The function `UserModel.validateCredentials`. -/
def UserModel.validateCredentials (email password : String) : Eff (Option SessionUser) := do
  let user ← userDb.validatePassword email password
  match user with
  | some u => pure (some { id := u.id, email := u.email, name := u.name })
  | none => pure none

/-- The `input` argument of `login`. -/
structure LoginInput where
  email : Option String := none
  password : Option String := none
deriving DecidableEq, Repr

/-- The validation block of `login`. -/
def loginErrors (input : LoginInput) : List ErrorDetail :=
  (if jsBlank input.email then [createErrorDetail "email" "Email is required"] else []) ++
  (if jsBlank input.password then [createErrorDetail "password" "Password is required"]
   else [])

/-- The resolver `Mutation.login`. -/
def Mutation.login (input : LoginInput) : Eff Result :=
  Eff.tryCatch (do
    let errors := loginErrors input
    if 0 < errors.length then
      pure (createError "VALIDATION_ERROR" "Invalid input data" 400 errors)
    else do
      let user ← UserModel.validateCredentials (input.email.getD "") (input.password.getD "")
      match user with
      | none =>
          pure (createError "INVALID_CREDENTIALS" "Invalid email or password" 401
            [createErrorDetail "credentials" "Email or password is incorrect"
              (some "AUTHENTICATION")])
      | some u => do
          let now ← currentTime
          pure (.session { token := jwtSign u.id u.email now, userId := u.id, user := u,
                           expiresAt := now + 86400 }))
  (fun _ => pure (createError "INTERNAL_ERROR" "Login failed" 500))

/-- The resolver `Query.health`. -/
def Query.health : Eff Result :=
  Eff.tryCatch (do
    let now ← currentTime
    pure (.healthStatus { status := "OK", message := "GraphQL server is running",
                          timestamp := now, version := "1.0.0" }))
  (fun _ => pure (createError "INTERNAL_ERROR" "Health check failed" 500))

/-! ## Response creation (`ResponseModel.create`, `Mutation.createResponse`) -/

/-- The `input` argument of `createResponse`. -/
structure ResponseCreateInput where
  answers : Option (List AnswerInput) := none
  respondentName : Option String := none
  respondentEmail : Option String := none
deriving DecidableEq, Repr

/-- The row the `INSERT INTO responses` of `ResponseModel.create` writes
(`respondentName || null`, `respondentEmail || null`, the next key). -/
def newResponseRow (db : Db) (now formId : Nat) (responseData : ResponseCreateInput) :
    ResponseRow :=
  { id := db.responseSeq + 1, formId := formId,
    respondentName := truthy responseData.respondentName,
    respondentEmail := truthy responseData.respondentEmail, createdAt := now, updatedAt := now }

/-- The statement `INSERT INTO responses (formId, respondentName, respondentEmail, ...)`. -/
def insertResponseRow (formId : Nat) (responseData : ResponseCreateInput) (now : Nat) (db : Db) :
    Db :=
  { db with
    responseSeq := db.responseSeq + 1
    responses := db.responses ++ [newResponseRow db now formId responseData] }

/-- The function `ResponseModel.create`: the `INSERT` of the response, the
`SELECT` of the newest response of the form, then one `INSERT` per answer. -/
def ResponseModel.create (formId : Nat) (responseData : ResponseCreateInput) : Eff Response := do
  let _ ← withDb (fun now db =>
    if db.foreignKeys && !db.forms.any (fun f => f.id == formId) then
      .error "SQLITE_CONSTRAINT: FOREIGN KEY constraint failed"
    else
      .ok (([] : List Unit), insertResponseRow formId responseData now db))
  let responses ← query (fun db =>
    (orderBy (fun a b : ResponseRow => decide (a.id ≤ b.id)) true
      (db.responses.filter (fun r => r.formId == formId))).take 1)
  match responses with
  | [] => Eff.throw { message := "Failed to create response" }
  | response :: _ =>
      match responseData.answers with
      | some answers => do
          ResponseModel.insertAnswers response.id answers
          pure response.toResponse
      | none => pure response.toResponse

/-- The loop `input.answers.forEach((answer, index) => ...)` of `createResponse`,
from index `index` on. -/
def answerErrors : List AnswerInput → Nat → List ErrorDetail
  | [], _ => []
  | answer :: rest, index =>
      (match answer.questionId with
       | some _ => []
       | none => [createErrorDetail s!"answers[{index}].questionId" "Question ID is required"]) ++
      (if jsBlank answer.answer then
         [createErrorDetail s!"answers[{index}].answer" "Answer value is required"]
       else []) ++
      answerErrors rest (index + 1)

/-- The validation block of `createResponse`. -/
def createResponseErrors (input : ResponseCreateInput) : List ErrorDetail :=
  match input.answers with
  | none => [createErrorDetail "answers" "At least one answer is required"]
  | some [] => [createErrorDetail "answers" "At least one answer is required"]
  | some answers => answerErrors answers 0

/-- The `catch` block of `createResponse`. -/
def createResponseCatch (error : JsError) : Eff Result :=
  if jsIncludes error.message "question not found" || jsIncludes error.message "FOREIGN KEY" then
    pure (createError "QUESTION_NOT_FOUND" "One or more questions not found" 404
      [createErrorDetail "questionId" "Invalid question ID" (some "FOREIGN_KEY")])
  else pure (createError "INTERNAL_ERROR" "Failed to create response" 500)

/-- The resolver `Mutation.createResponse`; it takes no identity (the test
`!form` never holds of the object `FormModel.getById` returns). -/
def Mutation.createResponse (formId : Nat) (input : ResponseCreateInput) : Eff Result :=
  Eff.tryCatch (do
    let _ ← FormModel.getById formId
    let errors := createResponseErrors input
    if 0 < errors.length then
      pure (createError "VALIDATION_ERROR" "Invalid response data" 400 errors)
    else do
      let response ← ResponseModel.create formId input
      pure (.response response))
  createResponseCatch

/-! ## The resolver map and the request context (`resolvers`, `src/context.js`) -/

/-- A field of `Query` or `Mutation` together with its arguments. -/
inductive Operation where
  | health
  | me
  | users
  | user (id : Nat)
  | forms (filter : Arg FormFilter) (sort : Option FormSort)
  | form (id : Nat)
  | questions (formId : Nat) (sort : Option QuestionSort)
  | question (formId id : Nat)
  | responses (formId : Nat) (sort : Option ResponseSort)
  | response (formId id : Nat)
  | login (input : LoginInput)
  | logout
  | register (input : UserCreateInput)
  | updateUser (id : Nat) (input : UserUpdate)
  | deleteUser (id : Nat)
  | createForm (input : FormCreateInput)
  | updateForm (id : Nat) (input : FormUpdate)
  | deleteForm (id : Nat)
  | createQuestion (formId : Nat) (input : QuestionCreateInput)
  | updateQuestion (formId id : Nat) (input : QuestionUpdateInput)
  | deleteQuestion (formId id : Nat)
  | reorderQuestions (formId : Nat) (questionIds : List Nat)
  | createResponse (formId : Nat) (input : ResponseCreateInput)
  | updateResponse (formId id : Nat) (input : ResponseUpdateInput)
  | deleteResponse (formId id : Nat)
deriving DecidableEq, Repr

/-- The object `resolvers`: the function run for each field of `Query` and
`Mutation`. -/
def resolvers : Operation → Context → Eff Result
  | .health, _ => Query.health
  | .me, context => Query.me context
  | .users, context => Query.users context
  | .user id, context => Query.user id context
  | .forms filter sort, context => Query.forms filter sort context
  | .form id, context => Query.form id context
  | .questions formId sort, context => Query.questions formId sort context
  | .question formId id, context => Query.question formId id context
  | .responses formId sort, context => Query.responses formId sort context
  | .response formId id, context => Query.response formId id context
  | .login input, _ => Mutation.login input
  | .logout, context => Mutation.logout context
  | .register input, _ => Mutation.register input
  | .updateUser id input, context => Mutation.updateUser id input context
  | .deleteUser id, context => Mutation.deleteUser id context
  | .createForm input, context => Mutation.createForm input context
  | .updateForm id input, context => Mutation.updateForm id input context
  | .deleteForm id, context => Mutation.deleteForm id context
  | .createQuestion formId input, context => Mutation.createQuestion formId input context
  | .updateQuestion formId id input, context => Mutation.updateQuestion formId id input context
  | .deleteQuestion formId id, context => Mutation.deleteQuestion formId id context
  | .reorderQuestions formId questionIds, context =>
      Mutation.reorderQuestions formId questionIds context
  | .createResponse formId input, _ => Mutation.createResponse formId input
  | .updateResponse formId id input, context => Mutation.updateResponse formId id input context
  | .deleteResponse formId id, context => Mutation.deleteResponse formId id context

/-- The payload `jwt.verify` decodes from a token signed by `login`. -/
structure TokenClaims where
  userId : Nat
  email : String
deriving DecidableEq, Repr

/-- The part of the request `createContext` reads: `req.headers.authorization`. -/
structure Request where
  authorization : Option String := none
deriving DecidableEq, Repr

/-- What is left of the character list after `needle`, when it starts with it. -/
def stripPrefixChars : List Char → List Char → Option (List Char)
  | [], s => some s
  | _ :: _, [] => none
  | a :: as, b :: bs => if a == b then stripPrefixChars as bs else none

/-- The first occurrence of `needle` replaced by `replacement`. -/
def replaceFirstChars (needle replacement : List Char) : List Char → List Char
  | [] => if needle.isEmpty then replacement else []
  | c :: cs =>
      match stripPrefixChars needle (c :: cs) with
      | some rest => replacement ++ rest
      | none => c :: replaceFirstChars needle replacement cs

/-- The method `String.prototype.replace` with a string pattern: only the
first occurrence is replaced. -/
def jsReplace (s needle replacement : String) : String :=
  ⟨replaceFirstChars needle.data replacement.data s.data⟩

/-- The function `createContext`.  The library call `jwt.verify(token, JWT_SECRET)`
is the argument `verify`: it returns the decoded claims or throws.  Of the
returned object only `user` is kept. -/
def createContext (verify : String → Except JsError TokenClaims) (req : Request) : Context :=
  match truthy req.authorization with
  | none => { user := none }
  | some authHeader =>
      let token := jsReplace authHeader "Bearer " ""
      match verify token with
      | .ok decoded => { user := some { id := decoded.userId, email := decoded.email } }
      | .error _ => { user := none }

/-! ## Notions used by the specification -/

/-- The world after one statement has been sent to the driver. -/
def World.next (w : World) : World :=
  { w with faults := w.faults.tail }

/-- The next statement is not rejected by the driver. -/
def World.Accepts (w : World) : Prop :=
  w.faults.head?.join = none

instance (w : World) : Decidable w.Accepts :=
  inferInstanceAs (Decidable (_ = none))

/-- The stored form with the given id, if any. -/
def Db.findForm (db : Db) (formId : Nat) : Option FormRow :=
  db.forms.find? (fun f => f.id == formId)

/-- The questions of a form. -/
def Db.questionsOf (db : Db) (formId : Nat) : List QuestionRow :=
  db.questions.filter (fun q => q.formId == formId)

/-- The ids of the questions of a form (the set `S` of the reorder contract). -/
def Db.questionIds (db : Db) (formId : Nat) : List Nat :=
  (db.questionsOf formId).map (fun q => q.id)

/-- The positions of the questions of a form, as the API reports them. -/
def Db.positions (db : Db) (formId : Nat) : List Int :=
  (db.questionsOf formId).map (fun q => q.toQuestion.order)

/-- The position a question id holds, as the API reports it. -/
def Db.positionOf (db : Db) (questionId : Nat) : Option Int :=
  (db.questions.find? (fun q => q.id == questionId)).map (fun q => q.toQuestion.order)

/-- The positions `1, 2, ..., n`. -/
def oneTo (n : Nat) : List Int :=
  List.map (fun k : Nat => (k : Int) + 1) (List.range n)

/-- The position invariant of the data model: in every form the positions are
exactly `1..N`, each once, `N` being the number of questions of the form. -/
def PositionInvariant (db : Db) : Prop :=
  ∀ formId : Nat, (db.positions formId).Perm (oneTo (db.questionsOf formId).length)

/-- The `PRIMARY KEY` of table `questions`: no two rows share an id. -/
def Db.QuestionKeysUnique (db : Db) : Prop :=
  (db.questions.map (fun q => q.id)).Nodup

instance (db : Db) : Decidable db.QuestionKeysUnique :=
  inferInstanceAs (Decidable (List.Nodup _))

/-- The resolver returned a `Form`. -/
def ReturnsForm (out : Except JsError Result × World) : Prop :=
  ∃ f : Form, out.1 = .ok (.form f)

/-- The resolver returned an `Error` envelope. -/
def ReturnsError (out : Except JsError Result × World) : Prop :=
  ∃ e : ErrorEnvelope, out.1 = .ok (.error e)

/-- The resolver returned the `Error` envelope with the given code and status
(and no details), and left the tables as they were in `w`. -/
def Rejects (code : String) (httpStatus : Nat) (w : World)
    (out : Except JsError Result × World) : Prop :=
  (∃ message : String, out.1 = .ok (createError code message httpStatus [])) ∧ out.2.db = w.db

/-- What the loop of `QuestionModel.reorderQuestions`, run from index `i` on
with no statement rejected, makes of one row of `questions`. -/
def reorderedRow (formId now : Nat) : List Nat → Nat → QuestionRow → QuestionRow
  | [], _, q => q
  | questionId :: rest, i, q =>
      reorderedRow formId now rest (i + 1)
        (if q.id == questionId && q.formId == formId then
           { q with questionOrder := some ((i : Int) + 1), updatedAt := now }
         else q)

/-- The tables after the loop of `QuestionModel.reorderQuestions` has run from
index `i` on with no statement rejected. -/
def reorderedDb (formId now : Nat) : List Nat → Nat → Db → Db
  | [], _, db => db
  | questionId :: rest, i, db =>
      reorderedDb formId now rest (i + 1)
        (updateQuestionOrder ((i : Int) + 1) questionId formId now db)

/-- The shape `local@domain.tld` in the words of the specification: one `@`,
before it a non-empty local part, after it a domain with a dot that has
something on both sides, and neither whitespace nor another `@` anywhere. -/
def EmailShape (email : String) : Prop :=
  ∃ localPart domain tld : List Char,
    email.data = localPart ++ '@' :: (domain ++ '.' :: tld) ∧
    localPart ≠ [] ∧ domain ≠ [] ∧ tld ≠ [] ∧
    ∀ c ∈ localPart ++ (domain ++ tld), jsIsWhitespace c = false ∧ c ≠ '@'

/-- The email of a registration input is present, non-blank and of the shape
`local@domain.tld`. -/
def EmailValid (input : UserCreateInput) : Prop :=
  ∃ e, input.email = some e ∧ jsBlank (some e) = false ∧ EmailShape e

/-- The password of a registration input has at least 8 characters
(`String.prototype.length`). -/
def PasswordValid (input : UserCreateInput) : Prop :=
  ∃ p, input.password = some p ∧ 8 ≤ jsLength p

/-- The name of a registration input is present and non-blank. -/
def NameValid (input : UserCreateInput) : Prop :=
  jsBlank input.name = false

/-- A registration input that passes validation, in the words of the
specification. -/
def RegistrationValid (input : UserCreateInput) : Prop :=
  EmailValid input ∧ PasswordValid input ∧ NameValid input

/-- A question input that passes validation, in the words of the
specification: the text is non-blank and at most 500 characters long, the type
is one of the five kinds, and a choice type comes with a list of at least 2
options. -/
def QuestionInputValid (input : QuestionCreateInput) : Prop :=
  (∃ t, input.text = some t ∧ jsBlank (some t) = false ∧ jsLength t ≤ 500) ∧
  (∃ ty, input.type = some ty ∧ ty ∈ validTypes) ∧
  (∀ ty, input.type = some ty → ty ∈ ["multiplechoice", "checkbox", "dropdown"] →
    ∃ options, input.options = .value options ∧ 2 ≤ options.length)

/-- The answer invariant of the data model: every answer has its response and
its question in the store, and they belong to the same form. -/
def AnswerConsistent (db : Db) : Prop :=
  ∀ a ∈ db.answers, ∃ r ∈ db.responses, ∃ q ∈ db.questions,
    r.id = a.responseId ∧ q.id = a.questionId ∧ q.formId = r.formId

instance (db : Db) : Decidable (AnswerConsistent db) :=
  inferInstanceAs (Decidable (∀ a ∈ db.answers, ∃ r ∈ db.responses, ∃ q ∈ db.questions,
    r.id = a.responseId ∧ q.id = a.questionId ∧ q.formId = r.formId))

/-- The resolver returned a `Response`. -/
def ReturnsResponse (out : Except JsError Result × World) : Prop :=
  ∃ r : Response, out.1 = .ok (.response r)

/-- The tables with answer rows appended: what the `INSERT`s of the answers of
a payload add, one key being issued for each row. -/
def withAnswers (stored : List AnswerRow) (db : Db) : Db :=
  { db with
    answerSeq := db.answerSeq + stored.length
    answers := db.answers ++ stored }

/-- The method `String.prototype.endsWith`. -/
def jsEndsWith (s suffix : String) : Bool :=
  startsWithChars suffix.data.reverse s.data.reverse

/-- The canonical pairing of error codes and HTTP statuses, in the words of
the specification. -/
def CanonicalStatus (code : String) (httpStatus : Nat) : Prop :=
  (code = "UNAUTHORIZED" ∧ httpStatus = 401) ∨
  (code = "FORBIDDEN" ∧ httpStatus = 403) ∨
  (code = "VALIDATION_ERROR" ∧ httpStatus = 400) ∨
  (jsEndsWith code "_NOT_FOUND" = true ∧ httpStatus = 404) ∨
  (code = "DUPLICATE_EMAIL" ∧ httpStatus = 409) ∨
  (code = "INVALID_CREDENTIALS" ∧ httpStatus = 401) ∨
  (code = "INTERNAL_ERROR" ∧ httpStatus = 500)

instance (code : String) (httpStatus : Nat) : Decidable (CanonicalStatus code httpStatus) := by
  unfold CanonicalStatus
  infer_instance

/-- The details an envelope may carry: any list under `VALIDATION_ERROR`, and
otherwise none, but for the three envelopes that are built with one fixed
detail (`login`, `register`, `createResponse`). -/
def DetailsAsBuilt (e : ErrorEnvelope) : Prop :=
  e.code = "VALIDATION_ERROR" ∨ e.details = [] ∨
  (e.code = "INVALID_CREDENTIALS" ∧
    e.details = [createErrorDetail "credentials" "Email or password is incorrect"
      (some "AUTHENTICATION")]) ∨
  (e.code = "DUPLICATE_EMAIL" ∧
    e.details = [createErrorDetail "email" "This email is already registered" (some "UNIQUE")]) ∨
  (e.code = "QUESTION_NOT_FOUND" ∧
    e.details = [createErrorDetail "questionId" "Invalid question ID" (some "FOREIGN_KEY")])

instance (e : ErrorEnvelope) : Decidable (DetailsAsBuilt e) := by
  unfold DetailsAsBuilt
  infer_instance

/-- What every resolver returns: a payload, or an `Error` envelope whose code
and status are a canonical pair and whose details are as built. -/
def Listed : Result → Prop
  | .error e => CanonicalStatus e.code e.httpStatus ∧ DetailsAsBuilt e
  | _ => True

/-- Every value the effect returns normally satisfies `P`. -/
def Eff.Returns {α : Type} (m : Eff α) (P : α → Prop) : Prop :=
  ∀ w a w1, m w = (.ok a, w1) → P a

/-- The effect never throws, and every value it returns satisfies `P`. -/
def Eff.Always {α : Type} (m : Eff α) (P : α → Prop) : Prop :=
  ∀ w, ∃ a w1, m w = (.ok a, w1) ∧ P a

/-- The `PRIMARY KEY AUTOINCREMENT` of table `forms`: no row has an id above
the last one issued. -/
def Db.FormKeysIssued (db : Db) : Prop :=
  ∀ f ∈ db.forms, f.id ≤ db.formSeq

instance (db : Db) : Decidable db.FormKeysIssued :=
  inferInstanceAs (Decidable (∀ f ∈ db.forms, f.id ≤ db.formSeq))

/-- What a request can do to table `forms` as far as ownership goes: the id
counter does not go back, and every row present afterwards either was there
before with the same id and the same owner, or has an id issued since. -/
def OwnersKept (db db1 : Db) : Prop :=
  db.formSeq ≤ db1.formSeq ∧
  ∀ f1 ∈ db1.forms, (∃ f ∈ db.forms, f.id = f1.id ∧ f.userId = f1.userId) ∨ db.formSeq < f1.id

/-- The effect keeps the owners of the stored forms, whatever its outcome. -/
def Eff.KeepsOwners {α : Type} (m : Eff α) : Prop :=
  ∀ w, OwnersKept w.db (m w).2.db

/-- A request: the field called, its context, the time it is served at and the
driver's plan for its statements. -/
structure Call where
  op : Operation
  context : Context
  now : Nat := 0
  faults : List (Option String) := []
deriving DecidableEq, Repr

/-- The tables after a sequence of requests has been served, one after the
other. -/
def serve : List Call → Db → Db
  | [], db => db
  | call :: rest, db =>
      serve rest (resolvers call.op call.context
        { db := db, now := call.now, faults := call.faults }).2.db

/-! ## Sample stores -/

/-- Form 10, owned by user 1; it has no question. -/
def formA : FormRow :=
  { id := 10, userId := 1, title := "Survey A", description := none, createdAt := 7,
    updatedAt := 7 }

/-- Form 20, owned by user 2. -/
def formB : FormRow :=
  { id := 20, userId := 2, title := "Survey B", description := none, createdAt := 8,
    updatedAt := 8 }

/-- Question 1, of form 20, at position 1. -/
def question1 : QuestionRow :=
  { id := 1, formId := 20, questionText := "First", questionType := "shorttext",
    required := false, options := some [], questionOrder := some 1, createdAt := 9,
    updatedAt := 9 }

/-- Question 2, of form 20, at position 2. -/
def question2 : QuestionRow :=
  { id := 2, formId := 20, questionText := "Second", questionType := "shorttext",
    required := false, options := some [], questionOrder := some 2, createdAt := 9,
    updatedAt := 9 }

/-- Two users; user 1 owns form 10, user 2 owns form 20 with its questions 1
and 2, and a response 7 with one answer. -/
def sampleDb : Db :=
  { users := [{ id := 1, email := "a@x.com", password := "$2a$10$secretA1", name := "A",
                createdAt := 5, updatedAt := 5 },
              { id := 2, email := "b@x.com", password := "$2a$10$secretB2", name := "B",
                createdAt := 6, updatedAt := 6 }],
    forms := [formA, formB],
    questions := [question1, question2],
    responses := [{ id := 7, formId := 20, respondentName := some "R", respondentEmail := none,
                    createdAt := 10, updatedAt := 10 }],
    answers := [{ id := 3, responseId := 7, questionId := 1, formId := some 20,
                  answerText := "yes",
                  createdAt := 10 }],
    userSeq := 2, formSeq := 20, questionSeq := 2, responseSeq := 7, answerSeq := 3 }

/-- The sample store at time 11, with no statement rejected. -/
def sampleWorld : World :=
  { db := sampleDb, now := 11 }

/-- The sample store when the driver rejects the fourth statement of the
request (`SQLITE_BUSY`), the three before it being accepted. -/
def busyWorld : World :=
  { db := sampleDb, now := 11,
    faults := [none, none, none, some "SQLITE_BUSY: database is locked"] }

/-- The identity of user 1. -/
def identityA : Identity :=
  { id := 1, email := "a@x.com" }

/-- The identity of user 2. -/
def identityB : Identity :=
  { id := 2, email := "b@x.com" }

/-- The context of a request by user 1. -/
def userA : Context :=
  { user := some identityA }

/-- The context of a request by user 2. -/
def userB : Context :=
  { user := some identityB }

/-- The anonymous caller. -/
def anonymous : Context :=
  { user := none }

/-- The sample store on a connection that enforces foreign keys. -/
def enforcingWorld : World :=
  { db := { sampleDb with foreignKeys := true }, now := 11 }

/-- The answer `Blue` to question 1. -/
def answerBlue : AnswerInput :=
  { questionId := some 1, answer := some "Blue" }

/-- The response 7 of the sample store. -/
def response7 : ResponseRow :=
  { id := 7, formId := 20, respondentName := some "R", respondentEmail := none,
    createdAt := 10, updatedAt := 10 }

/-- The answer 3 of the sample store: response 7 answers question 1. -/
def answer3 : AnswerRow :=
  { id := 3, responseId := 7, questionId := 1, formId := some 20, answerText := "yes",
    createdAt := 10 }

/-- A dropdown question with two options. -/
def dropdownTwo : QuestionCreateInput :=
  { text := some "Pick", type := some "dropdown", options := .value ["a", "b"] }

/-- A dropdown question with a single option. -/
def dropdownOne : QuestionCreateInput :=
  { text := some "Pick", type := some "dropdown", options := .value ["a"] }

/-- A registration that passes validation, with an e-mail not yet in the store. -/
def newcomer : UserCreateInput :=
  { email := some "cleo@example.com", password := some "correct horse", name := some "Cleo" }

/-- A second registration with the e-mail of `newcomer`. -/
def newcomerAgain : UserCreateInput :=
  { email := some "cleo@example.com", password := some "battery staple", name := some "Not Cleo" }

/-- A registration in which every field fails validation. -/
def badRegistration : UserCreateInput :=
  { email := some "cleo@example", password := some "short", name := some "  " }

/-- The sample store when the driver rejects the next statement (`SQLITE_BUSY`). -/
def lockedWorld : World :=
  { db := sampleDb, now := 11, faults := [some "SQLITE_BUSY: database is locked"] }

/-- Form 30, a second form of user 2, created after form 20. -/
def formC : FormRow :=
  { id := 30, userId := 2, title := "Survey C", description := none, createdAt := 9,
    updatedAt := 9 }

/-- The sample store with form 30 added, at time 11. -/
def threeFormsWorld : World :=
  { db := { sampleDb with forms := [formA, formB, formC], formSeq := 30 }, now := 11 }

/-- The sort input `{field: CREATED_AT, order: ASC}`. -/
def oldestFirst : FormSort :=
  { field := "CREATED_AT", order := "ASC" }

/-- The sort input `{field: CREATED_AT, order: DESC}`. -/
def newestFirst : FormSort :=
  { field := "CREATED_AT", order := "DESC" }

/-- A verifier that accepts the single token `signed-for-user-1`, reports the
token `old-token` as expired and every other text as malformed. -/
def sampleVerify (token : String) : Except JsError TokenClaims :=
  if token = "signed-for-user-1" then .ok { userId := 1, email := "a@x.com" }
  else if token = "old-token" then .error { message := "jwt expired" }
  else .error { message := "jwt malformed" }

/-- The input of a `createForm` call. -/
def surveyInput : FormCreateInput :=
  { title := some "Survey D", description := some "fourth" }

/-- Requests served after user 1 has created form 21: the owner renames it,
user 2 tries to rename it and then to delete it, the owner clears its
description, and user 2 creates a form of their own. -/
def laterCalls : List Call :=
  [{ op := .updateForm 21 { title := some "Renamed" }, context := userA, now := 12 },
   { op := .updateForm 21 { title := some "Taken" }, context := userB, now := 13 },
   { op := .deleteForm 21, context := userB, now := 14 },
   { op := .updateForm 21 { description := .null }, context := userA, now := 15 },
   { op := .createForm { title := some "Survey E" }, context := userB, now := 16 }]

/-- Form 21 as it stands after `laterCalls`: renamed, its description cleared,
still owned by user 1. -/
def formD : FormRow :=
  { id := 21, userId := 1, title := "Renamed", description := none, createdAt := 11,
    updatedAt := 15 }

/-- A login with an e-mail that no user of the sample store has. -/
def unknownLogin : LoginInput :=
  { email := some "nobody@x.com", password := some "guess" }

/-- An update of a response that renames the respondent and clears the
answers. -/
def renameAndClear : ResponseUpdateInput :=
  { respondentName := .value "S", answers := some [] }

/-- Question 3, of form 10. -/
def question3 : QuestionRow :=
  { id := 3, formId := 10, questionText := "Third", questionType := "shorttext",
    required := false, options := some [], questionOrder := some 1, createdAt := 9,
    updatedAt := 9 }

/-- The sample store with question 3 added, in a database whose table
`answer_values` takes a row that has no `formId`. -/
def lenientDb : Db :=
  { sampleDb with
    questions := [question1, question2, question3]
    questionSeq := 3
    answerFormIdRequired := false }

/-- The store `lenientDb` at time 11, with no statement rejected. -/
def lenientWorld : World :=
  { db := lenientDb, now := 11 }

/-- The store `lenientDb` when the driver rejects the fifth statement of the
request (`SQLITE_BUSY`), the four before it being accepted. -/
def lenientBusyWorld : World :=
  { db := lenientDb, now := 11,
    faults := [none, none, none, none, some "SQLITE_BUSY: database is locked"] }

/-- The answer `Red` to question 2. -/
def answerRed : AnswerInput :=
  { questionId := some 2, answer := some "Red" }

/-- The answer `Green` to question 3. -/
def answerGreen : AnswerInput :=
  { questionId := some 3, answer := some "Green" }

/-- The response `createResponse` writes for form 10 on the sample stores. -/
def response8 : ResponseRow :=
  { id := 8, formId := 10, respondentName := none, respondentEmail := none, createdAt := 11,
    updatedAt := 11 }

/-! ## Running effects -/

theorem Eff.pure_apply {α : Type} (a : α) (w : World) :
    (pure a : Eff α) w = (.ok a, w) := rfl

theorem Eff.bind_apply {α β : Type} (m : Eff α) (f : α → Eff β) (w : World) :
    (m >>= f) w = Eff.bind m f w := rfl

theorem getAuthenticatedUser_some (u : Identity) (w : World) :
    getAuthenticatedUser ⟨some u⟩ w = (.ok u, w) := rfl

theorem getAuthenticatedUser_none (w : World) :
    getAuthenticatedUser ⟨none⟩ w
      = (.error { message := "Authentication required", code := some "UNAUTHORIZED" }, w) := rfl

theorem World.Quiet.next {w : World} (h : w.Quiet) : w.next.Quiet := by
  intro f hf
  exact h f (List.mem_of_mem_tail hf)

theorem World.Quiet.accepts {w : World} (h : w.Quiet) : w.Accepts := by
  unfold World.Quiet at h
  unfold World.Accepts
  cases hw : w.faults with
  | nil => rfl
  | cons a rest =>
      have := h a (by simp [hw])
      simp [this]

theorem World.Accepts.withDb {α : Type} {w : World} (h : w.Accepts)
    (run : Nat → Db → Except String (α × Db)) :
    withDb run w =
      match run w.now w.db with
      | .ok (a, db1) => (.ok a, { w.next with db := db1 })
      | .error msg => (.error { message := msg }, w.next) := by
  unfold World.Accepts at h
  simp only [FormsClone.withDb, h]
  rfl

theorem withDb_rejected {α : Type} {w : World} {msg : String}
    (h : w.faults.head?.join = some msg) (run : Nat → Db → Except String (α × Db)) :
    withDb run w = (.error { message := msg }, w.next) := by
  simp only [FormsClone.withDb, h]
  rfl

theorem World.Accepts.query {α : Type} {w : World} (h : w.Accepts) (read : Db → α) :
    query read w = (.ok (read w.db), w.next) := by
  simp only [FormsClone.query, h.withDb]
  rfl

theorem World.Accepts.execute {w : World} (h : w.Accepts) (write : Nat → Db → Db) :
    execute write w = (.ok [], { w.next with db := write w.now w.db }) := by
  simp only [FormsClone.execute, h.withDb]

/-! ## The form lookup -/

theorem filter_of_findForm {db : Db} {formId : Nat} {row : FormRow}
    (hrow : db.findForm formId = some row) :
    ∃ rest, db.forms.filter (fun f => f.id == formId) = row :: rest := by
  have := List.filter_head? (fun f : FormRow => f.id == formId) db.forms
  rw [Db.findForm] at hrow
  rw [hrow] at this
  cases hl : db.forms.filter (fun f => f.id == formId) with
  | nil => simp [hl] at this
  | cons a rest =>
      simp [hl] at this
      exact ⟨rest, by rw [this]⟩

theorem filter_of_findForm_none {db : Db} {formId : Nat}
    (hrow : db.findForm formId = none) :
    db.forms.filter (fun f => f.id == formId) = [] := by
  have := List.filter_head? (fun f : FormRow => f.id == formId) db.forms
  rw [Db.findForm] at hrow
  rw [hrow] at this
  cases hl : db.forms.filter (fun f => f.id == formId) with
  | nil => rfl
  | cons a rest => simp [hl] at this

theorem FormModel.getById_found {w : World} (h : w.Accepts) {formId : Nat} {row : FormRow}
    (hrow : w.db.findForm formId = some row) :
    FormModel.getById formId w = (.ok row.toForm, w.next) := by
  obtain ⟨rest, hrest⟩ := filter_of_findForm hrow
  simp only [FormModel.getById, formDb.getFormById, Eff.bind_apply, Eff.bind, h.query, hrest,
    Eff.pure_apply]

theorem FormModel.getById_missing {w : World} (h : w.Accepts) {formId : Nat}
    (hrow : w.db.findForm formId = none) :
    FormModel.getById formId w =
      (.error { message := s!"Form with id {formId} not found" }, w.next) := by
  have hfilter := filter_of_findForm_none hrow
  simp only [FormModel.getById, formDb.getFormById, Eff.bind_apply, Eff.bind, h.query, hfilter,
    Eff.throw]

theorem FormModel.getById_rejected {w : World} {msg : String}
    (h : w.faults.head?.join = some msg) (formId : Nat) :
    FormModel.getById formId w = (.error { message := msg }, w.next) := by
  simp only [FormModel.getById, formDb.getFormById, Eff.bind_apply, Eff.bind, FormsClone.query,
    withDb_rejected h]

/-! ## The reorder loop -/

theorem reorderedRow_id (formId now : Nat) (l : List Nat) (i : Nat) (q : QuestionRow) :
    (reorderedRow formId now l i q).id = q.id ∧
    (reorderedRow formId now l i q).formId = q.formId := by
  induction l generalizing i q with
  | nil => exact ⟨rfl, rfl⟩
  | cons x rest ih =>
      simp only [reorderedRow]
      split
      · exact ih _ _
      · exact ih _ _

theorem reorderedRow_other_form (formId now : Nat) (l : List Nat) (i : Nat) (q : QuestionRow)
    (h : q.formId ≠ formId) : reorderedRow formId now l i q = q := by
  induction l generalizing i with
  | nil => rfl
  | cons x rest ih =>
      simp only [reorderedRow]
      have : (q.id == x && q.formId == formId) = false := by simp [h]
      simp only [this, Bool.false_eq_true, if_false]
      exact ih _

theorem reorderedRow_not_listed (formId now : Nat) (l : List Nat) (i : Nat) (q : QuestionRow)
    (h : q.id ∉ l) : reorderedRow formId now l i q = q := by
  induction l generalizing i with
  | nil => rfl
  | cons x rest ih =>
      simp only [List.mem_cons, not_or] at h
      simp only [reorderedRow]
      have : (q.id == x && q.formId == formId) = false := by simp [h.1]
      simp only [this, Bool.false_eq_true, if_false]
      exact ih _ h.2

theorem reorderedRow_listed (formId now : Nat) (l : List Nat) (i : Nat) (q : QuestionRow)
    (hform : q.formId = formId) (hnodup : l.Nodup) (hmem : q.id ∈ l) :
    (reorderedRow formId now l i q).questionOrder = some (((i + l.indexOf q.id : Nat) : Int) + 1) := by
  induction l generalizing i q with
  | nil => simp at hmem
  | cons x rest ih =>
      rw [List.nodup_cons] at hnodup
      simp only [reorderedRow]
      by_cases hx : q.id = x
      · have hcond : (q.id == x && q.formId == formId) = true := by simp [hx, hform]
        simp only [hcond, if_true]
        rw [reorderedRow_not_listed]
        · simp [hx]
        · simpa [hx] using hnodup.1
      · have hcond : (q.id == x && q.formId == formId) = false := by simp [hx]
        simp only [hcond, Bool.false_eq_true, if_false]
        have hmem1 : q.id ∈ rest := by
          rcases List.mem_cons.mp hmem with h | h
          · exact absurd h hx
          · exact h
        rw [ih (i + 1) q hform hnodup.2 hmem1, List.indexOf_cons_ne _ (Ne.symm hx)]
        congr 2
        omega

theorem reorderedDb_eq (formId now : Nat) (l : List Nat) (i : Nat) (db : Db) :
    reorderedDb formId now l i db
      = { db with questions := db.questions.map (reorderedRow formId now l i) } := by
  induction l generalizing i db with
  | nil =>
      simp only [reorderedDb]
      have : reorderedRow formId now [] i = id := by
        funext q
        rfl
      rw [this, List.map_id]
  | cons x rest ih =>
      simp only [reorderedDb]
      rw [ih]
      simp only [updateQuestionOrder, List.map_map]
      congr 1

theorem reorderLoop_quiet (formId : Nat) (l : List Nat) (i : Nat) (w : World) (h : w.Quiet) :
    ∃ w1, QuestionModel.reorderLoop formId l i w = (.ok (), w1) ∧
      w1.db = reorderedDb formId w.now l i w.db ∧ w1.now = w.now ∧ w1.Quiet := by
  induction l generalizing i w with
  | nil => exact ⟨w, rfl, rfl, rfl, h⟩
  | cons x rest ih =>
      simp only [QuestionModel.reorderLoop, Eff.bind_apply, Eff.bind, h.accepts.execute]
      have hq : ({ w.next with db := updateQuestionOrder ((i : Int) + 1) x formId w.now w.db } :
          World).Quiet := h.next
      obtain ⟨w1, h1, h2, h3, h4⟩ := ih (i + 1) _ hq
      exact ⟨w1, h1, h2, h3, h4⟩

/-! ## Positions after a reorder -/

theorem questionsOf_reordered (formId now : Nat) (l : List Nat) (i : Nat) (db : Db) (f : Nat) :
    (reorderedDb formId now l i db).questionsOf f
      = (db.questionsOf f).map (reorderedRow formId now l i) := by
  rw [reorderedDb_eq]
  simp only [Db.questionsOf, List.filter_map]
  congr 1
  apply List.filter_congr
  intro q _
  simp [(reorderedRow_id formId now l i q).2]

theorem questionIds_reordered (formId now : Nat) (l : List Nat) (i : Nat) (db : Db) (f : Nat) :
    (reorderedDb formId now l i db).questionIds f = db.questionIds f := by
  simp only [Db.questionIds, questionsOf_reordered, List.map_map]
  apply List.map_congr_left
  intro q _
  exact (reorderedRow_id formId now l i q).1

theorem questionsOf_reordered_other (formId now : Nat) (l : List Nat) (i : Nat) (db : Db)
    (f : Nat) (hf : f ≠ formId) :
    (reorderedDb formId now l i db).questionsOf f = db.questionsOf f := by
  rw [questionsOf_reordered]
  conv_rhs => rw [← List.map_id (db.questionsOf f)]
  apply List.map_congr_left
  intro q hq
  have hqf : q.formId = f := by
    simpa [Db.questionsOf] using (List.mem_filter.mp hq).2
  exact reorderedRow_other_form formId now l i q (by rw [hqf]; exact hf)

theorem map_indexOf_eq_oneTo (l : List Nat) (h : l.Nodup) :
    l.map (fun id => ((l.indexOf id : Nat) : Int) + 1) = oneTo l.length := by
  apply List.ext_getElem
  · simp only [oneTo, List.length_map, List.length_range]
  · intro n h1 h2
    simp only [List.length_map] at h1
    simp only [oneTo, List.getElem_map, List.getElem_range, List.indexOf_getElem h n h1]

theorem positions_reordered (formId now : Nat) (l : List Nat) (db : Db) (hnodup : l.Nodup)
    (hperm : l.Perm (db.questionIds formId)) :
    ((reorderedDb formId now l 0 db).positions formId).Perm
      (oneTo ((reorderedDb formId now l 0 db).questionsOf formId).length) := by
  have hlen : ((reorderedDb formId now l 0 db).questionsOf formId).length = l.length := by
    rw [questionsOf_reordered, List.length_map, hperm.length_eq, Db.questionIds, List.length_map]
  have hpos : (reorderedDb formId now l 0 db).positions formId
      = (db.questionIds formId).map (fun id => ((l.indexOf id : Nat) : Int) + 1) := by
    simp only [Db.positions, Db.questionIds, questionsOf_reordered, List.map_map]
    apply List.map_congr_left
    intro q hq
    have hqf : q.formId = formId := by
      simpa [Db.questionsOf] using (List.mem_filter.mp hq).2
    have hmem : q.id ∈ l := by
      apply hperm.mem_iff.mpr
      exact List.mem_map.mpr ⟨q, hq, rfl⟩
    simp [QuestionRow.toQuestion, reorderedRow_listed formId now l 0 q hqf hnodup hmem]
  rw [hpos, hlen, ← map_indexOf_eq_oneTo l hnodup]
  exact (hperm.map _).symm

/-! ## `QuestionModel.reorderQuestions` -/

/-- The list `existingIds` computed by `QuestionModel.reorderQuestions`. -/
theorem getByFormId_default {w : World} (h : w.Accepts) (formId : Nat) :
    QuestionModel.getByFormId formId none w
      = (.ok ((orderBy questionOrderThenId false (w.db.questionsOf formId)).map
          QuestionRow.toQuestion), w.next) := by
  simp only [QuestionModel.getByFormId, Eff.bind_apply, Eff.bind, h.query, Eff.pure_apply,
    Db.questionsOf]

theorem existingIds_perm (db : Db) (formId : Nat) :
    (((orderBy questionOrderThenId false (db.questionsOf formId)).map
        QuestionRow.toQuestion).map (fun q => q.id)).Perm (db.questionIds formId) := by
  simp only [List.map_map, Db.questionIds, orderBy]
  exact (List.perm_insertionSort _ _).map _

theorem QuestionModel.reorderQuestions_unknown_id {w : World} (h : w.Accepts) (formId : Nat)
    (l : List Nat) (hsub : ¬ ∀ id ∈ l, id ∈ w.db.questionIds formId) :
    ∃ id : Nat, QuestionModel.reorderQuestions formId l w
      = (.error { message := s!"Question with ID {id} not found in form {formId}" }, w.next) := by
  simp only [QuestionModel.reorderQuestions, Eff.bind_apply, Eff.bind, getByFormId_default h]
  cases hfind : l.find? (fun id => !(((orderBy questionOrderThenId false
      (w.db.questionsOf formId)).map QuestionRow.toQuestion).map (fun q => q.id)).contains id) with
  | some id => exact ⟨id, rfl⟩
  | none =>
      exfalso
      apply hsub
      intro id hid
      have := List.find?_eq_none.mp hfind id hid
      exact (existingIds_perm w.db formId).mem_iff.mp (by simpa using this)

theorem QuestionModel.reorderQuestions_wrong_count {w : World} (h : w.Accepts) (formId : Nat)
    (l : List Nat) (hsub : ∀ id ∈ l, id ∈ w.db.questionIds formId)
    (hlen : l.length ≠ (w.db.questionIds formId).length) :
    QuestionModel.reorderQuestions formId l w
      = (.error { message := "All questions must be included in the reorder operation" },
          w.next) := by
  simp only [QuestionModel.reorderQuestions, Eff.bind_apply, Eff.bind, getByFormId_default h]
  have hfind : l.find? (fun id => !(((orderBy questionOrderThenId false
      (w.db.questionsOf formId)).map QuestionRow.toQuestion).map (fun q => q.id)).contains id)
      = none := by
    apply List.find?_eq_none.mpr
    intro id hid
    have := (existingIds_perm w.db formId).mem_iff.mpr (hsub id hid)
    simpa using this
  have hlen1 : l.length ≠ (((orderBy questionOrderThenId false
      (w.db.questionsOf formId)).map QuestionRow.toQuestion).map (fun q => q.id)).length := by
    rw [(existingIds_perm w.db formId).length_eq]
    exact hlen
  simp only [hfind, ne_eq, hlen1, not_false_eq_true, if_true, Eff.throw]

theorem QuestionModel.reorderQuestions_accepted {w : World} (h : w.Quiet) (formId : Nat)
    (l : List Nat) (hsub : ∀ id ∈ l, id ∈ w.db.questionIds formId)
    (hlen : l.length = (w.db.questionIds formId).length) :
    ∃ w1, QuestionModel.reorderQuestions formId l w = (.ok (), w1) ∧
      w1.db = reorderedDb formId w.now l 0 w.db ∧ w1.now = w.now ∧ w1.Quiet := by
  simp only [QuestionModel.reorderQuestions, Eff.bind_apply, Eff.bind,
    getByFormId_default h.accepts]
  have hfind : l.find? (fun id => !(((orderBy questionOrderThenId false
      (w.db.questionsOf formId)).map QuestionRow.toQuestion).map (fun q => q.id)).contains id)
      = none := by
    apply List.find?_eq_none.mpr
    intro id hid
    have := (existingIds_perm w.db formId).mem_iff.mpr (hsub id hid)
    simpa using this
  have hlen1 : l.length = (((orderBy questionOrderThenId false
      (w.db.questionsOf formId)).map QuestionRow.toQuestion).map (fun q => q.id)).length := by
    rw [(existingIds_perm w.db formId).length_eq]
    exact hlen
  simp only [hfind, ne_eq, hlen1, not_true_eq_false, if_false]
  exact reorderLoop_quiet formId l 0 w.next h.next

/-! ## `Mutation.reorderQuestions` called by the owner -/

theorem findForm_reordered (formId now : Nat) (l : List Nat) (i : Nat) (db : Db) (f : Nat) :
    (reorderedDb formId now l i db).findForm f = db.findForm f := by
  rw [reorderedDb_eq]
  rfl

theorem questionIds_nodup {db : Db} (h : db.QuestionKeysUnique) (formId : Nat) :
    (db.questionIds formId).Nodup := by
  unfold Db.QuestionKeysUnique at h
  exact h.sublist ((List.filter_sublist _).map _)

theorem perm_iff_subset_length {l s : List Nat} (hl : l.Nodup) :
    l.Perm s ↔ (∀ id ∈ l, id ∈ s) ∧ l.length = s.length := by
  constructor
  · intro h
    exact ⟨fun id hid => h.mem_iff.mp hid, h.length_eq⟩
  · rintro ⟨hsub, hlen⟩
    exact (List.subperm_of_subset hl hsub).perm_of_length_le (le_of_eq hlen.symm)

theorem Mutation.reorderQuestions_empty {w : World} (h : w.Accepts) {owner : Identity}
    {formId : Nat} {row : FormRow} (hrow : w.db.findForm formId = some row)
    (hown : row.userId = owner.id) :
    Mutation.reorderQuestions formId [] ⟨some owner⟩ w
      = (.ok (createError "VALIDATION_ERROR" "Question IDs array is required" 400
          [createErrorDetail "questionIds" "At least one question ID is required"]), w.next) := by
  have hown1 : row.toForm.userId = owner.id := hown
  simp only [Mutation.reorderQuestions, Eff.tryCatch, Eff.bind_apply, Eff.bind,
    getAuthenticatedUser_some, FormModel.getById_found h hrow, ne_eq, hown1, not_true_eq_false,
    if_false, List.length_nil, if_true, Eff.pure_apply]

theorem Mutation.reorderQuestions_refused {w : World} (h : w.Accepts) (hnext : w.next.Accepts)
    {owner : Identity} {formId : Nat} {row : FormRow} (hrow : w.db.findForm formId = some row)
    (hown : row.userId = owner.id) (l : List Nat)
    (hbad : ¬ ((∀ id ∈ l, id ∈ w.db.questionIds formId) ∧
      l.length = (w.db.questionIds formId).length)) :
    ReturnsError (Mutation.reorderQuestions formId l ⟨some owner⟩ w) ∧
      (Mutation.reorderQuestions formId l ⟨some owner⟩ w).2.db = w.db := by
  have hown1 : row.toForm.userId = owner.id := hown
  by_cases hnil : l = []
  · subst hnil
    rw [Mutation.reorderQuestions_empty h hrow hown]
    exact ⟨⟨_, rfl⟩, rfl⟩
  · have hlen0 : ¬ l.length = 0 := fun h0 => hnil (List.length_eq_zero.mp h0)
    by_cases hsub : ∀ id ∈ l, id ∈ w.db.questionIds formId
    · have hlen : l.length ≠ (w.db.questionIds formId).length := fun hl => hbad ⟨hsub, hl⟩
      have hmodel := QuestionModel.reorderQuestions_wrong_count (w := w.next) hnext formId l
        hsub hlen
      simp only [Mutation.reorderQuestions, Eff.tryCatch, Eff.bind_apply, Eff.bind,
        getAuthenticatedUser_some, FormModel.getById_found h hrow, ne_eq, hown1,
        not_true_eq_false, if_false, hlen0, hmodel]
      refine ⟨?_, ?_⟩
      · unfold ReturnsError
        split_ifs <;> exact ⟨_, rfl⟩
      · split_ifs <;> rfl
    · obtain ⟨id, hmodel⟩ := QuestionModel.reorderQuestions_unknown_id (w := w.next) hnext
        formId l hsub
      simp only [Mutation.reorderQuestions, Eff.tryCatch, Eff.bind_apply, Eff.bind,
        getAuthenticatedUser_some, FormModel.getById_found h hrow, ne_eq, hown1,
        not_true_eq_false, if_false, hlen0, hmodel]
      refine ⟨?_, ?_⟩
      · unfold ReturnsError
        split_ifs <;> exact ⟨_, rfl⟩
      · split_ifs <;> rfl

theorem Mutation.reorderQuestions_done {w : World} (h : w.Quiet) {owner : Identity}
    {formId : Nat} {row : FormRow} (hrow : w.db.findForm formId = some row)
    (hown : row.userId = owner.id) (l : List Nat) (hnil : l ≠ [])
    (hsub : ∀ id ∈ l, id ∈ w.db.questionIds formId)
    (hlen : l.length = (w.db.questionIds formId).length) :
    ∃ w1, Mutation.reorderQuestions formId l ⟨some owner⟩ w = (.ok (.form row.toForm), w1) ∧
      w1.db = reorderedDb formId w.now l 0 w.db := by
  have hown1 : row.toForm.userId = owner.id := hown
  have hlen0 : ¬ l.length = 0 := fun h0 => hnil (List.length_eq_zero.mp h0)
  obtain ⟨w1, hmodel, hdb, _, hq1⟩ :=
    QuestionModel.reorderQuestions_accepted (w := w.next) h.next formId l hsub hlen
  have hrow1 : w1.db.findForm formId = some row := by
    rw [hdb, findForm_reordered]
    exact hrow
  refine ⟨w1.next, ?_, hdb⟩
  simp only [Mutation.reorderQuestions, Eff.tryCatch, Eff.bind_apply, Eff.bind,
    getAuthenticatedUser_some, FormModel.getById_found h.accepts hrow, ne_eq, hown1,
    not_true_eq_false, if_false, hlen0, hmodel, FormModel.getById_found hq1.accepts hrow1,
    Eff.pure_apply]

/-! ## The reorder contract -/

/-- C1, as stated, fails: user 1 owns form 10, which has no question, so the
empty id list is a permutation of the form's question ids; yet the mutation
answers with the `VALIDATION_ERROR` envelope of its guard
`questionIds.length === 0`. -/
theorem reorder_empty_form_rejected :
    sampleDb.findForm 10 = some formA ∧ formA.userId = identityA.id ∧
    userA = ⟨some identityA⟩ ∧
    List.Perm ([] : List Nat) (sampleDb.questionIds 10) ∧
    (Mutation.reorderQuestions 10 [] userA sampleWorld).1
      = .ok (createError "VALIDATION_ERROR" "Question IDs array is required" 400
          [createErrorDetail "questionIds" "At least one question ID is required"]) :=
  ⟨rfl, rfl, rfl, List.Perm.refl _, rfl⟩

/-- C1, amended: for a stored form, its owner and an id list `l` without
repeated ids (no statement being rejected by the store), `reorderQuestions`
returns the `Form` exactly when `l` is non-empty and a permutation of the
form's question ids, and returns an `Error` envelope in every other case. -/
theorem reorder_succeeds_iff_permutation (w : World) (owner : Identity) (formId : Nat)
    (row : FormRow) (l : List Nat) (hquiet : w.Quiet) (hkeys : w.db.QuestionKeysUnique)
    (hrow : w.db.findForm formId = some row) (hown : row.userId = owner.id) (hnodup : l.Nodup) :
    (ReturnsForm (Mutation.reorderQuestions formId l ⟨some owner⟩ w)
      ↔ (l ≠ [] ∧ l.Perm (w.db.questionIds formId))) ∧
    (ReturnsError (Mutation.reorderQuestions formId l ⟨some owner⟩ w)
      ↔ ¬ (l ≠ [] ∧ l.Perm (w.db.questionIds formId))) := by
  have _hS := questionIds_nodup hkeys formId
  by_cases hgood : l ≠ [] ∧ l.Perm (w.db.questionIds formId)
  · obtain ⟨hnil, hperm⟩ := hgood
    have hsl := (perm_iff_subset_length hnodup).mp hperm
    obtain ⟨w1, hrun, _⟩ := Mutation.reorderQuestions_done hquiet hrow hown l hnil hsl.1 hsl.2
    constructor
    · exact ⟨fun _ => ⟨hnil, hperm⟩, fun _ => ⟨row.toForm, by rw [hrun]⟩⟩
    · constructor
      · rintro ⟨e, he⟩
        rw [hrun] at he
        cases he
      · intro hn
        exact absurd ⟨hnil, hperm⟩ hn
  · have herr : ReturnsError (Mutation.reorderQuestions formId l ⟨some owner⟩ w) := by
      by_cases hnil : l = []
      · subst hnil
        rw [Mutation.reorderQuestions_empty hquiet.accepts hrow hown]
        exact ⟨_, rfl⟩
      · have hbad : ¬ ((∀ id ∈ l, id ∈ w.db.questionIds formId) ∧
            l.length = (w.db.questionIds formId).length) := by
          intro hsl
          exact hgood ⟨hnil, (perm_iff_subset_length hnodup).mpr hsl⟩
        exact (Mutation.reorderQuestions_refused hquiet.accepts hquiet.next.accepts hrow hown l
          hbad).1
    constructor
    · constructor
      · rintro ⟨f, hf⟩
        obtain ⟨e, he⟩ := herr
        rw [he] at hf
        cases hf
      · intro hg
        exact absurd hg hgood
    · exact ⟨fun _ => hgood, fun _ => herr⟩

/-- Witness of `reorder_succeeds_iff_permutation`: user 2 swaps the two
questions of form 20. -/
theorem reorder_succeeds_iff_permutation_witness :
    sampleWorld.Quiet ∧ sampleWorld.db.QuestionKeysUnique ∧
    sampleWorld.db.findForm 20 = some formB ∧ formB.userId = identityB.id ∧
    ([2, 1] : List Nat).Nodup ∧
    ((ReturnsForm (Mutation.reorderQuestions 20 [2, 1] ⟨some identityB⟩ sampleWorld)
      ↔ (([2, 1] : List Nat) ≠ [] ∧ List.Perm [2, 1] (sampleWorld.db.questionIds 20))) ∧
     (ReturnsError (Mutation.reorderQuestions 20 [2, 1] ⟨some identityB⟩ sampleWorld)
      ↔ ¬ (([2, 1] : List Nat) ≠ [] ∧ List.Perm [2, 1] (sampleWorld.db.questionIds 20)))) :=
  ⟨by decide, by decide, rfl, rfl, by decide,
    reorder_succeeds_iff_permutation sampleWorld identityB 20 formB [2, 1] (by decide)
      (by decide) rfl rfl (by decide)⟩

theorem positionOf_reordered (formId now : Nat) (l : List Nat) (db : Db)
    (hkeys : db.QuestionKeysUnique) (hnodup : l.Nodup)
    (hsub : ∀ id ∈ l, id ∈ db.questionIds formId) (i : Nat) (hi : i < l.length) :
    (reorderedDb formId now l 0 db).positionOf l[i] = some ((i : Int) + 1) := by
  have hmem : l[i] ∈ db.questionIds formId := hsub _ (List.getElem_mem hi)
  obtain ⟨q1, hq1, hq1id⟩ := List.mem_map.mp hmem
  have hq1mem : q1 ∈ db.questions := (List.mem_filter.mp hq1).1
  have hq1form : q1.formId = formId := by
    simpa [Db.questionsOf] using (List.mem_filter.mp hq1).2
  have hinj := List.inj_on_of_nodup_map hkeys
  have hrow : ∀ q0 ∈ db.questions, q0.id = l[i] →
      (reorderedRow formId now l 0 q0).toQuestion.order = (i : Int) + 1 := by
    intro q0 hq0 hq0id
    have heq : q0 = q1 := hinj hq0 hq1mem (by rw [hq0id, hq1id])
    have hform : q0.formId = formId := by rw [heq]; exact hq1form
    have hlisted : q0.id ∈ l := by rw [hq0id]; exact List.getElem_mem hi
    simp [QuestionRow.toQuestion, reorderedRow_listed formId now l 0 q0 hform hnodup hlisted,
      hq0id, List.indexOf_getElem hnodup i hi]
  rw [Db.positionOf, reorderedDb_eq]
  simp only [List.find?_map]
  have hcomp : ((fun q : QuestionRow => q.id == l[i]) ∘ reorderedRow formId now l 0)
      = (fun q : QuestionRow => q.id == l[i]) := by
    funext q
    simp [(reorderedRow_id formId now l 0 q).1]
  rw [hcomp]
  cases hfind : db.questions.find? (fun q => q.id == l[i]) with
  | none =>
      have := List.find?_eq_none.mp hfind q1 hq1mem
      simp [hq1id] at this
  | some q0 =>
      have hq0 : q0 ∈ db.questions := List.mem_of_find?_eq_some hfind
      have hq0id : q0.id = l[i] := by
        have := List.find?_some hfind
        simpa using this
      simp only [Option.map_some']
      rw [hrow q0 hq0 hq0id]

/-- C2: for every form and every id list `l` that is a permutation of the
form's question ids (no statement being rejected by the store),
`QuestionModel.reorderQuestions` succeeds; afterwards the form has the same
questions, the question `l[i]` has position `i + 1` for every index `i`, and
the positions of the form are exactly `1..N`, each once. -/
theorem reorder_assigns_positions (w : World) (formId : Nat) (l : List Nat)
    (hquiet : w.Quiet) (hkeys : w.db.QuestionKeysUnique)
    (hperm : l.Perm (w.db.questionIds formId)) :
    ∃ w1, QuestionModel.reorderQuestions formId l w = (.ok (), w1) ∧
      w1.db.questionIds formId = w.db.questionIds formId ∧
      (∀ (i : Nat) (hi : i < l.length), w1.db.positionOf (l.get ⟨i, hi⟩) = some ((i : Int) + 1)) ∧
      (w1.db.positions formId).Perm (oneTo (w1.db.questionsOf formId).length) := by
  have hnodup : l.Nodup := hperm.nodup_iff.mpr (questionIds_nodup hkeys formId)
  have hsl := (perm_iff_subset_length hnodup).mp hperm
  obtain ⟨w1, hrun, hdb, _, _⟩ :=
    QuestionModel.reorderQuestions_accepted hquiet formId l hsl.1 hsl.2
  refine ⟨w1, hrun, ?_, ?_, ?_⟩
  · rw [hdb, questionIds_reordered]
  · intro i hi
    rw [hdb]
    exact positionOf_reordered formId w.now l w.db hkeys hnodup hsl.1 i hi
  · rw [hdb]
    exact positions_reordered formId w.now l w.db hnodup hperm

/-- Witness of `reorder_assigns_positions`: the questions of form 20 swapped. -/
theorem reorder_assigns_positions_witness :
    sampleWorld.Quiet ∧ sampleWorld.db.QuestionKeysUnique ∧
    List.Perm [2, 1] (sampleWorld.db.questionIds 20) ∧
    ∃ w1, QuestionModel.reorderQuestions 20 [2, 1] sampleWorld = (.ok (), w1) ∧
      w1.db.questionIds 20 = sampleWorld.db.questionIds 20 ∧
      (∀ (i : Nat) (hi : i < [2, 1].length),
        w1.db.positionOf (([2, 1] : List Nat).get ⟨i, hi⟩) = some ((i : Int) + 1)) ∧
      (w1.db.positions 20).Perm (oneTo (w1.db.questionsOf 20).length) :=
  ⟨by decide, by decide, by decide,
    reorder_assigns_positions sampleWorld 20 [2, 1] (by decide) (by decide) (by decide)⟩

/-! ## Errors of `reorderQuestions` and the store -/

theorem World.quiet_of_accepts {w : World} (h : w.Accepts) (hnext : w.next.Quiet) : w.Quiet := by
  intro f hf
  unfold World.Accepts at h
  cases hw : w.faults with
  | nil => simp [hw] at hf
  | cons a rest =>
      rw [hw] at hf
      rcases List.mem_cons.mp hf with h1 | h1
      · rw [hw] at h
        simp only [List.head?_cons, Option.join] at h
        rw [h1]
        cases a with
        | none => rfl
        | some m => simp at h
      · apply hnext
        simp only [World.next, hw, List.tail_cons]
        exact h1

theorem QuestionModel.reorderQuestions_rejected {w : World} {msg : String}
    (h : w.faults.head?.join = some msg) (formId : Nat) (l : List Nat) :
    QuestionModel.reorderQuestions formId l w = (.error { message := msg }, w.next) := by
  simp only [QuestionModel.reorderQuestions, QuestionModel.getByFormId, Eff.bind_apply, Eff.bind,
    FormsClone.query, withDb_rejected h]

/-- C3, as stated, fails: user 2 reorders the questions of form 20 as `[2, 1]`
and the store rejects the second `UPDATE` (`SQLITE_BUSY`).  The mutation
returns the `INTERNAL_ERROR` envelope, yet question 2 has moved from position 2
to position 1, where question 1 still is. -/
theorem reorder_interrupted_midway :
    (Mutation.reorderQuestions 20 [2, 1] userB busyWorld).1
      = .ok (createError "INTERNAL_ERROR" "Failed to reorder questions" 500) ∧
    busyWorld.db.positionOf 2 = some 2 ∧
    (Mutation.reorderQuestions 20 [2, 1] userB busyWorld).2.db.positionOf 2 = some 1 ∧
    (Mutation.reorderQuestions 20 [2, 1] userB busyWorld).2.db.positionOf 1 = some 1 :=
  ⟨rfl, rfl, rfl, rfl⟩

/-- C3, amended: whenever a call of `reorderQuestions` returns an `Error`
envelope and the store rejects no statement after the first two (the form
lookup and the reading of the form's questions, which precede every write),
all tables, hence all positions, are the same after the call as before. -/
theorem reorder_error_keeps_store (w : World) (context : Context) (formId : Nat)
    (l : List Nat) (hrest : w.next.next.Quiet)
    (herr : ReturnsError (Mutation.reorderQuestions formId l context w)) :
    (Mutation.reorderQuestions formId l context w).2.db = w.db := by
  cases context with
  | mk user =>
  cases user with
  | none => rfl
  | some caller =>
  cases hfirst : w.faults.head?.join with
  | some msg =>
      simp only [Mutation.reorderQuestions, Eff.tryCatch, Eff.bind_apply, Eff.bind,
        getAuthenticatedUser_some, FormModel.getById_rejected hfirst]
      split_ifs <;> rfl
  | none =>
  have hacc : w.Accepts := hfirst
  cases hrow : w.db.findForm formId with
  | none =>
      simp only [Mutation.reorderQuestions, Eff.tryCatch, Eff.bind_apply, Eff.bind,
        getAuthenticatedUser_some, FormModel.getById_missing hacc hrow]
      split_ifs <;> rfl
  | some row =>
  by_cases hown : row.userId = caller.id
  · cases hsecond : w.next.faults.head?.join with
    | some msg =>
        have hown1 : row.toForm.userId = caller.id := hown
        by_cases hlen0 : l.length = 0
        · simp only [Mutation.reorderQuestions, Eff.tryCatch, Eff.bind_apply, Eff.bind,
            getAuthenticatedUser_some, FormModel.getById_found hacc hrow, ne_eq, hown1,
            not_true_eq_false, if_false, hlen0, if_true, Eff.pure_apply]
          rfl
        · simp only [Mutation.reorderQuestions, Eff.tryCatch, Eff.bind_apply, Eff.bind,
            getAuthenticatedUser_some, FormModel.getById_found hacc hrow, ne_eq, hown1,
            not_true_eq_false, if_false, hlen0,
            QuestionModel.reorderQuestions_rejected hsecond]
          split_ifs <;> rfl
    | none =>
        have hacc2 : w.next.Accepts := hsecond
        have hq1 : w.next.Quiet := World.quiet_of_accepts hacc2 hrest
        have hq : w.Quiet := World.quiet_of_accepts hacc hq1
        by_cases hgood : (∀ id ∈ l, id ∈ w.db.questionIds formId) ∧
            l.length = (w.db.questionIds formId).length
        · by_cases hnil : l = []
          · subst hnil
            rw [Mutation.reorderQuestions_empty hacc hrow hown]
            rfl
          · obtain ⟨w1, hrun, _⟩ :=
              Mutation.reorderQuestions_done hq hrow hown l hnil hgood.1 hgood.2
            obtain ⟨e, he⟩ := herr
            rw [hrun] at he
            cases he
        · exact (Mutation.reorderQuestions_refused hacc hacc2 hrow hown l hgood).2
  · have hown1 : ¬ row.toForm.userId = caller.id := hown
    simp only [Mutation.reorderQuestions, Eff.tryCatch, Eff.bind_apply, Eff.bind,
      getAuthenticatedUser_some, FormModel.getById_found hacc hrow, ne_eq, hown1,
      not_false_eq_true, if_true, Eff.pure_apply]
    rfl

/-- Witness of `reorder_error_keeps_store`: a list that misses question 2. -/
theorem reorder_error_keeps_store_witness :
    sampleWorld.next.next.Quiet ∧
    ReturnsError (Mutation.reorderQuestions 20 [1] userB sampleWorld) ∧
    (Mutation.reorderQuestions 20 [1] userB sampleWorld).2.db = sampleWorld.db :=
  ⟨by decide, ⟨_, rfl⟩,
    reorder_error_keeps_store sampleWorld userB 20 [1] (by decide) ⟨_, rfl⟩⟩

/-- C4, on the code: user 2 owns form 20, whose questions are 1 and 2, and
sends the id list `[1]`, which names only questions of the form but misses
one.  The resolver answers `INTERNAL_ERROR` / 500: the message
`All questions must be included in the reorder operation` does not contain
`not found in form`, the only text its `catch` block maps to
`VALIDATION_ERROR`. -/
theorem reorder_missing_question_is_internal_error :
    sampleDb.findForm 20 = some formB ∧ formB.userId = identityB.id ∧
    sampleDb.questionIds 20 = [1, 2] ∧
    QuestionModel.reorderQuestions 20 [1] sampleWorld
      = (.error { message := "All questions must be included in the reorder operation" },
          sampleWorld) ∧
    Mutation.reorderQuestions 20 [1] userB sampleWorld
      = (.ok (createError "INTERNAL_ERROR" "Failed to reorder questions" 500), sampleWorld) ∧
    Mutation.reorderQuestions 20 [1, 2, 1] userB sampleWorld
      = (.ok (createError "INTERNAL_ERROR" "Failed to reorder questions" 500), sampleWorld) :=
  ⟨rfl, rfl, rfl, rfl, rfl, rfl⟩

/-! ## The position invariant -/

theorem positions_eq_of_keys {db1 db2 : Db}
    (h : db1.questions.map (fun q => (q.formId, q.questionOrder))
      = db2.questions.map (fun q => (q.formId, q.questionOrder))) (f : Nat) :
    db1.positions f = db2.positions f ∧
      (db1.questionsOf f).length = (db2.questionsOf f).length := by
  have key : ∀ db : Db, db.positions f
      = ((db.questions.map (fun q => (q.formId, q.questionOrder))).filter
          (fun k => k.1 == f)).map (fun k => k.2.getD 0) := by
    intro db
    simp only [Db.positions, Db.questionsOf, List.filter_map, List.map_map]
    rfl
  have len : ∀ db : Db, (db.questionsOf f).length
      = ((db.questions.map (fun q => (q.formId, q.questionOrder))).filter
          (fun k => k.1 == f)).length := by
    intro db
    simp only [Db.questionsOf, List.filter_map, List.length_map]
    rfl
  exact ⟨by rw [key db1, key db2, h], by rw [len db1, len db2, h]⟩

theorem PositionInvariant.of_keys {db1 db2 : Db}
    (h : db2.questions.map (fun q => (q.formId, q.questionOrder))
      = db1.questions.map (fun q => (q.formId, q.questionOrder)))
    (hinv : PositionInvariant db1) : PositionInvariant db2 := by
  intro f
  obtain ⟨hp, hl⟩ := positions_eq_of_keys h f
  rw [hp, hl]
  exact hinv f

theorem sampleDb_positions : PositionInvariant sampleDb := by
  intro f
  by_cases h : f = 20
  · subst h
    decide
  · have h1 : ((20 : Nat) == f) = false := by simpa using (Ne.symm h)
    simp [Db.positions, Db.questionsOf, sampleDb, question1, question2, h1, oneTo]

theorem QuestionModel.getById_db (id : Nat) (w : World) (h : w.Accepts) :
    (QuestionModel.getById id w).2.db = w.db := by
  simp only [QuestionModel.getById, Eff.bind_apply, Eff.bind, h.query]
  cases w.db.questions.filter (fun q => q.id == id) <;> rfl

theorem QuestionModel.update_keys {w : World} (h : w.Quiet) (id : Nat)
    (patch : QuestionUpdateInput) (hord : patch.order = .undefined) :
    (QuestionModel.update id patch w).2.db.questions.map (fun q => (q.formId, q.questionOrder))
      = w.db.questions.map (fun q => (q.formId, q.questionOrder)) := by
  simp only [QuestionModel.update, Eff.bind_apply, Eff.bind, h.accepts.withDb, hord]
  split_ifs with hcheck
  · rfl
  · simp only []
    have hacc : ∀ db1 : Db, (⟨db1, w.next.now, w.next.faults⟩ : World).Accepts :=
      fun _ => h.next.accepts
    rw [QuestionModel.getById_db id _ (hacc _)]
    simp only [List.map_map]
    apply List.map_congr_left
    intro q _
    simp only [Function.comp]
    split_ifs <;> rfl

theorem Mutation.updateQuestion_keys {w : World} (h : w.Quiet) (formId id : Nat)
    (patch : QuestionUpdateInput) (context : Context) (hord : patch.order = .undefined) :
    (Mutation.updateQuestion formId id patch context w).2.db.questions.map
        (fun q => (q.formId, q.questionOrder))
      = w.db.questions.map (fun q => (q.formId, q.questionOrder)) := by
  cases context with
  | mk user =>
  cases user with
  | none => rfl
  | some caller =>
  cases hrow : w.db.findForm formId with
  | none =>
      simp only [Mutation.updateQuestion, Eff.tryCatch, Eff.bind_apply, Eff.bind,
        getAuthenticatedUser_some, FormModel.getById_missing h.accepts hrow]
      split_ifs <;> rfl
  | some row =>
      by_cases hown : row.toForm.userId = caller.id
      · have hkeys := QuestionModel.update_keys (w := w.next) h.next id patch hord
        rcases hres : QuestionModel.update id patch w.next with ⟨r, w1⟩
        rw [hres] at hkeys
        cases r with
        | ok q =>
            simp only [Mutation.updateQuestion, Eff.tryCatch, Eff.bind_apply, Eff.bind,
              getAuthenticatedUser_some, FormModel.getById_found h.accepts hrow, ne_eq, hown,
              not_true_eq_false, if_false, hres, Eff.pure_apply]
            exact hkeys
        | error e =>
            simp only [Mutation.updateQuestion, Eff.tryCatch, Eff.bind_apply, Eff.bind,
              getAuthenticatedUser_some, FormModel.getById_found h.accepts hrow, ne_eq, hown,
              not_true_eq_false, if_false, hres]
            split_ifs <;> exact hkeys
      · simp only [Mutation.updateQuestion, Eff.tryCatch, Eff.bind_apply, Eff.bind,
          getAuthenticatedUser_some, FormModel.getById_found h.accepts hrow, ne_eq, hown,
          not_false_eq_true, if_true, Eff.pure_apply]
        rfl

theorem Mutation.reorderQuestions_form_db {w : World} (h : w.Quiet) (formId : Nat)
    (l : List Nat) (context : Context)
    (hform : ReturnsForm (Mutation.reorderQuestions formId l context w)) :
    ((∀ id ∈ l, id ∈ w.db.questionIds formId) ∧ l.length = (w.db.questionIds formId).length) ∧
      (Mutation.reorderQuestions formId l context w).2.db = reorderedDb formId w.now l 0 w.db := by
  obtain ⟨f, hf⟩ := hform
  cases context with
  | mk user =>
  cases user with
  | none => cases hf
  | some caller =>
  cases hrow : w.db.findForm formId with
  | none =>
      simp only [Mutation.reorderQuestions, Eff.tryCatch, Eff.bind_apply, Eff.bind,
        getAuthenticatedUser_some, FormModel.getById_missing h.accepts hrow] at hf
      split_ifs at hf <;> cases hf
  | some row =>
      by_cases hown : row.userId = caller.id
      · by_cases hgood : (∀ id ∈ l, id ∈ w.db.questionIds formId) ∧
            l.length = (w.db.questionIds formId).length
        · by_cases hnil : l = []
          · subst hnil
            rw [Mutation.reorderQuestions_empty h.accepts hrow hown] at hf
            cases hf
          · obtain ⟨w1, hrun, hdb⟩ :=
              Mutation.reorderQuestions_done h hrow hown l hnil hgood.1 hgood.2
            exact ⟨hgood, by rw [hrun]; exact hdb⟩
        · obtain ⟨⟨e, he⟩, _⟩ :=
            Mutation.reorderQuestions_refused h.accepts h.next.accepts hrow hown l hgood
          rw [he] at hf
          cases hf
      · have hown1 : ¬ row.toForm.userId = caller.id := hown
        simp only [Mutation.reorderQuestions, Eff.tryCatch, Eff.bind_apply, Eff.bind,
          getAuthenticatedUser_some, FormModel.getById_found h.accepts hrow, ne_eq, hown1,
          not_false_eq_true, if_true, Eff.pure_apply] at hf
        cases hf

/-- C5, as stated, fails: in the sample store every form has positions
`1..N`; user 2 adds a question to their form 20 without an `order`, the
mutation returns the new `Question`, whose position is 0 (`order || 0`), and
the positions of form 20 are then 1, 2, 0 instead of 1, 2, 3. -/
theorem create_question_breaks_positions :
    PositionInvariant sampleDb ∧
    (∃ q : Question, q.order = 0 ∧
      (Mutation.createQuestion 20 { text := some "Third", type := some "shorttext" } userB
        sampleWorld).1 = .ok (.question q)) ∧
    (Mutation.createQuestion 20 { text := some "Third", type := some "shorttext" } userB
        sampleWorld).2.db.positions 20 = [1, 2, 0] ∧
    ¬ PositionInvariant (Mutation.createQuestion 20
        { text := some "Third", type := some "shorttext" } userB sampleWorld).2.db :=
  ⟨sampleDb_positions, ⟨_, rfl, rfl⟩, rfl, fun h => absurd (h 20) (by decide)⟩

/-- C5, amended: if in every form the positions are exactly `1..N`, the same
holds after a `reorderQuestions` call that returns the `Form` and whose id list
has no repeated id, and after an `updateQuestion` call whose patch has no
`order` field (no statement being rejected by the store). -/
theorem position_invariant_preserved (w : World) (context : Context) (formId id : Nat)
    (l : List Nat) (patch : QuestionUpdateInput) (hquiet : w.Quiet)
    (hinv : PositionInvariant w.db) :
    (l.Nodup → ReturnsForm (Mutation.reorderQuestions formId l context w) →
      PositionInvariant (Mutation.reorderQuestions formId l context w).2.db) ∧
    (patch.order = .undefined →
      PositionInvariant (Mutation.updateQuestion formId id patch context w).2.db) := by
  constructor
  · intro hnodup hform
    obtain ⟨hgood, hdb⟩ := Mutation.reorderQuestions_form_db hquiet formId l context hform
    rw [hdb]
    intro f
    by_cases hf : f = formId
    · subst hf
      exact positions_reordered f w.now l w.db hnodup
        ((perm_iff_subset_length hnodup).mpr hgood)
    · have hq := questionsOf_reordered_other formId w.now l 0 w.db f hf
      have hp : (reorderedDb formId w.now l 0 w.db).positions f = w.db.positions f := by
        simp only [Db.positions, hq]
      rw [hp, hq]
      exact hinv f
  · intro hord
    exact PositionInvariant.of_keys
      (Mutation.updateQuestion_keys hquiet formId id patch context hord) hinv

/-- Witness of `position_invariant_preserved`: user 2 swaps the questions of
form 20, and renames question 1. -/
theorem position_invariant_preserved_witness :
    sampleWorld.Quiet ∧ PositionInvariant sampleWorld.db ∧ ([2, 1] : List Nat).Nodup ∧
    ReturnsForm (Mutation.reorderQuestions 20 [2, 1] userB sampleWorld) ∧
    ({ text := some "Renamed" } : QuestionUpdateInput).order = .undefined ∧
    PositionInvariant (Mutation.reorderQuestions 20 [2, 1] userB sampleWorld).2.db ∧
    PositionInvariant
      (Mutation.updateQuestion 20 1 { text := some "Renamed" } userB sampleWorld).2.db :=
  ⟨by decide, sampleDb_positions, by decide, ⟨_, rfl⟩, rfl,
    (position_invariant_preserved sampleWorld userB 20 1 [2, 1] { text := some "Renamed" }
      (by decide) sampleDb_positions).1 (by decide) ⟨_, rfl⟩,
    (position_invariant_preserved sampleWorld userB 20 1 [2, 1] { text := some "Renamed" }
      (by decide) sampleDb_positions).2 rfl⟩

/-- The check of `QuestionModel.reorderQuestions` compares lengths only: the
list `[1, 1]` names question 1 twice and leaves question 2 out, yet it is
accepted; question 1 is written twice and both questions end at position 2. -/
theorem reorder_accepts_repeated_id :
    sampleDb.questionIds 20 = [1, 2] ∧
    (Mutation.reorderQuestions 20 [1, 1] userB sampleWorld).1 = .ok (.form formB.toForm) ∧
    (Mutation.reorderQuestions 20 [1, 1] userB sampleWorld).2.db.positions 20 = [2, 2] :=
  ⟨rfl, rfl, rfl⟩

/-! ## Ownership -/

/-- C6, on the code: user 1 owns form 10 and user 2 owns form 20, to which
questions 1 and 2 and response 7 (with its answer) belong.  User 1 names their
own form 10 as `formId` and a row of form 20 as `id`: the ownership check
passes on form 10 and the models, which look rows up by `id` alone, delete
question 1, rewrite question 2, clear the answers of response 7 and delete
response 7. -/
theorem foreign_rows_changed_through_own_form :
    sampleDb.findForm 10 = some formA ∧ formA.userId = identityA.id ∧
    sampleDb.findForm 20 = some formB ∧ formB.userId = identityB.id ∧
    identityA.id ≠ identityB.id ∧
    sampleDb.questions = [question1, question2] ∧
    question1.formId = 20 ∧ question2.formId = 20 ∧
    sampleDb.responses.map (fun r => (r.id, r.formId)) = [(7, 20)] ∧
    sampleDb.answers.map (fun a => (a.responseId, a.formId)) = [(7, some 20)] ∧
    (Mutation.deleteQuestion 10 1 userA sampleWorld).1
      = .ok (.successResult true "Question deleted successfully") ∧
    (Mutation.deleteQuestion 10 1 userA sampleWorld).2.db.questions = [question2] ∧
    (Mutation.updateQuestion 10 2 { text := some "Defaced", order := .value 9 } userA
        sampleWorld).2.db.questions
      = [question1, { question2 with questionText := "Defaced", questionOrder := some 9,
                                     updatedAt := 11 }] ∧
    (Mutation.updateResponse 10 7 { answers := some [] } userA sampleWorld).2.db.answers = [] ∧
    (Mutation.deleteResponse 10 7 userA sampleWorld).1
      = .ok (.successResult true "Response deleted successfully") ∧
    (Mutation.deleteResponse 10 7 userA sampleWorld).2.db.responses = [] ∧
    (Mutation.deleteResponse 10 7 userA sampleWorld).2.db.answers = [] :=
  ⟨rfl, rfl, rfl, rfl, by decide, rfl, rfl, rfl, rfl, rfl, rfl, rfl, rfl, rfl, rfl, rfl, rfl⟩

/-- C7, as stated, fails: user 1, who does not own form 20, asks for it, for
its questions and for its responses, and receives the `Form`, the
`QuestionsList` and the `ResponsesList` of user 2, not an `Error` envelope. -/
theorem foreign_form_is_readable :
    sampleDb.findForm 20 = some formB ∧ formB.userId = identityB.id ∧
    identityA.id ≠ identityB.id ∧
    (Query.form 20 userA sampleWorld).1 = .ok (.form formB.toForm) ∧
    (Query.questions 20 none userA sampleWorld).1
      = .ok (.questionsList [question1.toQuestion, question2.toQuestion] 2) ∧
    (Query.question 20 1 userA sampleWorld).1 = .ok (.question question1.toQuestion) ∧
    (∃ r : Response, r.formId = 20 ∧
      (Query.responses 20 none userA sampleWorld).1 = .ok (.responsesList [r] 1) ∧
      (Query.response 20 7 userA sampleWorld).1 = .ok (.response r)) :=
  ⟨rfl, rfl, by decide, rfl, rfl, rfl, ⟨_, rfl, rfl, rfl⟩⟩

/-- C7, amended: the read queries `form`, `questions`, `question`, `responses`
and `response` only require an authenticated caller: any two identities get
the same answer, and for a stored form (the lookup not being rejected by the
store) `form(id)` returns that form and `questions(formId)` its questions in
position order, whoever the owner is. -/
theorem reads_ignore_ownership (w : World) (a b : Identity) (formId id : Nat)
    (qsort : Option QuestionSort) (rsort : Option ResponseSort) (row : FormRow)
    (haccepts : w.Accepts) (hrow : w.db.findForm formId = some row) :
    Query.form formId ⟨some a⟩ w = Query.form formId ⟨some b⟩ w ∧
    Query.questions formId qsort ⟨some a⟩ w = Query.questions formId qsort ⟨some b⟩ w ∧
    Query.question formId id ⟨some a⟩ w = Query.question formId id ⟨some b⟩ w ∧
    Query.responses formId rsort ⟨some a⟩ w = Query.responses formId rsort ⟨some b⟩ w ∧
    Query.response formId id ⟨some a⟩ w = Query.response formId id ⟨some b⟩ w ∧
    Query.form formId ⟨some a⟩ w = (.ok (.form row.toForm), w.next) ∧
    Query.questions formId none ⟨some a⟩ w
      = (.ok (.questionsList
          ((orderBy questionOrderThenId false (w.db.questionsOf formId)).map
            QuestionRow.toQuestion)
          (w.db.questionsOf formId).length), w.next) := by
  refine ⟨rfl, rfl, rfl, rfl, rfl, ?_, ?_⟩
  · simp only [Query.form, Eff.tryCatch, Eff.bind_apply, Eff.bind, getAuthenticatedUser_some,
      FormModel.getById_found haccepts hrow, Eff.pure_apply]
  · have hlen : ((orderBy questionOrderThenId false (w.db.questionsOf formId)).map
        QuestionRow.toQuestion).length = (w.db.questionsOf formId).length := by
      rw [List.length_map, orderBy]
      exact (List.perm_insertionSort _ _).length_eq
    simp only [Query.questions, Eff.tryCatch, Eff.bind_apply, Eff.bind,
      getAuthenticatedUser_some, getByFormId_default haccepts, Eff.pure_apply, hlen]

/-- Witness of `reads_ignore_ownership`: users 1 and 2 read form 20. -/
theorem reads_ignore_ownership_witness :
    sampleWorld.Accepts ∧ sampleWorld.db.findForm 20 = some formB ∧
    Query.form 20 ⟨some identityA⟩ sampleWorld = Query.form 20 ⟨some identityB⟩ sampleWorld ∧
    Query.questions 20 none ⟨some identityA⟩ sampleWorld
      = Query.questions 20 none ⟨some identityB⟩ sampleWorld ∧
    Query.question 20 1 ⟨some identityA⟩ sampleWorld
      = Query.question 20 1 ⟨some identityB⟩ sampleWorld ∧
    Query.responses 20 none ⟨some identityA⟩ sampleWorld
      = Query.responses 20 none ⟨some identityB⟩ sampleWorld ∧
    Query.response 20 1 ⟨some identityA⟩ sampleWorld
      = Query.response 20 1 ⟨some identityB⟩ sampleWorld ∧
    Query.form 20 ⟨some identityA⟩ sampleWorld = (.ok (.form formB.toForm), sampleWorld.next) ∧
    Query.questions 20 none ⟨some identityA⟩ sampleWorld
      = (.ok (.questionsList
          ((orderBy questionOrderThenId false (sampleWorld.db.questionsOf 20)).map
            QuestionRow.toQuestion)
          (sampleWorld.db.questionsOf 20).length), sampleWorld.next) :=
  ⟨by decide, rfl,
    reads_ignore_ownership sampleWorld identityA identityB 20 1 none none formB (by decide) rfl⟩

/-! ## Anonymous and foreign callers -/

/-- C8: for an authenticated caller and a stored form owned by somebody else
(the store not rejecting the form lookup), each of `updateForm`, `deleteForm`,
`createQuestion`, `updateQuestion`, `deleteQuestion`, `reorderQuestions`,
`updateResponse` and `deleteResponse` called with that form's id returns the
`FORBIDDEN` / 403 `Error` envelope and leaves every table unchanged. -/
theorem foreign_form_is_forbidden (w : World) (caller : Identity) (formId : Nat) (row : FormRow)
    (haccepts : w.Accepts) (hrow : w.db.findForm formId = some row)
    (hne : row.userId ≠ caller.id)
    (questionId responseId : Nat) (formPatch : FormUpdate) (questionInput : QuestionCreateInput)
    (questionPatch : QuestionUpdateInput) (questionIds : List Nat)
    (responsePatch : ResponseUpdateInput) :
    Rejects "FORBIDDEN" 403 w (Mutation.updateForm formId formPatch ⟨some caller⟩ w) ∧
    Rejects "FORBIDDEN" 403 w (Mutation.deleteForm formId ⟨some caller⟩ w) ∧
    Rejects "FORBIDDEN" 403 w (Mutation.createQuestion formId questionInput ⟨some caller⟩ w) ∧
    Rejects "FORBIDDEN" 403 w
      (Mutation.updateQuestion formId questionId questionPatch ⟨some caller⟩ w) ∧
    Rejects "FORBIDDEN" 403 w (Mutation.deleteQuestion formId questionId ⟨some caller⟩ w) ∧
    Rejects "FORBIDDEN" 403 w (Mutation.reorderQuestions formId questionIds ⟨some caller⟩ w) ∧
    Rejects "FORBIDDEN" 403 w
      (Mutation.updateResponse formId responseId responsePatch ⟨some caller⟩ w) ∧
    Rejects "FORBIDDEN" 403 w (Mutation.deleteResponse formId responseId ⟨some caller⟩ w) := by
  have hget := FormModel.getById_found haccepts hrow
  have hne1 : ¬ row.toForm.userId = caller.id := hne
  refine ⟨?_, ?_, ?_, ?_, ?_, ?_, ?_, ?_⟩
  · simp only [Mutation.updateForm, Eff.tryCatch, Eff.bind_apply, Eff.bind,
      getAuthenticatedUser_some, hget, ne_eq, hne1, not_false_eq_true, ite_true, Eff.pure_apply]
    exact ⟨⟨_, rfl⟩, rfl⟩
  · simp only [Mutation.deleteForm, Eff.tryCatch, Eff.bind_apply, Eff.bind,
      getAuthenticatedUser_some, hget, ne_eq, hne1, not_false_eq_true, ite_true, Eff.pure_apply]
    exact ⟨⟨_, rfl⟩, rfl⟩
  · simp only [Mutation.createQuestion, Eff.tryCatch, Eff.bind_apply, Eff.bind,
      getAuthenticatedUser_some, hget, ne_eq, hne1, not_false_eq_true, ite_true, Eff.pure_apply]
    exact ⟨⟨_, rfl⟩, rfl⟩
  · simp only [Mutation.updateQuestion, Eff.tryCatch, Eff.bind_apply, Eff.bind,
      getAuthenticatedUser_some, hget, ne_eq, hne1, not_false_eq_true, ite_true, Eff.pure_apply]
    exact ⟨⟨_, rfl⟩, rfl⟩
  · simp only [Mutation.deleteQuestion, Eff.tryCatch, Eff.bind_apply, Eff.bind,
      getAuthenticatedUser_some, hget, ne_eq, hne1, not_false_eq_true, ite_true, Eff.pure_apply]
    exact ⟨⟨_, rfl⟩, rfl⟩
  · simp only [Mutation.reorderQuestions, Eff.tryCatch, Eff.bind_apply, Eff.bind,
      getAuthenticatedUser_some, hget, ne_eq, hne1, not_false_eq_true, ite_true, Eff.pure_apply]
    exact ⟨⟨_, rfl⟩, rfl⟩
  · simp only [Mutation.updateResponse, Eff.tryCatch, Eff.bind_apply, Eff.bind,
      getAuthenticatedUser_some, hget, ne_eq, hne1, not_false_eq_true, ite_true, Eff.pure_apply]
    exact ⟨⟨_, rfl⟩, rfl⟩
  · simp only [Mutation.deleteResponse, Eff.tryCatch, Eff.bind_apply, Eff.bind,
      getAuthenticatedUser_some, hget, ne_eq, hne1, not_false_eq_true, ite_true, Eff.pure_apply]
    exact ⟨⟨_, rfl⟩, rfl⟩

/-- Witness of `foreign_form_is_forbidden`: user 1 targets form 20 of user 2. -/
theorem foreign_form_is_forbidden_witness :
    sampleWorld.Accepts ∧ sampleWorld.db.findForm 20 = some formB ∧
    formB.userId ≠ identityA.id ∧
    Rejects "FORBIDDEN" 403 sampleWorld
      (Mutation.updateForm 20 { title := some "Mine" } ⟨some identityA⟩ sampleWorld) ∧
    Rejects "FORBIDDEN" 403 sampleWorld (Mutation.deleteForm 20 ⟨some identityA⟩ sampleWorld) ∧
    Rejects "FORBIDDEN" 403 sampleWorld
      (Mutation.createQuestion 20 { text := some "Q", type := some "shorttext" }
        ⟨some identityA⟩ sampleWorld) ∧
    Rejects "FORBIDDEN" 403 sampleWorld
      (Mutation.updateQuestion 20 1 { text := some "Q" } ⟨some identityA⟩ sampleWorld) ∧
    Rejects "FORBIDDEN" 403 sampleWorld
      (Mutation.deleteQuestion 20 1 ⟨some identityA⟩ sampleWorld) ∧
    Rejects "FORBIDDEN" 403 sampleWorld
      (Mutation.reorderQuestions 20 [2, 1] ⟨some identityA⟩ sampleWorld) ∧
    Rejects "FORBIDDEN" 403 sampleWorld
      (Mutation.updateResponse 20 7 { answers := some [] } ⟨some identityA⟩ sampleWorld) ∧
    Rejects "FORBIDDEN" 403 sampleWorld
      (Mutation.deleteResponse 20 7 ⟨some identityA⟩ sampleWorld) :=
  ⟨by decide, rfl, by decide,
    foreign_form_is_forbidden sampleWorld identityA 20 formB (by decide) rfl (by decide) 1 7
      { title := some "Mine" } { text := some "Q", type := some "shorttext" }
      { text := some "Q" } [2, 1] { answers := some [] }⟩

/-- C9: every query and mutation other than `health`, `register`, `login` and
`createResponse`, called with an anonymous context and any arguments, returns
the `UNAUTHORIZED` / 401 `Error` envelope and leaves the world exactly as it
was: no statement is sent to the store. -/
theorem anonymous_is_unauthorized (w : World) (id formId : Nat) (filter : Arg FormFilter)
    (fsort : Option FormSort) (qsort : Option QuestionSort) (rsort : Option ResponseSort)
    (userInput : UserUpdate)
    (formInput : FormCreateInput) (formPatch : FormUpdate) (questionInput : QuestionCreateInput)
    (questionPatch : QuestionUpdateInput) (questionIds : List Nat)
    (responsePatch : ResponseUpdateInput) :
    let denied : Except JsError Result × World :=
      (.ok (createError "UNAUTHORIZED" "Authentication required" 401), w)
    Query.me anonymous w = denied ∧
    Query.users anonymous w = denied ∧
    Query.user id anonymous w = denied ∧
    Query.forms filter fsort anonymous w = denied ∧
    Query.form id anonymous w = denied ∧
    Query.questions formId qsort anonymous w = denied ∧
    Query.question formId id anonymous w = denied ∧
    Query.responses formId rsort anonymous w = denied ∧
    Query.response formId id anonymous w = denied ∧
    Mutation.logout anonymous w = denied ∧
    Mutation.updateUser id userInput anonymous w = denied ∧
    Mutation.deleteUser id anonymous w = denied ∧
    Mutation.createForm formInput anonymous w = denied ∧
    Mutation.updateForm id formPatch anonymous w = denied ∧
    Mutation.deleteForm id anonymous w = denied ∧
    Mutation.createQuestion formId questionInput anonymous w = denied ∧
    Mutation.updateQuestion formId id questionPatch anonymous w = denied ∧
    Mutation.deleteQuestion formId id anonymous w = denied ∧
    Mutation.reorderQuestions formId questionIds anonymous w = denied ∧
    Mutation.updateResponse formId id responsePatch anonymous w = denied ∧
    Mutation.deleteResponse formId id anonymous w = denied := by
  refine ⟨rfl, rfl, rfl, rfl, rfl, rfl, rfl, rfl, rfl, rfl, rfl, rfl, rfl, rfl, rfl, rfl, rfl,
    rfl, rfl, rfl, rfl⟩

/-- C10: for an authenticated caller and a target id other than the caller's
own, `updateUser` and `deleteUser` return the `FORBIDDEN` / 403 `Error`
envelope and leave the world, hence every user row, exactly as it was. -/
theorem foreign_user_is_forbidden (w : World) (caller : Identity) (id : Nat)
    (input : UserUpdate) (hne : id ≠ caller.id) :
    Mutation.updateUser id input ⟨some caller⟩ w
      = (.ok (createError "FORBIDDEN" "You can only update your own profile" 403), w) ∧
    Mutation.deleteUser id ⟨some caller⟩ w
      = (.ok (createError "FORBIDDEN" "You can only delete your own account" 403), w) := by
  have hne1 : ¬ caller.id = id := fun h => hne h.symm
  constructor
  · simp [Mutation.updateUser, Eff.tryCatch, Eff.bind_apply, Eff.bind,
      getAuthenticatedUser_some, hne1, Eff.pure_apply]
  · simp [Mutation.deleteUser, Eff.tryCatch, Eff.bind_apply, Eff.bind,
      getAuthenticatedUser_some, hne1, Eff.pure_apply]

/-- Witness of `foreign_user_is_forbidden`: user 1 targets user 2. -/
theorem foreign_user_is_forbidden_witness :
    (2 : Nat) ≠ (1 : Nat) ∧
    (Mutation.updateUser 2 { name := some "Mallory" } userA sampleWorld
      = (.ok (createError "FORBIDDEN" "You can only update your own profile" 403), sampleWorld) ∧
     Mutation.deleteUser 2 userA sampleWorld
      = (.ok (createError "FORBIDDEN" "You can only delete your own account" 403), sampleWorld)) :=
  ⟨by decide, foreign_user_is_forbidden sampleWorld identityA 2 { name := some "Mallory" }
    (by decide)⟩

/-! ## `createResponse` without answers -/

theorem createResponseErrors_empty {input : ResponseCreateInput}
    (h : input.answers = none ∨ input.answers = some []) :
    createResponseErrors input = [createErrorDetail "answers" "At least one answer is required"] := by
  rcases h with h | h <;> simp [createResponseErrors, h]

/-- C11, as stated, fails: no form has id 99, and `createResponse(99, ...)`
with an empty answers list returns `INTERNAL_ERROR` / 500, not
`VALIDATION_ERROR`: the form lookup comes before the validation and its error
is caught by the resolver. -/
theorem create_response_unknown_form :
    sampleDb.findForm 99 = none ∧
    Mutation.createResponse 99 { answers := some [] } sampleWorld
      = (.ok (createError "INTERNAL_ERROR" "Failed to create response" 500), sampleWorld) ∧
    Mutation.createResponse 99 {} sampleWorld
      = (.ok (createError "INTERNAL_ERROR" "Failed to create response" 500), sampleWorld) :=
  ⟨rfl, rfl, rfl⟩

/-- C11, amended: for every input whose answers list is empty or missing,
`createResponse` returns an `Error` envelope and writes nothing, whatever the
form id; when the form id resolves to a stored form (the lookup not being
rejected by the store) the envelope is `VALIDATION_ERROR` / 400 with the detail
for `answers`. -/
theorem create_response_without_answers (w : World) (formId : Nat)
    (input : ResponseCreateInput) (hempty : input.answers = none ∨ input.answers = some []) :
    ReturnsError (Mutation.createResponse formId input w) ∧
    (Mutation.createResponse formId input w).2.db = w.db ∧
    (∀ row, w.Accepts → w.db.findForm formId = some row →
      Mutation.createResponse formId input w
        = (.ok (createError "VALIDATION_ERROR" "Invalid response data" 400
            [createErrorDetail "answers" "At least one answer is required"]), w.next)) := by
  have herrors := createResponseErrors_empty hempty
  have hfound : ∀ row, w.Accepts → w.db.findForm formId = some row →
      Mutation.createResponse formId input w
        = (.ok (createError "VALIDATION_ERROR" "Invalid response data" 400
            [createErrorDetail "answers" "At least one answer is required"]), w.next) := by
    intro row hacc hrow
    simp only [Mutation.createResponse, Eff.tryCatch, Eff.bind_apply, Eff.bind,
      FormModel.getById_found hacc hrow, herrors, List.length_singleton, zero_lt_one, if_true,
      Eff.pure_apply]
  refine ⟨?_, ?_, hfound⟩
  · cases h : w.faults.head?.join with
    | some msg =>
        simp only [Mutation.createResponse, Eff.tryCatch, Eff.bind_apply, Eff.bind,
          FormModel.getById_rejected h, createResponseCatch]
        unfold ReturnsError
        split_ifs <;> exact ⟨_, rfl⟩
    | none =>
        have hacc : w.Accepts := h
        cases hrow : w.db.findForm formId with
        | none =>
            simp only [Mutation.createResponse, Eff.tryCatch, Eff.bind_apply, Eff.bind,
              FormModel.getById_missing hacc hrow, createResponseCatch]
            unfold ReturnsError
            split_ifs <;> exact ⟨_, rfl⟩
        | some row =>
            rw [hfound row hacc hrow]
            exact ⟨_, rfl⟩
  · cases h : w.faults.head?.join with
    | some msg =>
        simp only [Mutation.createResponse, Eff.tryCatch, Eff.bind_apply, Eff.bind,
          FormModel.getById_rejected h, createResponseCatch]
        split_ifs <;> rfl
    | none =>
        have hacc : w.Accepts := h
        cases hrow : w.db.findForm formId with
        | none =>
            simp only [Mutation.createResponse, Eff.tryCatch, Eff.bind_apply, Eff.bind,
              FormModel.getById_missing hacc hrow, createResponseCatch]
            split_ifs <;> rfl
        | some row =>
            rw [hfound row hacc hrow]
            rfl

/-- Witness of `create_response_without_answers`: an empty list sent to form 20. -/
theorem create_response_without_answers_witness :
    (({ answers := some [] } : ResponseCreateInput).answers = none ∨
      ({ answers := some [] } : ResponseCreateInput).answers = some []) ∧
    sampleWorld.Accepts ∧ sampleWorld.db.findForm 20 = some formB ∧
    ReturnsError (Mutation.createResponse 20 { answers := some [] } sampleWorld) ∧
    (Mutation.createResponse 20 { answers := some [] } sampleWorld).2.db = sampleWorld.db ∧
    Mutation.createResponse 20 { answers := some [] } sampleWorld
      = (.ok (createError "VALIDATION_ERROR" "Invalid response data" 400
          [createErrorDetail "answers" "At least one answer is required"]), sampleWorld.next) :=
  ⟨Or.inr rfl, by decide, rfl,
    (create_response_without_answers sampleWorld 20 { answers := some [] } (Or.inr rfl)).1,
    (create_response_without_answers sampleWorld 20 { answers := some [] } (Or.inr rfl)).2.1,
    (create_response_without_answers sampleWorld 20 { answers := some [] } (Or.inr rfl)).2.2
      formB (by decide) rfl⟩

/-! ## Statements and their outcomes -/

theorem execute_cases (write : Nat → Db → Db) (w : World) :
    (∃ e, execute write w = (.error e, w.next)) ∨
      execute write w = (.ok [], { w.next with db := write w.now w.db }) := by
  cases h : w.faults.head?.join with
  | some msg => exact Or.inl ⟨_, by rw [FormsClone.execute, withDb_rejected h]⟩
  | none =>
      have hacc : w.Accepts := h
      exact Or.inr (hacc.execute write)

theorem answers_of_valid {input : ResponseCreateInput} (h : createResponseErrors input = []) :
    ∃ a rest, input.answers = some (a :: rest) := by
  cases ha : input.answers with
  | none => simp [createResponseErrors, ha] at h
  | some l =>
      cases l with
      | nil => simp [createResponseErrors, ha] at h
      | cons a rest => exact ⟨a, rest, rfl⟩

theorem any_of_findForm {db : Db} {formId : Nat} {row : FormRow}
    (h : db.findForm formId = some row) : db.forms.any (fun f => f.id == formId) = true := by
  rw [Db.findForm] at h
  rw [List.any_eq_true]
  exact ⟨row, List.mem_of_find?_eq_some h, by simpa using List.find?_some h⟩

/-! ## `createResponse` and its answers -/

theorem withAnswers_nil (db : Db) : withAnswers [] db = db := by
  cases db
  simp [withAnswers]

theorem withAnswers_cons (responseId questionId : Nat) (text : String) (now : Nat) (db : Db)
    (stored : List AnswerRow) :
    withAnswers stored (insertAnswerRow responseId questionId text now db)
      = withAnswers (newAnswerRow db now responseId questionId text :: stored) db := by
  cases db
  simp [withAnswers, insertAnswerRow, Nat.add_assoc, Nat.add_comm 1]

/-- One answer `INSERT`: it throws and leaves the tables, or appends its row. -/
theorem insertAnswer_cases (responseId : Nat) (questionId : Option Nat)
    (answerText : Option String) (w : World) :
    (∃ e, insertAnswer responseId questionId answerText w = (.error e, w.next)) ∨
    (∃ question text, insertAnswer responseId questionId answerText w
      = (.ok [], { w.next with db := insertAnswerRow responseId question text w.now w.db })) := by
  cases h : w.faults.head?.join with
  | some msg => exact Or.inl ⟨_, by rw [insertAnswer, withDb_rejected h]⟩
  | none =>
      have hacc : w.Accepts := h
      rw [insertAnswer, hacc.withDb]
      cases questionId with
      | none => exact Or.inl ⟨_, rfl⟩
      | some question =>
          cases hreq : w.db.answerFormIdRequired with
          | true =>
              simp only [hreq, if_true]
              exact Or.inl ⟨_, rfl⟩
          | false =>
              cases answerText with
              | none =>
                  simp only [hreq, Bool.false_eq_true, if_false]
                  exact Or.inl ⟨_, rfl⟩
              | some text =>
                  simp only [hreq, Bool.false_eq_true, if_false]
                  split_ifs
                  · exact Or.inl ⟨_, rfl⟩
                  · exact Or.inr ⟨question, text, rfl⟩

/-- The loop over the answers of a payload appends the rows of the answers it
gets through, all of the given response; it gets through all of them exactly
when it returns normally. -/
theorem insertAnswers_appends (responseId : Nat) (answers : List AnswerInput) (w : World) :
    ∃ stored : List AnswerRow,
      (ResponseModel.insertAnswers responseId answers w).2.db = withAnswers stored w.db ∧
      (∀ a ∈ stored, a.responseId = responseId) ∧
      ((∃ u, (ResponseModel.insertAnswers responseId answers w).1 = .ok u) →
        stored.length = answers.length) ∧
      ((∃ e, (ResponseModel.insertAnswers responseId answers w).1 = .error e) →
        stored.length < answers.length) := by
  induction answers generalizing w with
  | nil =>
      refine ⟨[], (withAnswers_nil w.db).symm, by simp, fun _ => rfl, ?_⟩
      rintro ⟨e, he⟩
      cases he
  | cons answer rest ih =>
      rcases insertAnswer_cases responseId answer.questionId answer.answer w with
        ⟨e, hrun⟩ | ⟨question, text, hrun⟩
      · refine ⟨[], ?_, by simp, ?_, fun _ => Nat.succ_pos _⟩
        · simp only [ResponseModel.insertAnswers, Eff.bind_apply, Eff.bind, hrun]
          exact (withAnswers_nil w.db).symm
        · rintro ⟨u, hu⟩
          simp only [ResponseModel.insertAnswers, Eff.bind_apply, Eff.bind, hrun] at hu
          cases hu
      · obtain ⟨stored, hdb, hall, hok, herr⟩ :=
          ih { w.next with db := insertAnswerRow responseId question text w.now w.db }
        have hstep : ResponseModel.insertAnswers responseId (answer :: rest) w
            = ResponseModel.insertAnswers responseId rest
                { w.next with db := insertAnswerRow responseId question text w.now w.db } := by
          simp only [ResponseModel.insertAnswers, Eff.bind_apply, Eff.bind, hrun]
        rw [hstep]
        refine ⟨newAnswerRow w.db w.now responseId question text :: stored, ?_, ?_, ?_, ?_⟩
        · rw [hdb]
          exact withAnswers_cons responseId question text w.now w.db stored
        · intro a ha
          rcases List.mem_cons.mp ha with h | h
          · rw [h]
            rfl
          · exact hall a h
        · intro h
          simp only [List.length_cons, hok h]
        · intro h
          simp only [List.length_cons]
          exact Nat.succ_lt_succ (herr h)

/-- What `ResponseModel.create` leaves behind once its `INSERT INTO responses`
has been accepted: the response row, and the rows of the answers it got
through, which are fewer than the answers sent when it throws. -/
theorem ResponseModel.create_with_answers {w : World} (hacc : w.Accepts) {formId : Nat}
    {row : FormRow} (hrow : w.db.findForm formId = some row) {input : ResponseCreateInput}
    {a : AnswerInput} {rest : List AnswerInput} (hanswers : input.answers = some (a :: rest)) :
    ∃ stored : List AnswerRow,
      (ResponseModel.create formId input w).2.db
        = withAnswers stored (insertResponseRow formId input w.now w.db) ∧
      ((∃ e, (ResponseModel.create formId input w).1 = .error e) →
        stored.length < (a :: rest).length) := by
  have hany := any_of_findForm hrow
  simp only [ResponseModel.create, Eff.bind_apply, Eff.bind, hacc.withDb, hany, Bool.not_true,
    Bool.and_false, Bool.false_eq_true, if_false, hanswers]
  generalize hw1 : (⟨insertResponseRow formId input w.now w.db, w.next.now, w.next.faults⟩ :
    World) = w1
  have hdb : w1.db = insertResponseRow formId input w.now w.db := by rw [← hw1]
  rw [← hdb]
  cases hsel : w1.faults.head?.join with
  | some msg =>
      rw [FormsClone.query, withDb_rejected hsel]
      exact ⟨[], (withAnswers_nil _).symm, fun _ => Nat.succ_pos _⟩
  | none =>
      have hacc2 : w1.Accepts := hsel
      rw [hacc2.query]
      cases (orderBy (fun a b : ResponseRow => decide (a.id ≤ b.id)) true
          (w1.db.responses.filter (fun r => r.formId == formId))).take 1 with
      | nil => exact ⟨[], (withAnswers_nil _).symm, fun _ => Nat.succ_pos _⟩
      | cons response tail =>
          obtain ⟨stored, hstored, _, _, herr⟩ :=
            insertAnswers_appends response.id (a :: rest) w1.next
          rcases hrun : ResponseModel.insertAnswers response.id (a :: rest) w1.next with ⟨r, w2⟩
          rw [hrun] at hstored herr
          have hnext : w1.next.db = w1.db := rfl
          rw [hnext] at hstored
          cases r with
          | ok u =>
              simp only [Eff.bind_apply, Eff.bind, hrun, Eff.pure_apply]
              refine ⟨stored, hstored, ?_⟩
              rintro ⟨e, he⟩
              cases he
          | error e =>
              simp only [Eff.bind_apply, Eff.bind, hrun]
              exact ⟨stored, hstored, fun _ => herr ⟨e, rfl⟩⟩

/-- C12, as stated, fails: an anonymous caller answers question 1 of form 20.
The response row 8 is inserted, the `INSERT` of the answer is refused by SQLite
(`answer_values.formId` is `NOT NULL` and is given no value), the resolver
returns `INTERNAL_ERROR`, and row 8 is still in `responses`.  The same happens
when the driver rejects the answer's `INSERT` (`SQLITE_BUSY`).  On a table
that takes the answers, a second answer rejected by the driver leaves row 8
with the first answer only. -/
theorem create_response_leaves_orphan :
    sampleDb.responses = [response7] ∧
    (ResponseModel.create 20 { answers := some [answerBlue] } sampleWorld).1
      = .error { message := "SQLITE_CONSTRAINT: NOT NULL constraint failed: answer_values.formId" } ∧
    (Mutation.createResponse 20 { answers := some [answerBlue] } sampleWorld).1
      = .ok (createError "INTERNAL_ERROR" "Failed to create response" 500) ∧
    (Mutation.createResponse 20 { answers := some [answerBlue] } sampleWorld).2.db.responses
      = [response7, newResponseRow sampleDb 11 20 { answers := some [answerBlue] }] ∧
    (newResponseRow sampleDb 11 20 { answers := some [answerBlue] }).id = 8 ∧
    (ResponseModel.create 20 { answers := some [answerBlue] } busyWorld.next).1
      = .error { message := "SQLITE_BUSY: database is locked" } ∧
    (Mutation.createResponse 20 { answers := some [answerBlue] } busyWorld).1
      = .ok (createError "INTERNAL_ERROR" "Failed to create response" 500) ∧
    (Mutation.createResponse 20 { answers := some [answerBlue] } busyWorld).2.db.responses
      = [response7, newResponseRow sampleDb 11 20 { answers := some [answerBlue] }] ∧
    (Mutation.createResponse 20 { answers := some [answerBlue, answerRed] } lenientBusyWorld).1
      = .ok (createError "INTERNAL_ERROR" "Failed to create response" 500) ∧
    (Mutation.createResponse 20 { answers := some [answerBlue, answerRed] }
        lenientBusyWorld).2.db.responses
      = [response7, { response8 with formId := 20 }] ∧
    (Mutation.createResponse 20 { answers := some [answerBlue, answerRed] }
        lenientBusyWorld).2.db.answers
      = [answer3, newAnswerRow lenientDb 11 8 1 "Blue"] :=
  ⟨rfl, rfl, rfl, rfl, rfl, rfl, rfl, rfl, rfl, rfl, rfl⟩

/-- C12, amended: `createResponse` is not atomic.  When the form is stored, the
payload passes validation, the form lookup and the response `INSERT` are not
rejected, and the call then fails to return a `Response` (the insertion of an
answer row fails, or the read of the new response does), the call returns an
`Error` envelope and the `Response` row written for the attempt remains in the
store, together with the answer rows inserted before the failure, which are
fewer than the answers sent. -/
theorem create_response_row_survives (w : World) (formId : Nat) (row : FormRow)
    (input : ResponseCreateInput) (haccepts : w.Accepts)
    (hrow : w.db.findForm formId = some row) (hvalid : createResponseErrors input = [])
    (hinsert : w.next.Accepts)
    (hfails : ¬ ReturnsResponse (Mutation.createResponse formId input w)) :
    ReturnsError (Mutation.createResponse formId input w) ∧
    (Mutation.createResponse formId input w).2.db.responses
      = w.db.responses ++ [newResponseRow w.db w.now formId input] ∧
    ∃ stored : List AnswerRow,
      (Mutation.createResponse formId input w).2.db.answers = w.db.answers ++ stored ∧
      stored.length < (input.answers.getD []).length := by
  obtain ⟨a, rest, hanswers⟩ := answers_of_valid hvalid
  obtain ⟨stored, hdb, hless⟩ :=
    ResponseModel.create_with_answers (w := w.next) hinsert hrow hanswers
  rcases hrun : ResponseModel.create formId input w.next with ⟨r, w1⟩
  rw [hrun] at hdb hless
  cases r with
  | ok response =>
      have hout : Mutation.createResponse formId input w = (.ok (.response response), w1) := by
        simp only [Mutation.createResponse, Eff.tryCatch, Eff.bind_apply, Eff.bind,
          FormModel.getById_found haccepts hrow, hvalid, List.length_nil, lt_self_iff_false,
          if_false, hrun, Eff.pure_apply]
      exact absurd ⟨response, by rw [hout]⟩ hfails
  | error e =>
      have hout : Mutation.createResponse formId input w = createResponseCatch e w1 := by
        simp only [Mutation.createResponse, Eff.tryCatch, Eff.bind_apply, Eff.bind,
          FormModel.getById_found haccepts hrow, hvalid, List.length_nil, lt_self_iff_false,
          if_false, hrun]
      have hlen := hless ⟨e, rfl⟩
      have hw1 : (createResponseCatch e w1).2.db = w1.db := by
        unfold createResponseCatch
        split_ifs <;> rfl
      rw [hout]
      refine ⟨?_, ?_, stored, ?_, ?_⟩
      · unfold ReturnsError createResponseCatch
        split_ifs <;> exact ⟨_, rfl⟩
      · rw [hw1, hdb]
        rfl
      · rw [hw1, hdb]
        rfl
      · rw [hanswers]
        exact hlen

/-- Witness of `create_response_row_survives`: two answers sent to form 20,
the `INSERT` of the second being rejected by the driver. -/
theorem create_response_row_survives_witness :
    lenientBusyWorld.Accepts ∧ lenientBusyWorld.db.findForm 20 = some formB ∧
    createResponseErrors { answers := some [answerBlue, answerRed] } = [] ∧
    lenientBusyWorld.next.Accepts ∧
    ¬ ReturnsResponse (Mutation.createResponse 20 { answers := some [answerBlue, answerRed] }
      lenientBusyWorld) ∧
    ReturnsError (Mutation.createResponse 20 { answers := some [answerBlue, answerRed] }
      lenientBusyWorld) ∧
    (Mutation.createResponse 20 { answers := some [answerBlue, answerRed] }
        lenientBusyWorld).2.db.responses
      = lenientBusyWorld.db.responses ++ [newResponseRow lenientBusyWorld.db
          lenientBusyWorld.now 20 { answers := some [answerBlue, answerRed] }] := by
  have hfails : ¬ ReturnsResponse (Mutation.createResponse 20
      { answers := some [answerBlue, answerRed] } lenientBusyWorld) := by
    rintro ⟨r, hr⟩
    cases hr
  have h := create_response_row_survives lenientBusyWorld 20 formB
    { answers := some [answerBlue, answerRed] } (by decide) rfl (by decide) (by decide) hfails
  exact ⟨by decide, rfl, by decide, by decide, hfails, h.1, h.2.1⟩

/-! ## The answer invariant -/

/-- C13, on the code: in a store that satisfies the invariant and whose table
`answer_values` takes the rows `responseModel.js` writes, an anonymous caller
sends to form 10 an answer to question 1, which belongs to form 20:
`createResponse` returns the `Response` 8 of form 10 and the answer is stored.
User 2 replaces the answers of their response 7 (form 20) by an answer to
question 3, which belongs to form 10: `updateResponse` returns the `Response`
and the answer is stored.  An answer to question 99, which does not exist, is
stored as well, and `QUESTION_NOT_FOUND` is not returned.  After each call the
invariant is broken.  (On the table of `scripts/init-db.js` the same calls
return an `Error` envelope and store no answer, because every answer `INSERT`
is refused there.) -/
theorem answer_to_foreign_question_is_stored :
    lenientDb.answerFormIdRequired = false ∧ AnswerConsistent lenientDb ∧
    lenientDb.findForm 10 = some formA ∧ question1.formId = 20 ∧ question3.formId = 10 ∧
    response7.formId = 20 ∧
    (Mutation.createResponse 10 { answers := some [answerBlue] } lenientWorld).1
      = .ok (.response response8.toResponse) ∧
    (Mutation.createResponse 10 { answers := some [answerBlue] } lenientWorld).2.db.responses
      = [response7, response8] ∧
    (Mutation.createResponse 10 { answers := some [answerBlue] } lenientWorld).2.db.answers
      = [answer3, newAnswerRow lenientDb 11 8 1 "Blue"] ∧
    ¬ AnswerConsistent
      (Mutation.createResponse 10 { answers := some [answerBlue] } lenientWorld).2.db ∧
    (Mutation.updateResponse 20 7 { answers := some [answerGreen] } userB lenientWorld).1
      = .ok (.response { response7 with updatedAt := 11 }.toResponse) ∧
    (Mutation.updateResponse 20 7 { answers := some [answerGreen] } userB lenientWorld).2.db.answers
      = [newAnswerRow lenientDb 11 7 3 "Green"] ∧
    ¬ AnswerConsistent
      (Mutation.updateResponse 20 7 { answers := some [answerGreen] } userB lenientWorld).2.db ∧
    (Mutation.createResponse 20 { answers := some [{ questionId := some 99, answer := some "x" }] }
        lenientWorld).2.db.answers
      = [answer3, newAnswerRow lenientDb 11 8 99 "x"] ∧
    (Mutation.createResponse 10 { answers := some [answerBlue] } sampleWorld).1
      = .ok (createError "INTERNAL_ERROR" "Failed to create response" 500) ∧
    (Mutation.createResponse 10 { answers := some [answerBlue] } sampleWorld).2.db.answers
      = [answer3] :=
  ⟨rfl, by decide, rfl, rfl, rfl, rfl, rfl, rfl, rfl, by decide, rfl, rfl, by decide, rfl, rfl,
    rfl⟩

/-! ## Replacing the answers of a response -/

/-- C14, on the code: response 7 of the sample store has one answer; its
owner's form is 20.  `ResponseModel.update` is called with the one-entry list
`[{questionId: 1, answer: "Purple"}]`: the old answer is deleted, the `INSERT`
of the new one is refused (`answer_values.formId` is `NOT NULL` and the
statement gives it no value), the call throws and the response is left without
answers; the resolver reports `RESPONSE_NOT_FOUND` with SQLite's text.  Only a
missing or empty list behaves as a full replace. -/
theorem update_response_loses_answers :
    sampleDb.responses = [response7] ∧ sampleDb.answers = [answer3] ∧
    (ResponseModel.update 7 { answers := some [{ questionId := some 1, answer := some "Purple" }] }
        sampleWorld).1
      = .error { message := "SQLITE_CONSTRAINT: NOT NULL constraint failed: answer_values.formId" } ∧
    (ResponseModel.update 7 { answers := some [{ questionId := some 1, answer := some "Purple" }] }
        sampleWorld).2.db.answers = [] ∧
    (Mutation.updateResponse 20 7
        { answers := some [{ questionId := some 1, answer := some "Purple" }] } userB
        sampleWorld).1
      = .ok (createError "RESPONSE_NOT_FOUND"
          "SQLITE_CONSTRAINT: NOT NULL constraint failed: answer_values.formId" 404) ∧
    (ResponseModel.update 7 { respondentName := .value "S" } sampleWorld).2.db.answers
      = [answer3] ∧
    (ResponseModel.update 7 { answers := some [] } sampleWorld).2.db.answers = [] :=
  ⟨rfl, rfl, rfl, rfl, rfl, rfl, rfl⟩


/-! ## Deleting a response -/

theorem ResponseModel.delete_cases (id : Nat) (w : World) :
    (∃ e w1, ResponseModel.delete id w = (.error e, w1)) ∨
      ∃ w1, ResponseModel.delete id w = (.ok (), w1) ∧
        w1.db = deleteResponseRows id (deleteAnswerRows id w.db) := by
  rcases execute_cases (fun _ db => deleteAnswerRows id db) w with ⟨e, h1⟩ | h1
  · left
    exact ⟨e, w.next, by simp only [ResponseModel.delete, Eff.bind_apply, Eff.bind, h1]⟩
  · generalize hw1 : (⟨deleteAnswerRows id w.db, w.next.now, w.next.faults⟩ : World) = w1
    have hdb1 : w1.db = deleteAnswerRows id w.db := by rw [← hw1]
    have h1a : execute (fun _ db => deleteAnswerRows id db) w = (.ok [], w1) := by
      rw [h1, ← hw1]
    rcases execute_cases (fun _ db => deleteResponseRows id db) w1 with ⟨e, h2⟩ | h2
    · left
      exact ⟨e, w1.next, by simp only [ResponseModel.delete, Eff.bind_apply, Eff.bind, h1a, h2]⟩
    · right
      refine ⟨⟨deleteResponseRows id w1.db, w1.next.now, w1.next.faults⟩, ?_, ?_⟩
      · simp only [ResponseModel.delete, Eff.bind_apply, Eff.bind, h1a, h2, Eff.pure_apply]
      · simp only [hdb1]

theorem deleted_response_rows (id : Nat) (db : Db) :
    (∀ a ∈ (deleteResponseRows id (deleteAnswerRows id db)).answers, a.responseId ≠ id) ∧
    (deleteResponseRows id (deleteAnswerRows id db)).responses.filter (fun r => r.id == id)
      = [] := by
  constructor
  · intro a ha
    have hmem : a ∈ (deleteAnswerRows id db).answers := by
      simp only [deleteResponseRows] at ha
      split_ifs at ha
      · exact (List.mem_filter.mp ha).1
      · exact ha
    have := (List.mem_filter.mp hmem).2
    simpa using this
  · simp only [deleteResponseRows, List.filter_filter]
    apply List.filter_eq_nil_iff.mpr
    intro r _
    simp

/-- C15: whenever `deleteResponse` returns its `SuccessResult`, the store holds
no answer row of that response afterwards, and a later `response(formId, id)`
query for the same id, by any authenticated caller and for any `formId` (the
lookup not being rejected by the store), returns the `RESPONSE_NOT_FOUND` / 404
`Error` envelope. -/
theorem delete_response_removes_answers (w : World) (context : Context) (formId id : Nat)
    (hdone : (Mutation.deleteResponse formId id context w).1
      = .ok (.successResult true "Response deleted successfully")) :
    (∀ a ∈ (Mutation.deleteResponse formId id context w).2.db.answers, a.responseId ≠ id) ∧
    ∀ (later : World) (reader : Identity) (anyFormId : Nat),
      later.db = (Mutation.deleteResponse formId id context w).2.db → later.Accepts →
      Query.response anyFormId id ⟨some reader⟩ later
        = (.ok (createError "RESPONSE_NOT_FOUND" s!"Response with id {id} not found" 404),
            later.next) := by
  have hdb : (Mutation.deleteResponse formId id context w).2.db
      = deleteResponseRows id (deleteAnswerRows id w.db) := by
    cases context with
    | mk user =>
    cases user with
    | none => cases hdone
    | some caller =>
    cases h : w.faults.head?.join with
    | some msg =>
        simp only [Mutation.deleteResponse, Eff.tryCatch, Eff.bind_apply, Eff.bind,
          getAuthenticatedUser_some, FormModel.getById_rejected h] at hdone
        split_ifs at hdone <;> cases hdone
    | none =>
        have hacc : w.Accepts := h
        cases hrow : w.db.findForm formId with
        | none =>
            simp only [Mutation.deleteResponse, Eff.tryCatch, Eff.bind_apply, Eff.bind,
              getAuthenticatedUser_some, FormModel.getById_missing hacc hrow] at hdone
            split_ifs at hdone <;> cases hdone
        | some row =>
            by_cases hown : row.toForm.userId = caller.id
            · rcases ResponseModel.delete_cases id w.next with ⟨e, w1, hrun⟩ | ⟨w1, hrun, hw1⟩
              · simp only [Mutation.deleteResponse, Eff.tryCatch, Eff.bind_apply, Eff.bind,
                  getAuthenticatedUser_some, FormModel.getById_found hacc hrow, ne_eq, hown,
                  not_true_eq_false, if_false, hrun] at hdone
                split_ifs at hdone <;> cases hdone
              · simp only [Mutation.deleteResponse, Eff.tryCatch, Eff.bind_apply, Eff.bind,
                  getAuthenticatedUser_some, FormModel.getById_found hacc hrow, ne_eq, hown,
                  not_true_eq_false, if_false, hrun, Eff.pure_apply]
                exact hw1
            · simp only [Mutation.deleteResponse, Eff.tryCatch, Eff.bind_apply, Eff.bind,
                getAuthenticatedUser_some, FormModel.getById_found hacc hrow, ne_eq, hown,
                not_false_eq_true, if_true, Eff.pure_apply] at hdone
              cases hdone
  rw [hdb]
  refine ⟨(deleted_response_rows id w.db).1, ?_⟩
  intro later reader anyFormId hlater hacc
  have hnone : later.db.responses.filter (fun r => r.id == id) = [] := by
    rw [hlater]
    exact (deleted_response_rows id w.db).2
  simp only [Query.response, Eff.tryCatch, Eff.bind_apply, Eff.bind, getAuthenticatedUser_some,
    ResponseModel.getById, hacc.query, hnone, Eff.throw, isUnauthorized]
  rfl

/-- Witness of `delete_response_removes_answers`: user 2 deletes response 7 of
form 20, then user 1 asks for it. -/
theorem delete_response_removes_answers_witness :
    (Mutation.deleteResponse 20 7 userB sampleWorld).1
      = .ok (.successResult true "Response deleted successfully") ∧
    (Mutation.deleteResponse 20 7 userB sampleWorld).2.db.answers = [] ∧
    (Mutation.deleteResponse 20 7 userB sampleWorld).2.Accepts ∧
    Query.response 20 7 userA (Mutation.deleteResponse 20 7 userB sampleWorld).2
      = (.ok (createError "RESPONSE_NOT_FOUND" "Response with id 7 not found" 404),
          (Mutation.deleteResponse 20 7 userB sampleWorld).2.next) :=
  ⟨rfl, rfl, by decide,
    (delete_response_removes_answers sampleWorld userB 20 7 rfl).2 _ identityA 20 rfl
      (by decide)⟩

/-! ## Deleting a form -/

/-- C16, on the code: user 2 deletes their form 20 on a connection that, like
the one `db.js` opens, never switches foreign keys on.  The mutation reports
success and the form is gone, but its questions 1 and 2, its response 7 and
that response's answer are still stored, and `question(20, 1)` and
`response(20, 7)` still return them.  On a connection that enforces foreign
keys the same call removes them all. -/
theorem delete_form_leaves_children :
    sampleWorld.db.foreignKeys = false ∧
    sampleDb.findForm 20 = some formB ∧ formB.userId = identityB.id ∧
    Mutation.deleteForm 20 userB sampleWorld
      = (.ok (.successResult true "Form deleted successfully"),
          { sampleWorld with db := { sampleDb with forms := [formA] } }) ∧
    (Mutation.deleteForm 20 userB sampleWorld).2.db.questions = [question1, question2] ∧
    (Mutation.deleteForm 20 userB sampleWorld).2.db.responses = [response7] ∧
    (Mutation.deleteForm 20 userB sampleWorld).2.db.answers = [answer3] ∧
    (Query.question 20 1 userB (Mutation.deleteForm 20 userB sampleWorld).2).1
      = .ok (.question question1.toQuestion) ∧
    (Query.response 20 7 userB (Mutation.deleteForm 20 userB sampleWorld).2).1
      = .ok (.response response7.toResponse) ∧
    enforcingWorld.db.foreignKeys = true ∧
    (Mutation.deleteForm 20 userB enforcingWorld).2.db.questions = [] ∧
    (Mutation.deleteForm 20 userB enforcingWorld).2.db.responses = [] ∧
    (Mutation.deleteForm 20 userB enforcingWorld).2.db.answers = [] :=
  ⟨rfl, rfl, rfl, rfl, rfl, rfl, rfl, rfl, rfl, rfl, rfl, rfl, rfl⟩


/-! ## The e-mail pattern -/

theorem isEmailChar_iff (c : Char) :
    isEmailChar c = true ↔ jsIsWhitespace c = false ∧ c ≠ '@' := by
  simp [isEmailChar]

theorem matchTld_iff (l : List Char) :
    matchTld l = true ↔ l ≠ [] ∧ ∀ c ∈ l, isEmailChar c = true := by
  cases l with
  | nil => simp [matchTld]
  | cons a rest => simp [matchTld]

theorem matchDomainRest_iff (l : List Char) :
    matchDomainRest l = true ↔
      ∃ d tld, l = d ++ '.' :: tld ∧ (∀ c ∈ d, isEmailChar c = true) ∧ matchTld tld = true := by
  induction l with
  | nil => simp [matchDomainRest]
  | cons a rest ih =>
      simp only [matchDomainRest, Bool.or_eq_true, Bool.and_eq_true, beq_iff_eq, ih]
      constructor
      · rintro (⟨ha, htld⟩ | ⟨ha, d, tld, hrest, hd, htld⟩)
        · exact ⟨[], rest, by simp [ha], by simp, htld⟩
        · refine ⟨a :: d, tld, by simp [hrest], ?_, htld⟩
          intro c hc
          rcases List.mem_cons.mp hc with h | h
          · rw [h]
            exact ha
          · exact hd c h
      · rintro ⟨d, tld, hl, hd, htld⟩
        cases d with
        | nil =>
            simp only [List.nil_append, List.cons.injEq] at hl
            left
            exact ⟨hl.1, by rw [hl.2]; exact htld⟩
        | cons b d1 =>
            simp only [List.cons_append, List.cons.injEq] at hl
            right
            refine ⟨by rw [hl.1]; exact hd b (by simp), d1, tld, hl.2, ?_, htld⟩
            intro c hc
            exact hd c (by simp [hc])

theorem matchDomain_iff (l : List Char) :
    matchDomain l = true ↔
      ∃ d tld, l = d ++ '.' :: tld ∧ d ≠ [] ∧ (∀ c ∈ d, isEmailChar c = true) ∧
        matchTld tld = true := by
  cases l with
  | nil => simp [matchDomain]
  | cons a rest =>
      simp only [matchDomain, Bool.and_eq_true, matchDomainRest_iff]
      constructor
      · rintro ⟨ha, d, tld, hrest, hd, htld⟩
        refine ⟨a :: d, tld, by simp [hrest], by simp, ?_, htld⟩
        intro c hc
        rcases List.mem_cons.mp hc with h | h
        · rw [h]
          exact ha
        · exact hd c h
      · rintro ⟨d, tld, hl, hne, hd, htld⟩
        cases d with
        | nil => exact absurd rfl hne
        | cons b d1 =>
            simp only [List.cons_append, List.cons.injEq] at hl
            refine ⟨by rw [hl.1]; exact hd b (by simp), d1, tld, hl.2, ?_, htld⟩
            intro c hc
            exact hd c (by simp [hc])

theorem matchLocalRest_iff (l : List Char) :
    matchLocalRest l = true ↔
      ∃ p rest, l = p ++ '@' :: rest ∧ (∀ c ∈ p, isEmailChar c = true) ∧
        matchDomain rest = true := by
  induction l with
  | nil => simp [matchLocalRest]
  | cons a tail ih =>
      simp only [matchLocalRest, Bool.or_eq_true, Bool.and_eq_true, beq_iff_eq, ih]
      constructor
      · rintro (⟨ha, hdom⟩ | ⟨ha, p, rest, htail, hp, hdom⟩)
        · exact ⟨[], tail, by simp [ha], by simp, hdom⟩
        · refine ⟨a :: p, rest, by simp [htail], ?_, hdom⟩
          intro c hc
          rcases List.mem_cons.mp hc with h | h
          · rw [h]
            exact ha
          · exact hp c h
      · rintro ⟨p, rest, hl, hp, hdom⟩
        cases p with
        | nil =>
            simp only [List.nil_append, List.cons.injEq] at hl
            left
            exact ⟨hl.1, by rw [hl.2]; exact hdom⟩
        | cons b p1 =>
            simp only [List.cons_append, List.cons.injEq] at hl
            right
            refine ⟨by rw [hl.1]; exact hp b (by simp), p1, rest, hl.2, ?_, hdom⟩
            intro c hc
            exact hp c (by simp [hc])

/-- The pattern `/^[^\s@]+@[^\s@]+\.[^\s@]+$/` accepts exactly the strings of
the shape `local@domain.tld`. -/
theorem emailRegexTest_iff (email : String) : emailRegexTest email = true ↔ EmailShape email := by
  unfold emailRegexTest EmailShape
  constructor
  · intro h
    cases hd : email.data with
    | nil => simp [hd] at h
    | cons a tail =>
        simp only [hd, Bool.and_eq_true, matchLocalRest_iff] at h
        obtain ⟨ha, p, rest, htail, hp, hdom⟩ := h
        obtain ⟨d, tld, hrest, hdne, hdall, htld⟩ := (matchDomain_iff rest).mp hdom
        obtain ⟨htne, htall⟩ := (matchTld_iff tld).mp htld
        refine ⟨a :: p, d, tld, by simp [htail, hrest], by simp, hdne, htne, ?_⟩
        intro c hc
        apply (isEmailChar_iff c).mp
        simp only [List.mem_append, List.mem_cons] at hc
        rcases hc with (h1 | h1) | h1 | h1
        · rw [h1]
          exact ha
        · exact hp c h1
        · exact hdall c h1
        · exact htall c h1
  · rintro ⟨p, d, tld, hdata, hpne, hdne, htne, hall⟩
    have hchar : ∀ c ∈ p ++ (d ++ tld), isEmailChar c = true :=
      fun c hc => (isEmailChar_iff c).mpr (hall c hc)
    cases p with
    | nil => exact absurd rfl hpne
    | cons a p1 =>
        rw [hdata]
        simp only [List.cons_append, Bool.and_eq_true]
        refine ⟨hchar a (by simp), (matchLocalRest_iff _).mpr ⟨p1, d ++ '.' :: tld, rfl, ?_, ?_⟩⟩
        · intro c hc
          exact hchar c (by simp [hc])
        · refine (matchDomain_iff _).mpr ⟨d, tld, rfl, hdne, ?_, (matchTld_iff tld).mpr ⟨htne, ?_⟩⟩
          · intro c hc
            exact hchar c (by simp [hc])
          · intro c hc
            exact hchar c (by simp [hc])

/-! ## Validation of `register` -/

theorem registerErrors_fields (input : UserCreateInput) :
    (registerErrors input).map (fun d => d.field)
      = (if jsBlank input.email = false ∧ emailRegexTest (input.email.getD "") = true then []
         else ["email"]) ++
        (if ∃ p, input.password = some p ∧ 8 ≤ jsLength p then [] else ["password"]) ++
        (if jsBlank input.name = false then [] else ["name"]) := by
  unfold registerErrors
  simp only [List.map_append]
  congr 1
  · congr 1
    · by_cases hb : jsBlank input.email = true
      · simp [hb, createErrorDetail]
      · have hb1 : jsBlank input.email = false := by simpa using hb
        by_cases hr : emailRegexTest (input.email.getD "") = true
        · simp [hb1, hr]
        · have hr1 : emailRegexTest (input.email.getD "") = false := by simpa using hr
          simp [hb1, hr1, createErrorDetail]
    · cases hp : input.password with
      | none => simp [createErrorDetail]
      | some p =>
          by_cases hlen : jsLength p < 8
          · simp [hlen, createErrorDetail, Nat.not_le.mpr hlen]
          · simp [hlen, Nat.le_of_not_lt hlen]
  · by_cases hb : jsBlank input.name = true
    · simp [hb, createErrorDetail]
    · have hb1 : jsBlank input.name = false := by simpa using hb
      simp [hb1]

theorem emailValid_iff (input : UserCreateInput) :
    EmailValid input ↔
      jsBlank input.email = false ∧ emailRegexTest (input.email.getD "") = true := by
  unfold EmailValid
  constructor
  · rintro ⟨e, he, hb, hshape⟩
    rw [he]
    exact ⟨hb, (emailRegexTest_iff e).mpr hshape⟩
  · rintro ⟨hb, hr⟩
    cases he : input.email with
    | none => simp [he, jsBlank] at hb
    | some e =>
        rw [he] at hb hr
        exact ⟨e, rfl, hb, (emailRegexTest_iff e).mp hr⟩

theorem registerErrors_eq_nil_iff (input : UserCreateInput) :
    registerErrors input = [] ↔ RegistrationValid input := by
  have hfields := registerErrors_fields input
  unfold RegistrationValid PasswordValid NameValid
  rw [emailValid_iff]
  constructor
  · intro h
    rw [h] at hfields
    simp only [List.map_nil] at hfields
    have h1 := List.append_eq_nil.mp hfields.symm
    have h2 := List.append_eq_nil.mp h1.1
    refine ⟨?_, ?_, ?_⟩
    · by_contra hc
      simp [hc] at h2
    · by_contra hc
      simp [hc] at h2
    · by_contra hc
      simp [hc] at h1
  · rintro ⟨he, hp, hn⟩
    have : (registerErrors input).map (fun d => d.field) = [] := by
      rw [hfields]
      simp [he, hp, hn]
    exact List.map_eq_nil_iff.mp this

theorem UserModel.create_fresh {w : World} (hquiet : w.Quiet) (email password name : String)
    (hfresh : ∀ x ∈ w.db.users, x.email ≠ email) :
    ∃ u, (UserModel.create email password name w).1 = .ok u := by
  have hany : w.db.users.any (fun u => u.email == email) = false := by
    rw [List.any_eq_false]
    intro x hx
    simpa using hfresh x hx
  have hacc : w.Accepts := hquiet.accepts
  simp only [UserModel.create, userDb.createUser, Eff.bind_apply, Eff.bind, hacc.withDb, hany,
    Bool.false_eq_true, if_false]
  generalize hw2 : (⟨insertUserRow email (bcryptHash password) name w.now w.db,
    w.next.now, w.next.faults⟩ : World) = w2
  have hdb : w2.db = insertUserRow email (bcryptHash password) name w.now w.db := by
    rw [← hw2]
  have hacc2 : w2.Accepts := by
    rw [← hw2]
    exact hquiet.next.accepts
  rw [hacc2.query]
  cases hrow : (w2.db.users.filter (fun x => x.id == w.db.userSeq + 1)).head? with
  | some row => exact ⟨row.toUser, by simp only [hrow, Eff.pure_apply]⟩
  | none =>
      exfalso
      rw [List.head?_eq_none_iff, List.filter_eq_nil_iff] at hrow
      refine hrow (newUserRow w.db w.now email (bcryptHash password) name) ?_ ?_
      · rw [hdb]
        simp [insertUserRow]
      · simp [newUserRow]

/-! ## Registering twice -/

theorem UserModel.create_ok {email password name : String} {w w1 : World} {u : User}
    (h : UserModel.create email password name w = (.ok u, w1)) :
    w1.db = insertUserRow email (bcryptHash password) name w.now w.db := by
  cases hf : w.faults.head?.join with
  | some msg =>
      simp only [UserModel.create, userDb.createUser, Eff.bind_apply, Eff.bind,
        withDb_rejected hf] at h
      cases h
  | none =>
      have hacc : w.Accepts := hf
      simp only [UserModel.create, userDb.createUser, Eff.bind_apply, Eff.bind, hacc.withDb] at h
      split_ifs at h
      · cases h
      · simp only [] at h
        generalize hw2 : (⟨insertUserRow email (bcryptHash password) name w.now w.db,
          w.next.now, w.next.faults⟩ : World) = w2 at h
        have hdb : w2.db = insertUserRow email (bcryptHash password) name w.now w.db := by
          rw [← hw2]
        cases hsel : w2.faults.head?.join with
        | some msg =>
            rw [FormsClone.query, withDb_rejected hsel] at h
            cases h
        | none =>
            have hacc2 : w2.Accepts := hsel
            rw [hacc2.query] at h
            cases hrow : (w2.db.users.filter (fun x => x.id == w.db.userSeq + 1)).head? with
            | none =>
                simp only [hrow] at h
                cases h
            | some row =>
                simp only [hrow, Eff.pure_apply, Prod.mk.injEq] at h
                rw [← h.2]
                exact hdb

theorem UserModel.create_duplicate {email : String} {w : World} (hacc : w.Accepts)
    (htaken : ∃ x ∈ w.db.users, x.email = email) (password name : String) :
    UserModel.create email password name w
      = (.error { message := "SQLITE_CONSTRAINT: UNIQUE constraint failed: users.email" },
          w.next) := by
  have hany : w.db.users.any (fun u => u.email == email) = true := by
    rw [List.any_eq_true]
    obtain ⟨x, hx, he⟩ := htaken
    exact ⟨x, hx, by simpa using he⟩
  simp only [UserModel.create, userDb.createUser, Eff.bind_apply, Eff.bind, hacc.withDb, hany,
    if_true]

theorem Mutation.register_invalid (input : UserCreateInput) (w : World)
    (h : registerErrors input ≠ []) :
    Mutation.register input w
      = (.ok (createError "VALIDATION_ERROR" "Invalid input data" 400 (registerErrors input)),
          w) := by
  have hpos : 0 < (registerErrors input).length := List.length_pos.mpr h
  simp only [Mutation.register, Eff.tryCatch, hpos, if_true, Eff.pure_apply]

theorem Mutation.register_valid (input : UserCreateInput) (w : World)
    (h : registerErrors input = []) :
    Mutation.register input w
      = Eff.tryCatch
          (UserModel.create (input.email.getD "") (input.password.getD "") (input.name.getD "")
            >>= fun user => pure (.user user))
          registerCatch w := by
  simp only [Mutation.register, Eff.tryCatch, h, List.length_nil, lt_self_iff_false, if_false]

/-- What a successful `register` call has written. -/
theorem Mutation.register_ok {input : UserCreateInput} {w : World} {u : User}
    (h : (Mutation.register input w).1 = .ok (.user u)) :
    RegistrationValid input ∧
      (Mutation.register input w).2.db
        = insertUserRow (input.email.getD "") (bcryptHash (input.password.getD ""))
            (input.name.getD "") w.now w.db := by
  by_cases herr : registerErrors input = []
  · refine ⟨(registerErrors_eq_nil_iff input).mp herr, ?_⟩
    rw [Mutation.register_valid input w herr] at h ⊢
    rcases hrun : UserModel.create (input.email.getD "") (input.password.getD "")
      (input.name.getD "") w with ⟨r, w1⟩
    cases r with
    | ok user =>
        simp only [Eff.tryCatch, Eff.bind_apply, Eff.bind, hrun, Eff.pure_apply]
        exact UserModel.create_ok hrun
    | error e =>
        simp only [Eff.tryCatch, Eff.bind_apply, Eff.bind, hrun, registerCatch] at h
        split_ifs at h <;> cases h
  · rw [Mutation.register_invalid input w herr] at h
    cases h

/-- C17: once `register` has returned a `User`, any later `register` call with
the same email and an input that passes validation (its `INSERT` not being
rejected by the driver) returns the `DUPLICATE_EMAIL` / 409 `Error` envelope and
leaves every table as it was: the row of the first call is still there with its
id, email, name and credential, and no row has been added. -/
theorem register_twice (w : World) (input : UserCreateInput) (u : User)
    (hfirst : (Mutation.register input w).1 = .ok (.user u))
    (again : UserCreateInput) (hsame : again.email = input.email)
    (hvalid : RegistrationValid again) (later : World)
    (hlater : later.db = (Mutation.register input w).2.db) (haccepts : later.Accepts) :
    Mutation.register again later
      = (.ok (createError "DUPLICATE_EMAIL" "Email already exists" 409
          [createErrorDetail "email" "This email is already registered" (some "UNIQUE")]),
          later.next) ∧
    (Mutation.register again later).2.db = later.db ∧
    later.db.users
      = w.db.users ++ [newUserRow w.db w.now (input.email.getD "")
          (bcryptHash (input.password.getD "")) (input.name.getD "")] := by
  obtain ⟨_, hdb⟩ := Mutation.register_ok hfirst
  have husers : later.db.users
      = w.db.users ++ [newUserRow w.db w.now (input.email.getD "")
          (bcryptHash (input.password.getD "")) (input.name.getD "")] := by
    rw [hlater, hdb]
    rfl
  have htaken : ∃ x ∈ later.db.users, x.email = again.email.getD "" := by
    refine ⟨newUserRow w.db w.now (input.email.getD "") (bcryptHash (input.password.getD ""))
      (input.name.getD ""), by rw [husers]; simp, ?_⟩
    rw [hsame]
    rfl
  have hrun : Mutation.register again later
      = (.ok (createError "DUPLICATE_EMAIL" "Email already exists" 409
          [createErrorDetail "email" "This email is already registered" (some "UNIQUE")]),
          later.next) := by
    rw [Mutation.register_valid again later ((registerErrors_eq_nil_iff again).mpr hvalid)]
    simp only [Eff.tryCatch, Eff.bind_apply, Eff.bind,
      UserModel.create_duplicate haccepts htaken, registerCatch]
    rfl
  exact ⟨hrun, by rw [hrun]; rfl, husers⟩

/-- Witness of `register_twice`: Cleo registers on the sample store, then the
same e-mail is registered again with another name and password. -/
theorem register_twice_witness :
    (∃ u, (Mutation.register newcomer sampleWorld).1 = .ok (.user u)) ∧
    newcomerAgain.email = newcomer.email ∧ RegistrationValid newcomerAgain ∧
    (Mutation.register newcomer sampleWorld).2.Accepts ∧
    Mutation.register newcomerAgain (Mutation.register newcomer sampleWorld).2
      = (.ok (createError "DUPLICATE_EMAIL" "Email already exists" 409
          [createErrorDetail "email" "This email is already registered" (some "UNIQUE")]),
          (Mutation.register newcomer sampleWorld).2.next) := by
  have hvalid : RegistrationValid newcomerAgain :=
    (registerErrors_eq_nil_iff _).mp (by decide)
  have hfirst : (Mutation.register newcomer sampleWorld).1
      = .ok (.user (newUserRow sampleWorld.db sampleWorld.now "cleo@example.com"
          (bcryptHash "correct horse") "Cleo").toUser) := rfl
  exact ⟨⟨_, hfirst⟩, rfl, hvalid, by decide,
    (register_twice sampleWorld newcomer _ hfirst newcomerAgain rfl hvalid _ rfl
      (by decide)).1⟩

/-! ## Validation of `register` against the store -/

theorem registerErrors_sublist (input : UserCreateInput) :
    ((registerErrors input).map (fun d => d.field)).Sublist ["email", "password", "name"] := by
  rw [registerErrors_fields]
  split_ifs <;> decide

theorem registerErrors_email (input : UserCreateInput) :
    "email" ∈ (registerErrors input).map (fun d => d.field) ↔ ¬ EmailValid input := by
  rw [registerErrors_fields, emailValid_iff]
  by_cases h1 : jsBlank input.email = false ∧ emailRegexTest (input.email.getD "") = true <;>
    by_cases h2 : (∃ p, input.password = some p ∧ 8 ≤ jsLength p) <;>
    by_cases h3 : jsBlank input.name = false <;> simp [h1, h2, h3]

theorem registerErrors_password (input : UserCreateInput) :
    "password" ∈ (registerErrors input).map (fun d => d.field) ↔ ¬ PasswordValid input := by
  rw [registerErrors_fields]
  unfold PasswordValid
  by_cases h1 : jsBlank input.email = false ∧ emailRegexTest (input.email.getD "") = true <;>
    by_cases h2 : (∃ p, input.password = some p ∧ 8 ≤ jsLength p) <;>
    by_cases h3 : jsBlank input.name = false <;> simp [h1, h2, h3]

theorem registerErrors_name (input : UserCreateInput) :
    "name" ∈ (registerErrors input).map (fun d => d.field) ↔ ¬ NameValid input := by
  rw [registerErrors_fields]
  unfold NameValid
  by_cases h1 : jsBlank input.email = false ∧ emailRegexTest (input.email.getD "") = true <;>
    by_cases h2 : (∃ p, input.password = some p ∧ 8 ≤ jsLength p) <;>
    by_cases h3 : jsBlank input.name = false <;> simp [h1, h2, h3]

/-- C18: the validation block of `register` finds no fault exactly when the
email is non-blank and of the shape `local@domain.tld`, the password has at
least 8 characters and the name is non-blank. A valid input reaches
`UserModel.create`: if the store rejects no statement and the email is not yet
taken, the call returns a `User` and has appended the new row to `users`.
Every other input gets the `VALIDATION_ERROR` / 400 envelope whose details are
those of the validation block, one for each failing field and none for a field
that passes, in the order email, password, name, and the world (store and
pending statements) is untouched. -/
theorem register_validation (w : World) (input : UserCreateInput) :
    (registerErrors input = [] ↔ RegistrationValid input) ∧
    (RegistrationValid input → w.Quiet →
      (∀ x ∈ w.db.users, x.email ≠ input.email.getD "") →
      ∃ u, (Mutation.register input w).1 = .ok (.user u) ∧
        (Mutation.register input w).2.db.users
          = w.db.users ++ [newUserRow w.db w.now (input.email.getD "")
              (bcryptHash (input.password.getD "")) (input.name.getD "")]) ∧
    (¬ RegistrationValid input →
      Mutation.register input w
        = (.ok (createError "VALIDATION_ERROR" "Invalid input data" 400 (registerErrors input)),
            w) ∧
      ((registerErrors input).map (fun d => d.field)).Sublist ["email", "password", "name"] ∧
      ("email" ∈ (registerErrors input).map (fun d => d.field) ↔ ¬ EmailValid input) ∧
      ("password" ∈ (registerErrors input).map (fun d => d.field) ↔ ¬ PasswordValid input) ∧
      ("name" ∈ (registerErrors input).map (fun d => d.field) ↔ ¬ NameValid input)) := by
  refine ⟨registerErrors_eq_nil_iff input, ?_, ?_⟩
  · intro hvalid hquiet hfresh
    have herr := (registerErrors_eq_nil_iff input).mpr hvalid
    obtain ⟨u, hu⟩ := UserModel.create_fresh hquiet (input.email.getD "")
      (input.password.getD "") (input.name.getD "") hfresh
    have hrun : (Mutation.register input w).1 = .ok (.user u) := by
      rw [Mutation.register_valid input w herr]
      rcases hc : UserModel.create (input.email.getD "") (input.password.getD "")
        (input.name.getD "") w with ⟨r, w1⟩
      rw [hc] at hu
      simp only at hu
      simp only [Eff.tryCatch, Eff.bind_apply, Eff.bind, hc, hu, Eff.pure_apply]
    refine ⟨u, hrun, ?_⟩
    rw [(Mutation.register_ok hrun).2]
    rfl
  · intro hinvalid
    have herr : registerErrors input ≠ [] :=
      fun h => hinvalid ((registerErrors_eq_nil_iff input).mp h)
    exact ⟨Mutation.register_invalid input w herr, registerErrors_sublist input,
      registerErrors_email input, registerErrors_password input, registerErrors_name input⟩

/-- Witness of `register_validation`: Cleo registers on the sample store; a
registration with a dotless domain, a short password and a blank name is
refused with three details. -/
theorem register_validation_witness :
    RegistrationValid newcomer ∧ sampleWorld.Quiet ∧
    (∀ x ∈ sampleWorld.db.users, x.email ≠ newcomer.email.getD "") ∧
    ¬ RegistrationValid badRegistration ∧
    (∃ u, (Mutation.register newcomer sampleWorld).1 = .ok (.user u)) ∧
    Mutation.register badRegistration sampleWorld
      = (.ok (createError "VALIDATION_ERROR" "Invalid input data" 400
          [createErrorDetail "email" "Invalid email format" (some "EMAIL_FORMAT"),
           createErrorDetail "password" "Password must be at least 8 characters long"
             (some "MIN_LENGTH"),
           createErrorDetail "name" "Name is required"]), sampleWorld) := by
  have hgood : RegistrationValid newcomer := (registerErrors_eq_nil_iff _).mp (by decide)
  have hbad : ¬ RegistrationValid badRegistration :=
    fun h => absurd ((registerErrors_eq_nil_iff _).mpr h) (by decide)
  have hfresh : ∀ x ∈ sampleWorld.db.users, x.email ≠ newcomer.email.getD "" := by decide
  refine ⟨hgood, by decide, hfresh, hbad, ?_, ?_⟩
  · obtain ⟨u, hu, _⟩ := (register_validation sampleWorld newcomer).2.1 hgood (by decide) hfresh
    exact ⟨u, hu⟩
  · exact ((register_validation sampleWorld badRegistration).2.2 hbad).1

/-! ## Validation of `createQuestion` -/

theorem truthy_eq_some {s : Option String} {t : String} :
    truthy s = some t ↔ s = some t ∧ t ≠ "" := by
  cases s with
  | none => simp [truthy]
  | some u =>
      by_cases h : u = ""
      · simp only [truthy, h, if_true]
        constructor
        · intro h1
          cases h1
        · rintro ⟨h1, h2⟩
          exact absurd (Option.some.inj h1).symm h2
      · simp only [truthy, h, if_false]
        constructor
        · intro h1
          have := Option.some.inj h1
          subst this
          exact ⟨rfl, h⟩
        · rintro ⟨h1, _⟩
          exact h1

theorem createQuestionErrors_eq_nil_iff (input : QuestionCreateInput) :
    Mutation.createQuestionErrors input = [] ↔ QuestionInputValid input := by
  unfold Mutation.createQuestionErrors QuestionInputValid
  simp only [List.append_eq_nil]
  constructor
  · rintro ⟨⟨htext, htype⟩, hoptions⟩
    refine ⟨?_, ?_, ?_⟩
    · cases ht : input.text with
      | none => simp [ht, jsBlank] at htext
      | some t =>
          rw [ht] at htext
          by_cases hb : jsBlank (some t) = true
          · simp [hb] at htext
          · have hb1 : jsBlank (some t) = false := by simpa using hb
            simp only [hb1, Bool.false_eq_true, if_false, Option.getD_some] at htext
            refine ⟨t, rfl, hb1, ?_⟩
            by_contra hlen
            simp [Nat.lt_of_not_le hlen] at htext
    · cases hty : truthy input.type with
      | none => simp [hty] at htype
      | some ty =>
          simp only [hty] at htype
          by_cases hmem : ty ∈ validTypes
          · exact ⟨ty, (truthy_eq_some.mp hty).1, hmem⟩
          · simp [hmem] at htype
    · intro ty hty hchoice
      simp only [hty] at hoptions
      cases ho : input.options with
      | undefined => simp [ho, hchoice] at hoptions
      | null => simp [ho, hchoice] at hoptions
      | value l =>
          refine ⟨l, rfl, ?_⟩
          by_contra hlen
          simp [ho, hchoice, Nat.lt_of_not_le hlen] at hoptions
  · rintro ⟨⟨t, ht, hb, hlen⟩, ⟨ty, hty, hmem⟩, hoptions⟩
    refine ⟨⟨?_, ?_⟩, ?_⟩
    · simp [ht, hb, Nat.not_lt.mpr hlen]
    · have hne : ty ≠ "" := by
        intro h
        subst h
        revert hmem
        decide
      have : truthy input.type = some ty := truthy_eq_some.mpr ⟨hty, hne⟩
      simp [this, hmem]
    · simp only [hty]
      by_cases hc : ty ∈ ["multiplechoice", "checkbox", "dropdown"]
      · obtain ⟨l, hl, hlen⟩ := hoptions ty hty hc
        simp [hc, hl, Nat.not_lt.mpr hlen]
      · simp [hc]

theorem take_one_orderBy {α : Type} (le : α → α → Bool) (desc : Bool) {l : List α}
    (h : l ≠ []) : ∃ x, (orderBy le desc l).take 1 = [x] := by
  have hlen : (orderBy le desc l).length = l.length := by
    rw [orderBy]
    exact (List.perm_insertionSort _ _).length_eq
  cases hs : orderBy le desc l with
  | nil =>
      rw [hs] at hlen
      exact absurd (List.length_eq_zero.mp hlen.symm) h
  | cons x rest => exact ⟨x, rfl⟩

/-- What `QuestionModel.create` does with an input that satisfies the
constraints of table `questions`, when no statement is rejected. -/
theorem QuestionModel.create_valid {w : World} (hquiet : w.Quiet) {formId : Nat}
    {row : FormRow} (hrow : w.db.findForm formId = some row) {input : QuestionCreateInput}
    {t ty : String} (ht : input.text = some t) (hty : input.type = some ty)
    (hmem : ty ∈ validTypes) :
    ∃ q w1, QuestionModel.create formId input w = (.ok q, w1) ∧
      w1.db = QuestionModel.insertQuestionRow formId t ty input w.now w.db := by
  have hany := any_of_findForm hrow
  have hc : validTypes.contains ty = true := by simpa using hmem
  simp only [QuestionModel.create, Eff.bind_apply, Eff.bind, hquiet.accepts.withDb, ht, hty, hc,
    Bool.not_true, Bool.false_eq_true, if_false, hany, Bool.and_false]
  have hq1 : ∀ db1 : Db, (⟨db1, w.next.now, w.next.faults⟩ : World).Accepts :=
    fun _ => hquiet.next.accepts
  rw [(hq1 _).query]
  have hne : (QuestionModel.insertQuestionRow formId t ty input w.now w.db).questions.filter
      (fun q => q.formId == formId && some q.questionText == some t) ≠ [] := by
    intro hnil
    have := List.filter_eq_nil_iff.mp hnil
      (QuestionModel.newQuestionRow w.db w.now formId t ty input)
      (by simp [QuestionModel.insertQuestionRow])
    simp [QuestionModel.newQuestionRow] at this
  obtain ⟨x, hx⟩ := take_one_orderBy (fun a b : QuestionRow => decide (a.id ≤ b.id)) true hne
  simp only [hx, Eff.pure_apply]
  exact ⟨_, _, rfl, rfl⟩

/-- C19: for a stored form, its owner and any input (no statement being
rejected by the store), `createQuestion` passes validation and inserts a
question exactly when the text is non-blank and at most 500 characters long,
the type is one of the five kinds and, for `multiplechoice`, `checkbox` and
`dropdown`, `options` is a list of at least 2 entries; then it returns a
`Question` and the store holds the new row.  Otherwise it returns
`VALIDATION_ERROR` / 400 with the violations and writes nothing. -/
theorem create_question_validation (w : World) (owner : Identity) (formId : Nat)
    (row : FormRow) (input : QuestionCreateInput) (hquiet : w.Quiet)
    (hrow : w.db.findForm formId = some row) (hown : row.userId = owner.id) :
    (Mutation.createQuestionErrors input = [] ↔ QuestionInputValid input) ∧
    (QuestionInputValid input →
      ∃ q t ty, input.text = some t ∧ input.type = some ty ∧
        (Mutation.createQuestion formId input ⟨some owner⟩ w).1 = .ok (.question q) ∧
        (Mutation.createQuestion formId input ⟨some owner⟩ w).2.db
          = QuestionModel.insertQuestionRow formId t ty input w.now w.db) ∧
    (¬ QuestionInputValid input →
      Mutation.createQuestionErrors input ≠ [] ∧
      Mutation.createQuestion formId input ⟨some owner⟩ w
        = (.ok (createError "VALIDATION_ERROR" "Invalid question data" 400
            (Mutation.createQuestionErrors input)), w.next) ∧
      (Mutation.createQuestion formId input ⟨some owner⟩ w).2.db = w.db) := by
  have hiff := createQuestionErrors_eq_nil_iff input
  have hget := FormModel.getById_found hquiet.accepts hrow
  have hown1 : row.toForm.userId = owner.id := hown
  refine ⟨hiff, ?_, ?_⟩
  · intro hvalid
    have herrors := hiff.mpr hvalid
    obtain ⟨⟨t, ht, _, _⟩, ⟨ty, hty, hmem⟩, _⟩ := hvalid
    obtain ⟨q, w1, hrun, hdb⟩ :=
      QuestionModel.create_valid (w := w.next) hquiet.next hrow ht hty hmem
    refine ⟨q, t, ty, ht, hty, ?_, ?_⟩
    · simp only [Mutation.createQuestion, Eff.tryCatch, Eff.bind_apply, Eff.bind,
        getAuthenticatedUser_some, hget, ne_eq, hown1, not_true_eq_false, if_false, herrors,
        List.length_nil, lt_self_iff_false, hrun, Eff.pure_apply]
    · simp only [Mutation.createQuestion, Eff.tryCatch, Eff.bind_apply, Eff.bind,
        getAuthenticatedUser_some, hget, ne_eq, hown1, not_true_eq_false, if_false, herrors,
        List.length_nil, lt_self_iff_false, hrun, Eff.pure_apply]
      exact hdb
  · intro hinvalid
    have hne : Mutation.createQuestionErrors input ≠ [] := fun h => hinvalid (hiff.mp h)
    have hpos : 0 < (Mutation.createQuestionErrors input).length := List.length_pos.mpr hne
    have hrun : Mutation.createQuestion formId input ⟨some owner⟩ w
        = (.ok (createError "VALIDATION_ERROR" "Invalid question data" 400
            (Mutation.createQuestionErrors input)), w.next) := by
      simp only [Mutation.createQuestion, Eff.tryCatch, Eff.bind_apply, Eff.bind,
        getAuthenticatedUser_some, hget, ne_eq, hown1, not_true_eq_false, if_false, hpos,
        if_true, Eff.pure_apply]
    exact ⟨hne, hrun, by rw [hrun]; rfl⟩

/-- Witness of `create_question_validation`: user 2 adds a dropdown question
to form 20, with two options and with one. -/
theorem create_question_validation_witness :
    sampleWorld.Quiet ∧ sampleWorld.db.findForm 20 = some formB ∧
    formB.userId = identityB.id ∧ QuestionInputValid dropdownTwo ∧
    ¬ QuestionInputValid dropdownOne ∧
    (∃ q, (Mutation.createQuestion 20 dropdownTwo ⟨some identityB⟩ sampleWorld).1
      = .ok (.question q)) ∧
    Mutation.createQuestion 20 dropdownOne ⟨some identityB⟩ sampleWorld
      = (.ok (createError "VALIDATION_ERROR" "Invalid question data" 400
          (Mutation.createQuestionErrors dropdownOne)), sampleWorld.next) := by
  have hgood : QuestionInputValid dropdownTwo :=
    (createQuestionErrors_eq_nil_iff _).mp (by decide)
  have hbad : ¬ QuestionInputValid dropdownOne :=
    fun h => absurd ((createQuestionErrors_eq_nil_iff _).mpr h) (by decide)
  refine ⟨by decide, rfl, rfl, hgood, hbad, ?_, ?_⟩
  · obtain ⟨q, _, _, _, _, hq, _⟩ :=
      (create_question_validation sampleWorld identityB 20 formB dropdownTwo (by decide) rfl
        rfl).2.1 hgood
    exact ⟨q, hq⟩
  · exact ((create_question_validation sampleWorld identityB 20 formB dropdownOne (by decide)
      rfl rfl).2.2 hbad).2.1

/-- C20, as stated, fails: user 1 does not own form 20 and sends a question
with blank text and an unknown type; the answer is `FORBIDDEN`, not
`VALIDATION_ERROR`, because the ownership check comes first. -/
theorem invalid_question_from_stranger_is_forbidden :
    sampleDb.findForm 20 = some formB ∧ formB.userId ≠ identityA.id ∧
    Mutation.createQuestionErrors { text := some " ", type := some "essay" } ≠ [] ∧
    Mutation.createQuestion 20 { text := some " ", type := some "essay" } userA sampleWorld
      = (.ok (createError "FORBIDDEN" "You can only add questions to your own forms" 403),
          sampleWorld) :=
  ⟨rfl, by decide, by decide, rfl⟩

/-- C20, amended: the ownership guard runs before the validator.  For an
authenticated caller, a stored form (the lookup not being rejected by the
store) and a `createQuestion` input that violates a validation rule, the
result is `FORBIDDEN` / 403 when the caller does not own the form and
`VALIDATION_ERROR` / 400 with the violations when the caller owns it. -/
theorem ownership_guard_precedes_validator (w : World) (caller : Identity) (formId : Nat)
    (row : FormRow) (input : QuestionCreateInput) (haccepts : w.Accepts)
    (hrow : w.db.findForm formId = some row) (hinvalid : Mutation.createQuestionErrors input ≠ []) :
    (row.userId ≠ caller.id →
      Mutation.createQuestion formId input ⟨some caller⟩ w
        = (.ok (createError "FORBIDDEN" "You can only add questions to your own forms" 403),
            w.next)) ∧
    (row.userId = caller.id →
      Mutation.createQuestion formId input ⟨some caller⟩ w
        = (.ok (createError "VALIDATION_ERROR" "Invalid question data" 400
            (Mutation.createQuestionErrors input)), w.next)) := by
  have hget := FormModel.getById_found haccepts hrow
  have hpos : 0 < (Mutation.createQuestionErrors input).length := List.length_pos.mpr hinvalid
  constructor
  · intro hne
    have hne1 : ¬ row.toForm.userId = caller.id := hne
    simp only [Mutation.createQuestion, Eff.tryCatch, Eff.bind_apply, Eff.bind,
      getAuthenticatedUser_some, hget, ne_eq, hne1, not_false_eq_true, if_true, Eff.pure_apply]
  · intro hown
    have hown1 : row.toForm.userId = caller.id := hown
    simp only [Mutation.createQuestion, Eff.tryCatch, Eff.bind_apply, Eff.bind,
      getAuthenticatedUser_some, hget, ne_eq, hown1, not_true_eq_false, if_false, hpos, if_true,
      Eff.pure_apply]

/-- Witness of `ownership_guard_precedes_validator`: a question without text
sent to form 20 by user 1, then by its owner, user 2. -/
theorem ownership_guard_precedes_validator_witness :
    sampleWorld.Accepts ∧ sampleWorld.db.findForm 20 = some formB ∧
    Mutation.createQuestionErrors { type := some "shorttext" } ≠ [] ∧
    formB.userId ≠ identityA.id ∧ formB.userId = identityB.id ∧
    Mutation.createQuestion 20 { type := some "shorttext" } ⟨some identityA⟩ sampleWorld
      = (.ok (createError "FORBIDDEN" "You can only add questions to your own forms" 403),
          sampleWorld.next) ∧
    Mutation.createQuestion 20 { type := some "shorttext" } ⟨some identityB⟩ sampleWorld
      = (.ok (createError "VALIDATION_ERROR" "Invalid question data" 400
          (Mutation.createQuestionErrors { type := some "shorttext" })), sampleWorld.next) :=
  ⟨by decide, rfl, by decide, by decide, rfl,
    (ownership_guard_precedes_validator sampleWorld identityA 20 formB
      { type := some "shorttext" } (by decide) rfl (by decide)).1 (by decide),
    (ownership_guard_precedes_validator sampleWorld identityB 20 formB
      { type := some "shorttext" } (by decide) rfl (by decide)).2 rfl⟩

/-! ## Ids that do not resolve -/

/-- C23, on the code: no form has id 99 in the sample store.  `createResponse`,
`createQuestion` and `reorderQuestions` called with `formId: 99` return
`INTERNAL_ERROR` / 500, not `FORM_NOT_FOUND` / 404: `FormModel.getById` throws
for a missing form, so the test `if (!form)` that would return `FORM_NOT_FOUND`
is never reached, and the `catch` blocks know no such case.  Nothing is
written.  The `form` query does report `FORM_NOT_FOUND` for the same id. -/
theorem unknown_form_is_internal_error :
    sampleDb.findForm 99 = none ∧
    Mutation.createResponse 99 { answers := some [answerBlue] } sampleWorld
      = (.ok (createError "INTERNAL_ERROR" "Failed to create response" 500), sampleWorld) ∧
    Mutation.createQuestion 99 dropdownTwo userA sampleWorld
      = (.ok (createError "INTERNAL_ERROR" "Failed to create question" 500), sampleWorld) ∧
    Mutation.reorderQuestions 99 [1] userA sampleWorld
      = (.ok (createError "INTERNAL_ERROR" "Failed to reorder questions" 500), sampleWorld) ∧
    Query.form 99 userA sampleWorld
      = (.ok (createError "FORM_NOT_FOUND" "Form with id 99 not found" 404), sampleWorld) :=
  ⟨rfl, rfl, rfl, rfl, rfl⟩

/-- C29, on the code: the sample store has no question 99 and no response 99.
User 2 owns form 20 and calls `deleteQuestion(20, 99)` and
`deleteResponse(20, 99)`: both return their `SuccessResult`, not
`QUESTION_NOT_FOUND` / `RESPONSE_NOT_FOUND`, and the tables are as before.
`QuestionModel.deleteQuestion` and `ResponseModel.delete` never look at the
number of rows the `DELETE` removed; `deleteForm` does, and reports
`FORM_NOT_FOUND` for form 99. -/
theorem delete_unknown_id_reports_success :
    (sampleDb.questions.filter (fun q => q.id == 99)) = [] ∧
    (sampleDb.responses.filter (fun r => r.id == 99)) = [] ∧
    sampleDb.findForm 20 = some formB ∧ formB.userId = identityB.id ∧
    Mutation.deleteQuestion 20 99 userB sampleWorld
      = (.ok (.successResult true "Question deleted successfully"), sampleWorld) ∧
    Mutation.deleteResponse 20 99 userB sampleWorld
      = (.ok (.successResult true "Response deleted successfully"), sampleWorld) ∧
    Query.question 20 99 userB sampleWorld
      = (.ok (createError "QUESTION_NOT_FOUND" "Question not found" 404), sampleWorld) ∧
    Mutation.deleteForm 99 userB sampleWorld
      = (.ok (createError "FORM_NOT_FOUND" "Form with id 99 not found" 404), sampleWorld) :=
  ⟨rfl, rfl, rfl, rfl, rfl, rfl, rfl, rfl⟩

/-! ## Store failures -/

/-- C24, on the code: the driver rejects the next statement with the text
`SQLITE_BUSY: database is locked`.  Thirteen resolvers hand that text to the
caller as the `message` of a `*_NOT_FOUND` (or, for `updateUser`,
`VALIDATION_ERROR`) envelope instead of returning `INTERNAL_ERROR` with a fixed
text; the other resolvers that reach the store (`users`, `forms`, `questions`,
`responses`, `login`, `register`, `createForm`, `createQuestion`,
`reorderQuestions`, `createResponse`) do return the generic `INTERNAL_ERROR`. -/
theorem store_error_text_reaches_caller :
    lockedWorld.faults = [some "SQLITE_BUSY: database is locked"] ∧
    (Query.me userA lockedWorld).1
      = .ok (createError "USER_NOT_FOUND" "SQLITE_BUSY: database is locked" 404) ∧
    (Query.user 2 userA lockedWorld).1
      = .ok (createError "USER_NOT_FOUND" "SQLITE_BUSY: database is locked" 404) ∧
    (Query.form 20 userA lockedWorld).1
      = .ok (createError "FORM_NOT_FOUND" "SQLITE_BUSY: database is locked" 404) ∧
    (Query.question 20 1 userA lockedWorld).1
      = .ok (createError "QUESTION_NOT_FOUND" "SQLITE_BUSY: database is locked" 404) ∧
    (Query.response 20 7 userA lockedWorld).1
      = .ok (createError "RESPONSE_NOT_FOUND" "SQLITE_BUSY: database is locked" 404) ∧
    (Mutation.updateUser 1 { name := some "Ann" } userA lockedWorld).1
      = .ok (createError "VALIDATION_ERROR" "SQLITE_BUSY: database is locked" 400) ∧
    (Mutation.deleteUser 1 userA lockedWorld).1
      = .ok (createError "USER_NOT_FOUND" "SQLITE_BUSY: database is locked" 404) ∧
    (Mutation.updateForm 20 { title := some "Renamed" } userB lockedWorld).1
      = .ok (createError "FORM_NOT_FOUND" "SQLITE_BUSY: database is locked" 404) ∧
    (Mutation.deleteForm 20 userB lockedWorld).1
      = .ok (createError "FORM_NOT_FOUND" "SQLITE_BUSY: database is locked" 404) ∧
    (Mutation.updateQuestion 20 1 { text := some "Renamed" } userB lockedWorld).1
      = .ok (createError "QUESTION_NOT_FOUND" "SQLITE_BUSY: database is locked" 404) ∧
    (Mutation.deleteQuestion 20 1 userB lockedWorld).1
      = .ok (createError "QUESTION_NOT_FOUND" "SQLITE_BUSY: database is locked" 404) ∧
    (Mutation.updateResponse 20 7 { respondentName := .value "S" } userB lockedWorld).1
      = .ok (createError "RESPONSE_NOT_FOUND" "SQLITE_BUSY: database is locked" 404) ∧
    (Mutation.deleteResponse 20 7 userB lockedWorld).1
      = .ok (createError "RESPONSE_NOT_FOUND" "SQLITE_BUSY: database is locked" 404) ∧
    (Query.users userA lockedWorld).1
      = .ok (createError "INTERNAL_ERROR" "Failed to fetch users" 500) ∧
    (Query.forms .undefined none userA lockedWorld).1
      = .ok (createError "INTERNAL_ERROR" "Failed to fetch forms" 500) ∧
    (Query.questions 20 none userA lockedWorld).1
      = .ok (createError "INTERNAL_ERROR" "Failed to fetch questions" 500) ∧
    (Query.responses 20 none userA lockedWorld).1
      = .ok (createError "INTERNAL_ERROR" "Failed to fetch responses" 500) ∧
    (Mutation.login { email := some "a@x.com", password := some "secretA1" } lockedWorld).1
      = .ok (createError "INTERNAL_ERROR" "Login failed" 500) ∧
    (Mutation.register newcomer lockedWorld).1
      = .ok (createError "INTERNAL_ERROR" "Registration failed" 500) ∧
    (Mutation.createForm { title := some "New" } userA lockedWorld).1
      = .ok (createError "INTERNAL_ERROR" "Failed to create form" 500) ∧
    (Mutation.createQuestion 20 dropdownTwo userB lockedWorld).1
      = .ok (createError "INTERNAL_ERROR" "Failed to create question" 500) ∧
    (Mutation.reorderQuestions 20 [2, 1] userB lockedWorld).1
      = .ok (createError "INTERNAL_ERROR" "Failed to reorder questions" 500) ∧
    (Mutation.createResponse 20 { answers := some [answerBlue] } lockedWorld).1
      = .ok (createError "INTERNAL_ERROR" "Failed to create response" 500) :=
  ⟨rfl, rfl, rfl, rfl, rfl, rfl, rfl, rfl, rfl, rfl, rfl, rfl, rfl, rfl, rfl, rfl, rfl, rfl,
    rfl, rfl, rfl, rfl, rfl, rfl⟩

/-! ## Sorting the forms list -/

/-- C28, on the code: user 2 owns form 20 (created at time 8) and form 30
(created at time 9).  The `forms` query with `{field: CREATED_AT, order: ASC}`
returns form 30 before form 20, the same list as with `order: DESC` and as
without `sort`: `FormModel.getAll` takes the `sort` argument and never reads
it, and `formDb.getAllForms` always ends its statement with
`ORDER BY createdAt DESC`.  For every store the result does not depend on
`sort`. -/
theorem forms_sort_is_ignored :
    formB.createdAt < formC.createdAt ∧
    Query.forms .undefined (some oldestFirst) userB threeFormsWorld
      = (.ok (.formsList [formC.toForm, formB.toForm] 2), threeFormsWorld) ∧
    Query.forms .undefined (some newestFirst) userB threeFormsWorld
      = (.ok (.formsList [formC.toForm, formB.toForm] 2), threeFormsWorld) ∧
    ∀ (w : World) (filter : Arg FormFilter) (sort : Option FormSort) (context : Context),
      Query.forms filter sort context w = Query.forms filter none context w :=
  ⟨by decide, rfl, rfl, fun _ _ _ _ => rfl⟩

/-! ## The request context -/

theorem stripPrefixChars_append (needle rest : List Char) :
    stripPrefixChars needle (needle ++ rest) = some rest := by
  induction needle with
  | nil => rfl
  | cons a as ih => simp [stripPrefixChars, ih]

theorem jsReplace_bearer (token : String) : jsReplace ("Bearer " ++ token) "Bearer " "" = token := by
  have hdata : ("Bearer " ++ token).data = "Bearer ".data ++ token.data := String.data_append _ _
  have hstrip := stripPrefixChars_append "Bearer ".data token.data
  apply String.ext
  unfold jsReplace
  simp only [hdata]
  change replaceFirstChars "Bearer ".data [] ('B' :: ("earer ".data ++ token.data)) = token.data
  unfold replaceFirstChars
  change (match stripPrefixChars "Bearer ".data ("Bearer ".data ++ token.data) with
    | some rest => [] ++ rest
    | none => 'B' :: replaceFirstChars "Bearer ".data [] ("earer ".data ++ token.data)) = _
  rw [hstrip]
  rfl

/-- C26: `createContext` is a total function of the request.  Without an
`authorization` header (or with an empty one) the context is anonymous.  With
a header, the token is the header with its first `Bearer ` removed (for a
header `Bearer t` it is `t`); when `jwt.verify` throws for that token, whatever
the error, the context is anonymous; when it returns the claims
`(userId, email)`, the identity is exactly `{id: userId, email}`. -/
theorem create_context_cases (verify : String → Except JsError TokenClaims) :
    createContext verify { authorization := none } = { user := none } ∧
    createContext verify { authorization := some "" } = { user := none } ∧
    (∀ (header : String) (e : JsError), verify (jsReplace header "Bearer " "") = .error e →
      createContext verify { authorization := some header } = { user := none }) ∧
    (∀ (header : String) (claims : TokenClaims), header ≠ "" →
      verify (jsReplace header "Bearer " "") = .ok claims →
      createContext verify { authorization := some header }
        = { user := some { id := claims.userId, email := claims.email } }) ∧
    (∀ token : String, jsReplace ("Bearer " ++ token) "Bearer " "" = token) := by
  refine ⟨rfl, rfl, ?_, ?_, jsReplace_bearer⟩
  · intro header e he
    by_cases hempty : header = ""
    · rw [hempty]
      rfl
    · simp only [createContext, truthy, hempty, if_false, he]
  · intro header claims hne hok
    simp only [createContext, truthy, hne, if_false, hok]

/-- Witness of `create_context_cases`: a header whose token verifies for user
1, one whose token has expired, and one that is not a token. -/
theorem create_context_cases_witness :
    sampleVerify (jsReplace "Bearer old-token" "Bearer " "") = .error { message := "jwt expired" } ∧
    createContext sampleVerify { authorization := some "Bearer old-token" } = anonymous ∧
    createContext sampleVerify { authorization := some "Basic dXNlcg==" } = anonymous ∧
    "Bearer signed-for-user-1" ≠ "" ∧
    sampleVerify (jsReplace "Bearer signed-for-user-1" "Bearer " "")
      = .ok { userId := 1, email := "a@x.com" } ∧
    createContext sampleVerify { authorization := some "Bearer signed-for-user-1" } = userA :=
  ⟨rfl,
    (create_context_cases sampleVerify).2.2.1 "Bearer old-token" { message := "jwt expired" } rfl,
    (create_context_cases sampleVerify).2.2.1 "Basic dXNlcg==" { message := "jwt malformed" } rfl,
    by decide,
    rfl,
    (create_context_cases sampleVerify).2.2.2.1 "Bearer signed-for-user-1"
      { userId := 1, email := "a@x.com" } (by decide) rfl⟩

/-! ## What the resolvers return -/

theorem Eff.Returns.of_pure {α : Type} {P : α → Prop} {a : α} (h : P a) :
    Eff.Returns (Pure.pure a : Eff α) P := by
  intro w b w1 hrun
  rw [Eff.pure_apply] at hrun
  cases hrun
  exact h

theorem Eff.Returns.of_throw {α : Type} {P : α → Prop} (e : JsError) :
    Eff.Returns (Eff.throw e : Eff α) P := by
  intro w b w1 hrun
  cases hrun

theorem Eff.Returns.of_bind {α β : Type} {P : β → Prop} (m : Eff α) {f : α → Eff β}
    (h : ∀ a, Eff.Returns (f a) P) : Eff.Returns (m >>= f) P := by
  intro w b w1 hrun
  rw [Eff.bind_apply, Eff.bind] at hrun
  rcases hm : m w with ⟨r, w2⟩
  rw [hm] at hrun
  cases r with
  | ok a => exact h a w2 b w1 hrun
  | error e => cases hrun

theorem Eff.Always.of_value {α : Type} {P : α → Prop} {a : α} (h : P a) :
    Eff.Always (Pure.pure a : Eff α) P :=
  fun w => ⟨a, w, rfl, h⟩

theorem Eff.Always.of_tryCatch {α : Type} {P : α → Prop} {m : Eff α} {h : JsError → Eff α}
    (hm : Eff.Returns m P) (hh : ∀ e, Eff.Always (h e) P) : Eff.Always (Eff.tryCatch m h) P := by
  intro w
  rcases hrun : m w with ⟨r, w1⟩
  cases r with
  | ok a => exact ⟨a, w1, by simp only [Eff.tryCatch, hrun], hm w a w1 hrun⟩
  | error e =>
      obtain ⟨a, w2, hcatch, hP⟩ := hh e w1
      exact ⟨a, w2, by simp only [Eff.tryCatch, hrun, hcatch], hP⟩

theorem Listed.plain {code : String} {httpStatus : Nat} (message : String)
    (h : CanonicalStatus code httpStatus) : Listed (createError code message httpStatus []) :=
  ⟨h, Or.inr (Or.inl rfl)⟩

theorem Listed.validation (message : String) (details : List ErrorDetail) :
    Listed (createError "VALIDATION_ERROR" message 400 details) :=
  ⟨(by decide : CanonicalStatus "VALIDATION_ERROR" 400), Or.inl rfl⟩

theorem Listed.fixed {e : ErrorEnvelope}
    (h : CanonicalStatus e.code e.httpStatus ∧ DetailsAsBuilt e) : Listed (.error e) :=
  h

/-- Every resolver returns normally, and what it returns is a payload or an
envelope built with a canonical code and status and with the details the
source gives it. -/
theorem resolvers_listed (op : Operation) (context : Context) :
    Eff.Always (resolvers op context) Listed := by
  cases op <;>
    simp only [resolvers, Query.health, Query.me, Query.users, Query.user, Query.forms,
      Query.form, Query.questions, Query.question, Query.responses, Query.response,
      Mutation.login, Mutation.logout, Mutation.register, Mutation.updateUser,
      Mutation.deleteUser, Mutation.createForm, Mutation.updateForm, Mutation.deleteForm,
      Mutation.createQuestion, Mutation.updateQuestion, Mutation.deleteQuestion,
      Mutation.reorderQuestions, Mutation.createResponse, Mutation.updateResponse,
      Mutation.deleteResponse] <;>
    refine Eff.Always.of_tryCatch ?_ (fun e => ?_) <;>
    repeat' (first
      | exact Eff.Returns.of_pure True.intro
      | exact Eff.Returns.of_pure (Listed.plain _ (by decide))
      | exact Eff.Returns.of_pure (Listed.validation _ _)
      | exact Eff.Returns.of_pure (Listed.fixed (by decide))
      | exact Eff.Returns.of_throw _
      | exact Eff.Always.of_value (Listed.plain _ (by decide))
      | exact Eff.Always.of_value (Listed.validation _ _)
      | exact Eff.Always.of_value (Listed.fixed (by decide))
      | refine Eff.Returns.of_bind _ (fun _ => ?_)
      | split
      | dsimp only
      | unfold registerCatch
      | unfold createResponseCatch)

/-- C21: every `Error` envelope returned by a query or mutation resolver,
whatever the arguments, the caller and the behaviour of the store, pairs its
code with the canonical status: `UNAUTHORIZED` 401, `FORBIDDEN` 403,
`VALIDATION_ERROR` 400, a code ending in `_NOT_FOUND` 404, `DUPLICATE_EMAIL`
409, `INVALID_CREDENTIALS` 401, `INTERNAL_ERROR` 500; no other code occurs. -/
theorem error_codes_are_canonical (op : Operation) (context : Context) (w : World)
    (e : ErrorEnvelope) (herror : (resolvers op context w).1 = .ok (.error e)) :
    CanonicalStatus e.code e.httpStatus := by
  obtain ⟨r, w1, hrun, hlisted⟩ := resolvers_listed op context w
  rw [hrun] at herror
  simp only [Except.ok.injEq] at herror
  rw [herror] at hlisted
  exact hlisted.1

/-- Witness of `error_codes_are_canonical`: the `me` query of an anonymous
caller. -/
theorem error_codes_are_canonical_witness :
    (resolvers .me anonymous sampleWorld).1
      = .ok (.error ⟨"UNAUTHORIZED", "Authentication required", 401, []⟩) ∧
    CanonicalStatus "UNAUTHORIZED" 401 :=
  ⟨rfl, error_codes_are_canonical .me anonymous sampleWorld
    ⟨"UNAUTHORIZED", "Authentication required", 401, []⟩ rfl⟩

/-- C22, as stated, fails: a login with an e-mail no user has; the envelope
has code `INVALID_CREDENTIALS`, not `VALIDATION_ERROR`, and carries one
detail. -/
theorem failed_login_envelope_has_details :
    Mutation.login unknownLogin sampleWorld
      = (.ok (createError "INVALID_CREDENTIALS" "Invalid email or password" 401
          [createErrorDetail "credentials" "Email or password is incorrect"
            (some "AUTHENTICATION")]), sampleWorld) :=
  rfl

/-- C22, amended: for every `Error` envelope returned by a resolver, either the
code is `VALIDATION_ERROR`, or the details list is empty, or the envelope is
one of three that are built with a single fixed detail:
`INVALID_CREDENTIALS` of `login` (field `credentials`), `DUPLICATE_EMAIL` of
`register` (field `email`) and `QUESTION_NOT_FOUND` of `createResponse` (field
`questionId`). -/
theorem details_only_where_built (op : Operation) (context : Context) (w : World)
    (e : ErrorEnvelope) (herror : (resolvers op context w).1 = .ok (.error e)) :
    DetailsAsBuilt e := by
  obtain ⟨r, w1, hrun, hlisted⟩ := resolvers_listed op context w
  rw [hrun] at herror
  simp only [Except.ok.injEq] at herror
  rw [herror] at hlisted
  exact hlisted.2

/-- Witness of `details_only_where_built`: the `form` query for an id that
does not resolve. -/
theorem details_only_where_built_witness :
    (resolvers (.form 99) userA sampleWorld).1
      = .ok (.error ⟨"FORM_NOT_FOUND", "Form with id 99 not found", 404, []⟩) ∧
    DetailsAsBuilt ⟨"FORM_NOT_FOUND", "Form with id 99 not found", 404, []⟩ :=
  ⟨rfl, details_only_where_built (.form 99) userA sampleWorld
    ⟨"FORM_NOT_FOUND", "Form with id 99 not found", 404, []⟩ rfl⟩

/-- C25: every query and mutation resolver returns normally, for every
context, every argument list and every behaviour of the store (each statement
may run or be rejected with any error text): the result is a payload or an
`Error` envelope, never a thrown error. -/
theorem resolvers_never_throw (op : Operation) (context : Context) (w : World) :
    ∃ (r : Result) (w1 : World), resolvers op context w = (.ok r, w1) := by
  obtain ⟨r, w1, hrun, _⟩ := resolvers_listed op context w
  exact ⟨r, w1, hrun⟩

/-! ## Ownership of a form -/

theorem OwnersKept.same (db : Db) : OwnersKept db db :=
  ⟨le_refl _, fun f hf => Or.inl ⟨f, hf, rfl, rfl⟩⟩

theorem OwnersKept.trans {db db1 db2 : Db} (h1 : OwnersKept db db1) (h2 : OwnersKept db1 db2) :
    OwnersKept db db2 := by
  refine ⟨le_trans h1.1 h2.1, fun f2 hf2 => ?_⟩
  rcases h2.2 f2 hf2 with ⟨f1, hf1, hid, huser⟩ | hnew
  · rcases h1.2 f1 hf1 with ⟨f, hf, hid0, huser0⟩ | hnew
    · exact Or.inl ⟨f, hf, hid0.trans hid, huser0.trans huser⟩
    · exact Or.inr (hid ▸ hnew)
  · exact Or.inr (lt_of_le_of_lt h1.1 hnew)

theorem OwnersKept.of_subset {db db1 : Db} (hseq : db1.formSeq = db.formSeq)
    (hsub : ∀ f ∈ db1.forms, f ∈ db.forms) : OwnersKept db db1 :=
  ⟨le_of_eq hseq.symm, fun f hf => Or.inl ⟨f, hsub f hf, rfl, rfl⟩⟩

theorem OwnersKept.of_forms {db db1 : Db} (hseq : db1.formSeq = db.formSeq)
    (hforms : db1.forms = db.forms) : OwnersKept db db1 :=
  OwnersKept.of_subset hseq (fun _ hf => hforms ▸ hf)

theorem Eff.KeepsOwners.by_pure {α : Type} (a : α) : Eff.KeepsOwners (Pure.pure a : Eff α) :=
  fun w => OwnersKept.same w.db

theorem Eff.KeepsOwners.by_throw {α : Type} (e : JsError) :
    Eff.KeepsOwners (Eff.throw e : Eff α) :=
  fun w => OwnersKept.same w.db

theorem Eff.KeepsOwners.by_bind {α β : Type} {m : Eff α} {f : α → Eff β}
    (hm : Eff.KeepsOwners m) (hf : ∀ a, Eff.KeepsOwners (f a)) : Eff.KeepsOwners (m >>= f) := by
  intro w
  have h1 := hm w
  rw [Eff.bind_apply, Eff.bind]
  rcases hrun : m w with ⟨r, w1⟩
  rw [hrun] at h1
  cases r with
  | ok a => exact h1.trans (hf a w1)
  | error e => exact h1

theorem Eff.KeepsOwners.by_tryCatch {α : Type} {m : Eff α} {h : JsError → Eff α}
    (hm : Eff.KeepsOwners m) (hh : ∀ e, Eff.KeepsOwners (h e)) :
    Eff.KeepsOwners (Eff.tryCatch m h) := by
  intro w
  have h1 := hm w
  unfold Eff.tryCatch
  rcases hrun : m w with ⟨r, w1⟩
  rw [hrun] at h1
  cases r with
  | ok a => exact h1
  | error e => exact h1.trans (hh e w1)

theorem Eff.KeepsOwners.by_withDb {α : Type} {run : Nat → Db → Except String (α × Db)}
    (h : ∀ now db a db1, run now db = .ok (a, db1) → OwnersKept db db1) :
    Eff.KeepsOwners (withDb run) := by
  intro w
  cases hf : w.faults.head?.join with
  | some msg =>
      rw [withDb_rejected hf]
      exact OwnersKept.same _
  | none =>
      have hacc : w.Accepts := hf
      rw [hacc.withDb]
      cases hrun : run w.now w.db with
      | error msg => exact OwnersKept.same _
      | ok out =>
          obtain ⟨a, db1⟩ := out
          exact h w.now w.db a db1 hrun

theorem Eff.KeepsOwners.by_query {α : Type} (read : Db → α) : Eff.KeepsOwners (query read) :=
  Eff.KeepsOwners.by_withDb (fun _ db _ _ h => by
    simp only [Except.ok.injEq, Prod.mk.injEq] at h
    rw [← h.2]
    exact OwnersKept.same db)

theorem Eff.KeepsOwners.by_execute {write : Nat → Db → Db}
    (h : ∀ now db, OwnersKept db (write now db)) : Eff.KeepsOwners (execute write) :=
  Eff.KeepsOwners.by_withDb (fun now db _ _ hrun => by
    simp only [Except.ok.injEq, Prod.mk.injEq] at hrun
    rw [← hrun.2]
    exact h now db)

theorem currentTime_keepsOwners : Eff.KeepsOwners currentTime :=
  fun w => OwnersKept.same w.db

theorem getAuthenticatedUser_keepsOwners (context : Context) :
    Eff.KeepsOwners (getAuthenticatedUser context) := by
  unfold getAuthenticatedUser
  split
  · exact Eff.KeepsOwners.by_throw _
  · exact Eff.KeepsOwners.by_pure _

theorem OwnersKept.of_ok {α : Type} {db db1 db2 : Db} {a b : α}
    (h : (Except.ok (a, db2) : Except String (α × Db)) = .ok (b, db1))
    (hkept : OwnersKept db db2) : OwnersKept db db1 := by
  simp only [Except.ok.injEq, Prod.mk.injEq] at h
  rw [← h.2]
  exact hkept

theorem deleteUserRows_keepsOwners (id : Nat) (db : Db) : OwnersKept db (deleteUserRows id db) := by
  refine OwnersKept.of_subset ?_ ?_
  · unfold deleteUserRows
    cases db.foreignKeys <;> rfl
  · intro f hf
    unfold deleteUserRows at hf
    cases hfk : db.foreignKeys
    · simpa [hfk] using hf
    · simp only [hfk, if_true] at hf
      exact (List.mem_filter.mp hf).1

theorem deleteFormRows_keepsOwners (id : Nat) (db : Db) : OwnersKept db (deleteFormRows id db) := by
  refine OwnersKept.of_subset ?_ ?_
  · unfold deleteFormRows
    cases db.foreignKeys <;> rfl
  · intro f hf
    unfold deleteFormRows at hf
    cases hfk : db.foreignKeys
    · simp only [hfk, Bool.false_eq_true, if_false] at hf
      exact (List.mem_filter.mp hf).1
    · simp only [hfk, if_true] at hf
      exact (List.mem_filter.mp hf).1

/-! ### `userDb` and `UserModel` -/

theorem userDb.getUserById_keepsOwners (id : Nat) : Eff.KeepsOwners (userDb.getUserById id) := by
  unfold userDb.getUserById
  refine Eff.KeepsOwners.by_bind (Eff.KeepsOwners.by_query _) (fun rows => ?_)
  cases rows with
  | nil => exact Eff.KeepsOwners.by_throw _
  | cons row rest => exact Eff.KeepsOwners.by_pure _

theorem userDb.updateUser_keepsOwners (id : Nat) (updates : UserUpdate) :
    Eff.KeepsOwners (userDb.updateUser id updates) := by
  unfold userDb.updateUser
  dsimp only
  refine Eff.KeepsOwners.by_bind (Eff.KeepsOwners.by_withDb (fun now db a db1 h => ?_)) (fun changes => ?_)
  · split at h
    · split at h
      · cases h
      · exact OwnersKept.of_ok h (OwnersKept.of_forms rfl rfl)
    · exact OwnersKept.of_ok h (OwnersKept.of_forms rfl rfl)
  · split
    · exact Eff.KeepsOwners.by_throw _
    · exact userDb.getUserById_keepsOwners id

theorem userDb.deleteUser_keepsOwners (id : Nat) : Eff.KeepsOwners (userDb.deleteUser id) := by
  unfold userDb.deleteUser
  refine Eff.KeepsOwners.by_bind (Eff.KeepsOwners.by_withDb (fun now db a db1 h => ?_)) (fun changes => ?_)
  · exact OwnersKept.of_ok h (deleteUserRows_keepsOwners id db)
  · split
    · exact Eff.KeepsOwners.by_throw _
    · exact Eff.KeepsOwners.by_pure _

theorem userDb.createUser_keepsOwners (email password name : String) :
    Eff.KeepsOwners (userDb.createUser email password name) := by
  unfold userDb.createUser
  dsimp only
  refine Eff.KeepsOwners.by_bind (Eff.KeepsOwners.by_withDb (fun now db a db1 h => ?_))
    (fun lastID => Eff.KeepsOwners.by_query _)
  split at h
  · cases h
  · exact OwnersKept.of_ok h (OwnersKept.of_forms rfl rfl)

theorem userDb.validatePassword_keepsOwners (email password : String) :
    Eff.KeepsOwners (userDb.validatePassword email password) := by
  unfold userDb.validatePassword userDb.getUserByEmail
  refine Eff.KeepsOwners.by_bind (Eff.KeepsOwners.by_query _) (fun user => ?_)
  cases user with
  | none => exact Eff.KeepsOwners.by_pure _
  | some row =>
      dsimp only
      split <;> exact Eff.KeepsOwners.by_pure _

theorem UserModel.getAll_user_keepsOwners : Eff.KeepsOwners UserModel.getAll := by
  unfold UserModel.getAll userDb.getAllUsers
  exact Eff.KeepsOwners.by_bind (Eff.KeepsOwners.by_query _) (fun _ => Eff.KeepsOwners.by_pure _)

theorem UserModel.getById_user_keepsOwners (id : Nat) : Eff.KeepsOwners (UserModel.getById id) := by
  unfold UserModel.getById
  exact Eff.KeepsOwners.by_bind (userDb.getUserById_keepsOwners id) (fun _ => Eff.KeepsOwners.by_pure _)

theorem UserModel.update_user_keepsOwners (id : Nat) (userData : UserUpdate) :
    Eff.KeepsOwners (UserModel.update id userData) := by
  unfold UserModel.update
  exact Eff.KeepsOwners.by_bind (userDb.updateUser_keepsOwners id userData)
    (fun _ => Eff.KeepsOwners.by_pure _)

theorem UserModel.create_user_keepsOwners (email password name : String) :
    Eff.KeepsOwners (UserModel.create email password name) := by
  unfold UserModel.create
  refine Eff.KeepsOwners.by_bind (userDb.createUser_keepsOwners email password name) (fun user => ?_)
  cases user with
  | none => exact Eff.KeepsOwners.by_throw _
  | some row => exact Eff.KeepsOwners.by_pure _

theorem UserModel.validateCredentials_keepsOwners (email password : String) :
    Eff.KeepsOwners (UserModel.validateCredentials email password) := by
  unfold UserModel.validateCredentials
  refine Eff.KeepsOwners.by_bind (userDb.validatePassword_keepsOwners email password) (fun user => ?_)
  cases user <;> exact Eff.KeepsOwners.by_pure _

/-! ### `formDb` and `FormModel` -/

theorem formDb.getFormById_keepsOwners (id : Nat) : Eff.KeepsOwners (formDb.getFormById id) := by
  unfold formDb.getFormById
  refine Eff.KeepsOwners.by_bind (Eff.KeepsOwners.by_query _) (fun rows => ?_)
  cases rows with
  | nil => exact Eff.KeepsOwners.by_throw _
  | cons row rest => exact Eff.KeepsOwners.by_pure _

theorem formDb.createForm_keepsOwners (userId : Nat) (title : String)
    (description : Option String) :
    Eff.KeepsOwners (formDb.createForm userId title description) := by
  unfold formDb.createForm
  refine Eff.KeepsOwners.by_bind (Eff.KeepsOwners.by_withDb (fun now db a db1 h => ?_))
    (fun lastID => Eff.KeepsOwners.by_query _)
  split at h
  · cases h
  · refine OwnersKept.of_ok h ⟨Nat.le_succ _, fun f hf => ?_⟩
    rcases List.mem_append.mp hf with hold | hnew
    · exact Or.inl ⟨f, hold, rfl, rfl⟩
    · rw [List.mem_singleton.mp hnew]
      exact Or.inr (Nat.lt_succ_self _)

theorem formDb.updateForm_keepsOwners (id : Nat) (updates : FormUpdate) :
    Eff.KeepsOwners (formDb.updateForm id updates) := by
  unfold formDb.updateForm
  dsimp only
  refine Eff.KeepsOwners.by_bind (Eff.KeepsOwners.by_withDb (fun now db a db1 h => ?_)) (fun changes => ?_)
  · refine OwnersKept.of_ok h ⟨le_refl _, fun f1 hf1 => ?_⟩
    obtain ⟨f, hf, hmap⟩ := List.mem_map.mp hf1
    refine Or.inl ⟨f, hf, ?_⟩
    rw [← hmap]
    split <;> exact ⟨rfl, rfl⟩
  · split
    · exact Eff.KeepsOwners.by_throw _
    · exact formDb.getFormById_keepsOwners id

theorem formDb.deleteForm_keepsOwners (id : Nat) : Eff.KeepsOwners (formDb.deleteForm id) := by
  unfold formDb.deleteForm
  refine Eff.KeepsOwners.by_bind (Eff.KeepsOwners.by_withDb (fun now db a db1 h => ?_)) (fun changes => ?_)
  · exact OwnersKept.of_ok h (deleteFormRows_keepsOwners id db)
  · split
    · exact Eff.KeepsOwners.by_throw _
    · exact Eff.KeepsOwners.by_pure _

theorem FormModel.create_form_keepsOwners (userId : Nat) (title : String)
    (description : Option String) :
    Eff.KeepsOwners (FormModel.create userId title description) := by
  unfold FormModel.create
  refine Eff.KeepsOwners.by_bind (formDb.createForm_keepsOwners userId title description)
    (fun form => ?_)
  cases form with
  | none => exact Eff.KeepsOwners.by_throw _
  | some row => exact Eff.KeepsOwners.by_pure _

theorem FormModel.getAll_form_keepsOwners (userId : Option Nat) (filter : FormFilter)
    (sort : Option FormSort) : Eff.KeepsOwners (FormModel.getAll userId filter sort) := by
  unfold FormModel.getAll formDb.getAllForms
  exact Eff.KeepsOwners.by_bind (Eff.KeepsOwners.by_query _) (fun _ => Eff.KeepsOwners.by_pure _)

theorem FormModel.getById_form_keepsOwners (id : Nat) : Eff.KeepsOwners (FormModel.getById id) := by
  unfold FormModel.getById
  exact Eff.KeepsOwners.by_bind (formDb.getFormById_keepsOwners id) (fun _ => Eff.KeepsOwners.by_pure _)

theorem FormModel.update_form_keepsOwners (id : Nat) (formData : FormUpdate) :
    Eff.KeepsOwners (FormModel.update id formData) := by
  unfold FormModel.update
  exact Eff.KeepsOwners.by_bind (formDb.updateForm_keepsOwners id formData)
    (fun _ => Eff.KeepsOwners.by_pure _)

/-! ### `QuestionModel` and `ResponseModel` -/

theorem QuestionModel.getByFormId_question_keepsOwners (formId : Nat) (sort : Option QuestionSort) :
    Eff.KeepsOwners (QuestionModel.getByFormId formId sort) := by
  unfold QuestionModel.getByFormId
  dsimp only
  cases sort with
  | none =>
      exact Eff.KeepsOwners.by_bind (Eff.KeepsOwners.by_query _) (fun _ => Eff.KeepsOwners.by_pure _)
  | some s =>
      dsimp only
      repeat' split
      all_goals
        exact Eff.KeepsOwners.by_bind
          (Eff.KeepsOwners.by_withDb (fun _ db _ _ h => by
            first
              | exact OwnersKept.of_ok h (OwnersKept.same db)
              | cases h))
          (fun _ => Eff.KeepsOwners.by_pure _)

theorem QuestionModel.getById_question_keepsOwners (id : Nat) :
    Eff.KeepsOwners (QuestionModel.getById id) := by
  unfold QuestionModel.getById
  refine Eff.KeepsOwners.by_bind (Eff.KeepsOwners.by_query _) (fun rows => ?_)
  cases rows with
  | nil => exact Eff.KeepsOwners.by_throw _
  | cons row rest => exact Eff.KeepsOwners.by_pure _

theorem QuestionModel.create_question_keepsOwners (formId : Nat) (questionData : QuestionCreateInput) :
    Eff.KeepsOwners (QuestionModel.create formId questionData) := by
  unfold QuestionModel.create
  refine Eff.KeepsOwners.by_bind (Eff.KeepsOwners.by_withDb (fun now db a db1 h => ?_)) (fun _ =>
    Eff.KeepsOwners.by_bind (Eff.KeepsOwners.by_query _) (fun rows => ?_))
  · split at h
    · cases h
    · cases h
    · split at h
      · cases h
      · split at h
        · cases h
        · exact OwnersKept.of_ok h (OwnersKept.of_forms rfl rfl)
  · cases rows with
    | nil => exact Eff.KeepsOwners.by_throw _
    | cons row rest => exact Eff.KeepsOwners.by_pure _

theorem QuestionModel.update_question_keepsOwners (id : Nat) (questionData : QuestionUpdateInput) :
    Eff.KeepsOwners (QuestionModel.update id questionData) := by
  unfold QuestionModel.update
  dsimp only
  refine Eff.KeepsOwners.by_bind (Eff.KeepsOwners.by_withDb (fun now db a db1 h => ?_))
    (fun _ => QuestionModel.getById_question_keepsOwners id)
  split at h
  · cases h
  · exact OwnersKept.of_ok h (OwnersKept.of_forms rfl rfl)

theorem QuestionModel.deleteQuestion_keepsOwners (id : Nat) :
    Eff.KeepsOwners (QuestionModel.deleteQuestion id) := by
  unfold QuestionModel.deleteQuestion
  exact Eff.KeepsOwners.by_bind
    (Eff.KeepsOwners.by_execute (fun _ _ => OwnersKept.of_forms rfl rfl))
    (fun _ => Eff.KeepsOwners.by_pure _)

theorem QuestionModel.reorderLoop_keepsOwners (formId : Nat) (questionIds : List Nat) (i : Nat) :
    Eff.KeepsOwners (QuestionModel.reorderLoop formId questionIds i) := by
  induction questionIds generalizing i with
  | nil => exact Eff.KeepsOwners.by_pure _
  | cons questionId rest ih =>
      unfold QuestionModel.reorderLoop
      exact Eff.KeepsOwners.by_bind
        (Eff.KeepsOwners.by_execute (fun _ _ => OwnersKept.of_forms rfl rfl))
        (fun _ => ih (i + 1))

theorem QuestionModel.reorderQuestions_keepsOwners (formId : Nat) (questionIds : List Nat) :
    Eff.KeepsOwners (QuestionModel.reorderQuestions formId questionIds) := by
  unfold QuestionModel.reorderQuestions
  refine Eff.KeepsOwners.by_bind (QuestionModel.getByFormId_question_keepsOwners formId none) (fun _ => ?_)
  dsimp only
  split
  · exact Eff.KeepsOwners.by_throw _
  · split
    · exact Eff.KeepsOwners.by_throw _
    · exact QuestionModel.reorderLoop_keepsOwners formId questionIds 0

theorem ResponseModel.getByFormId_response_keepsOwners (formId : Nat) (sort : Option ResponseSort) :
    Eff.KeepsOwners (ResponseModel.getByFormId formId sort) := by
  unfold ResponseModel.getByFormId
  exact Eff.KeepsOwners.by_bind (Eff.KeepsOwners.by_query _) (fun _ => Eff.KeepsOwners.by_pure _)

theorem ResponseModel.getById_response_keepsOwners (id : Nat) :
    Eff.KeepsOwners (ResponseModel.getById id) := by
  unfold ResponseModel.getById
  refine Eff.KeepsOwners.by_bind (Eff.KeepsOwners.by_query _) (fun rows => ?_)
  cases rows with
  | nil => exact Eff.KeepsOwners.by_throw _
  | cons row rest => exact Eff.KeepsOwners.by_pure _

theorem ResponseModel.insertAnswers_keepsOwners (responseId : Nat) (answers : List AnswerInput) :
    Eff.KeepsOwners (ResponseModel.insertAnswers responseId answers) := by
  induction answers with
  | nil => exact Eff.KeepsOwners.by_pure _
  | cons answer rest ih =>
      unfold ResponseModel.insertAnswers insertAnswer
      refine Eff.KeepsOwners.by_bind (Eff.KeepsOwners.by_withDb (fun now db _ db1 h => ?_))
        (fun _ => ih)
      repeat' split at h
      all_goals first
        | exact OwnersKept.of_ok h (OwnersKept.of_forms rfl rfl)
        | cases h

theorem ResponseModel.create_response_keepsOwners (formId : Nat) (responseData : ResponseCreateInput) :
    Eff.KeepsOwners (ResponseModel.create formId responseData) := by
  unfold ResponseModel.create
  refine Eff.KeepsOwners.by_bind (Eff.KeepsOwners.by_withDb (fun now db a db1 h => ?_)) (fun _ =>
    Eff.KeepsOwners.by_bind (Eff.KeepsOwners.by_query _) (fun rows => ?_))
  · split at h
    · cases h
    · exact OwnersKept.of_ok h (OwnersKept.of_forms rfl rfl)
  · cases rows with
    | nil => exact Eff.KeepsOwners.by_throw _
    | cons row rest =>
        dsimp only
        split
        · exact Eff.KeepsOwners.by_bind (ResponseModel.insertAnswers_keepsOwners _ _)
            (fun _ => Eff.KeepsOwners.by_pure _)
        · exact Eff.KeepsOwners.by_pure _

theorem ResponseModel.update_response_keepsOwners (id : Nat) (responseData : ResponseUpdateInput) :
    Eff.KeepsOwners (ResponseModel.update id responseData) := by
  unfold ResponseModel.update
  refine Eff.KeepsOwners.by_bind
    (Eff.KeepsOwners.by_execute (fun _ _ => OwnersKept.of_forms rfl rfl)) (fun _ => ?_)
  dsimp only
  split
  · exact Eff.KeepsOwners.by_bind
      (Eff.KeepsOwners.by_execute (fun _ _ => OwnersKept.of_forms rfl rfl)) (fun _ =>
      Eff.KeepsOwners.by_bind (ResponseModel.insertAnswers_keepsOwners _ _)
        (fun _ => ResponseModel.getById_response_keepsOwners id))
  · exact Eff.KeepsOwners.by_bind (Eff.KeepsOwners.by_pure _)
      (fun _ => ResponseModel.getById_response_keepsOwners id)

theorem ResponseModel.delete_response_keepsOwners (id : Nat) : Eff.KeepsOwners (ResponseModel.delete id) := by
  unfold ResponseModel.delete
  exact Eff.KeepsOwners.by_bind
    (Eff.KeepsOwners.by_execute (fun _ _ => OwnersKept.of_forms rfl rfl)) (fun _ =>
    Eff.KeepsOwners.by_bind
      (Eff.KeepsOwners.by_execute (fun _ _ => OwnersKept.of_forms rfl rfl))
      (fun _ => Eff.KeepsOwners.by_pure _))

/-! ### The resolvers -/

theorem UserModel.delete_user_keepsOwners (id : Nat) : Eff.KeepsOwners (UserModel.delete id) :=
  userDb.deleteUser_keepsOwners id

theorem FormModel.delete_form_keepsOwners (id : Nat) : Eff.KeepsOwners (FormModel.delete id) :=
  formDb.deleteForm_keepsOwners id

/-- No resolver, whatever its arguments, its caller and its outcome, changes
the owner of a stored form or re-issues a form id. -/
theorem resolvers_keep_owners (op : Operation) (context : Context) :
    Eff.KeepsOwners (resolvers op context) := by
  cases op <;>
    simp only [resolvers, Query.health, Query.me, Query.users, Query.user, Query.forms,
      Query.form, Query.questions, Query.question, Query.responses, Query.response,
      Mutation.login, Mutation.logout, Mutation.register, Mutation.updateUser,
      Mutation.deleteUser, Mutation.createForm, Mutation.updateForm, Mutation.deleteForm,
      Mutation.createQuestion, Mutation.updateQuestion, Mutation.deleteQuestion,
      Mutation.reorderQuestions, Mutation.createResponse, Mutation.updateResponse,
      Mutation.deleteResponse] <;>
    refine Eff.KeepsOwners.by_tryCatch ?_ (fun e => ?_) <;>
    repeat' (first
      | with_reducible exact Eff.KeepsOwners.by_pure _
      | with_reducible exact Eff.KeepsOwners.by_throw _
      | with_reducible exact currentTime_keepsOwners
      | with_reducible exact getAuthenticatedUser_keepsOwners _
      | with_reducible exact UserModel.getAll_user_keepsOwners
      | with_reducible exact UserModel.getById_user_keepsOwners _
      | with_reducible exact UserModel.update_user_keepsOwners _ _
      | with_reducible exact UserModel.delete_user_keepsOwners _
      | with_reducible exact UserModel.create_user_keepsOwners _ _ _
      | with_reducible exact UserModel.validateCredentials_keepsOwners _ _
      | with_reducible exact FormModel.create_form_keepsOwners _ _ _
      | with_reducible exact FormModel.getAll_form_keepsOwners _ _ _
      | with_reducible exact FormModel.getById_form_keepsOwners _
      | with_reducible exact FormModel.update_form_keepsOwners _ _
      | with_reducible exact FormModel.delete_form_keepsOwners _
      | with_reducible exact QuestionModel.getByFormId_question_keepsOwners _ _
      | with_reducible exact QuestionModel.getById_question_keepsOwners _
      | with_reducible exact QuestionModel.create_question_keepsOwners _ _
      | with_reducible exact QuestionModel.update_question_keepsOwners _ _
      | with_reducible exact QuestionModel.deleteQuestion_keepsOwners _
      | with_reducible exact QuestionModel.reorderQuestions_keepsOwners _ _
      | with_reducible exact ResponseModel.getByFormId_response_keepsOwners _ _
      | with_reducible exact ResponseModel.getById_response_keepsOwners _
      | with_reducible exact ResponseModel.create_response_keepsOwners _ _
      | with_reducible exact ResponseModel.update_response_keepsOwners _ _
      | with_reducible exact ResponseModel.delete_response_keepsOwners _
      | with_reducible refine Eff.KeepsOwners.by_bind ?_ (fun _ => ?_)
      | split
      | dsimp only
      | unfold registerCatch
      | unfold createResponseCatch)

theorem serve_keeps_owners (calls : List Call) (db : Db) : OwnersKept db (serve calls db) := by
  induction calls generalizing db with
  | nil => exact OwnersKept.same db
  | cons call rest ih =>
      unfold serve
      exact (resolvers_keep_owners call.op call.context
        { db := db, now := call.now, faults := call.faults }).trans (ih _)


/-! ### Creating a form -/

theorem formDb.createForm_ok {userId : Nat} {title : String} {description : Option String}
    {w w1 : World} {row : FormRow} (hkeys : w.db.FormKeysIssued)
    (h : formDb.createForm userId title description w = (.ok (some row), w1)) :
    row = newFormRow w.db w.now userId title description ∧
      w1.db = insertFormRow userId title description w.now w.db := by
  cases hf : w.faults.head?.join with
  | some msg =>
      simp only [formDb.createForm, Eff.bind_apply, Eff.bind, withDb_rejected hf] at h
      cases h
  | none =>
      have hacc : w.Accepts := hf
      simp only [formDb.createForm, Eff.bind_apply, Eff.bind, hacc.withDb] at h
      split_ifs at h
      · cases h
      · simp only [] at h
        generalize hw2 : (⟨insertFormRow userId title description w.now w.db,
          w.next.now, w.next.faults⟩ : World) = w2 at h
        have hdb : w2.db = insertFormRow userId title description w.now w.db := by
          rw [← hw2]
        cases hsel : w2.faults.head?.join with
        | some msg =>
            rw [FormsClone.query, withDb_rejected hsel] at h
            cases h
        | none =>
            have hacc2 : w2.Accepts := hsel
            rw [hacc2.query] at h
            simp only [Prod.mk.injEq, Except.ok.injEq] at h
            have hold : w.db.forms.filter (fun f => f.id == w.db.formSeq + 1) = [] := by
              rw [List.filter_eq_nil_iff]
              intro f hfm
              have := hkeys f hfm
              simp only [beq_iff_eq]
              omega
            have hrow := h.1
            rw [hdb] at hrow
            simp only [insertFormRow, List.filter_append, hold, List.nil_append] at hrow
            have hnew : (newFormRow w.db w.now userId title description).id
                = w.db.formSeq + 1 := rfl
            simp only [List.filter_cons, hnew, beq_self_eq_true, if_true, List.filter_nil,
              List.head?_cons, Option.some.injEq] at hrow
            refine ⟨hrow.symm, ?_⟩
            rw [← h.2]
            exact hdb

/-- What a `createForm` call that returns a `Form` has done: the form is the
row written by the `INSERT`, with the next id and the caller as owner. -/
theorem Mutation.createForm_created {w : World} {creator : Identity} {input : FormCreateInput}
    {created : Form} (hkeys : w.db.FormKeysIssued)
    (hcreated : (Mutation.createForm input ⟨some creator⟩ w).1 = .ok (.form created)) :
    created = (newFormRow w.db w.now creator.id (input.title.getD "") input.description).toForm ∧
    (Mutation.createForm input ⟨some creator⟩ w).2.db
      = insertFormRow creator.id (input.title.getD "") input.description w.now w.db := by
  simp only [Mutation.createForm, Eff.tryCatch, Eff.bind_apply, Eff.bind,
    getAuthenticatedUser_some] at hcreated ⊢
  by_cases herr : 0 < (Mutation.createFormErrors input).length
  · simp only [herr, if_true, Eff.pure_apply] at hcreated
    cases hcreated
  · simp only [herr, if_false, FormModel.create, Eff.bind_apply, Eff.bind] at hcreated ⊢
    rcases hrun : formDb.createForm creator.id (input.title.getD "") input.description w
      with ⟨r, w1⟩
    rw [hrun] at hcreated
    cases r with
    | error e =>
        simp only at hcreated
        split_ifs at hcreated <;> cases hcreated
    | ok found =>
        cases found with
        | none =>
            simp only [Eff.throw] at hcreated
            split_ifs at hcreated <;> cases hcreated
        | some row =>
            obtain ⟨hrow, hdb⟩ := formDb.createForm_ok hkeys hrun
            simp only [Eff.pure_apply, Except.ok.injEq, Result.form.injEq] at hcreated ⊢
            exact ⟨by rw [← hcreated, hrow], hdb⟩

/-- C27: let `createForm`, called by an identity on a store in which no form
id lies above the last one issued, return a `Form`.  Its `userId` is the
caller's id, and after any sequence of further requests (any queries and
mutations, by any callers, successful or not, at any times and with any
statements rejected by the driver), every stored form with that id still has
the caller as `userId`: a form that is still in place has kept its owner. -/
theorem form_owner_never_changes (w : World) (creator : Identity) (input : FormCreateInput)
    (created : Form) (hkeys : w.db.FormKeysIssued)
    (hcreated : (Mutation.createForm input ⟨some creator⟩ w).1 = .ok (.form created))
    (later : List Call) :
    created.userId = creator.id ∧
    ∀ row ∈ (serve later (Mutation.createForm input ⟨some creator⟩ w).2.db).forms,
      row.id = created.id → row.userId = creator.id := by
  obtain ⟨hform, hdb⟩ := Mutation.createForm_created hkeys hcreated
  have hid : created.id = w.db.formSeq + 1 := by rw [hform]; rfl
  refine ⟨by rw [hform]; rfl, fun row hrow hsame => ?_⟩
  have hkept := serve_keeps_owners later (Mutation.createForm input ⟨some creator⟩ w).2.db
  rw [hdb] at hkept hrow
  rcases hkept.2 row hrow with ⟨f, hf, hfid, hfuser⟩ | hnew
  · rw [← hfuser]
    rcases List.mem_append.mp hf with hold | hnewrow
    · have := hkeys f hold
      omega
    · rw [List.mem_singleton.mp hnewrow]
      rfl
  · have : (insertFormRow creator.id (input.title.getD "") input.description w.now w.db).formSeq
        = w.db.formSeq + 1 := rfl
    omega

/-- Witness of `form_owner_never_changes`: user 1 creates form 21 on the sample
store; after the owner has renamed it and cleared its description, and user 2
has tried to rename and to delete it, form 21 is still owned by user 1. -/
theorem form_owner_never_changes_witness :
    sampleWorld.db.FormKeysIssued ∧
    (Mutation.createForm surveyInput userA sampleWorld).1
      = .ok (.form (newFormRow sampleDb 11 1 "Survey D" (some "fourth")).toForm) ∧
    (newFormRow sampleDb 11 1 "Survey D" (some "fourth")).toForm.id = 21 ∧
    (serve laterCalls (Mutation.createForm surveyInput userA sampleWorld).2.db).findForm 21
      = some formD ∧
    formD.userId = identityA.id :=
  ⟨by decide, rfl, rfl, rfl,
    (form_owner_never_changes sampleWorld identityA surveyInput _ (by decide) rfl
      laterCalls).2 formD (by decide) rfl⟩

/-! ## `updateResponse` on error -/

theorem updateResponseRow_missing {db : Db} {id : Nat} (hmissing : ∀ r ∈ db.responses, r.id ≠ id)
    (patch : ResponseUpdateInput) (now : Nat) :
    ResponseModel.updateResponseRow id patch now db = db := by
  have hmap : db.responses.map (fun r =>
      if r.id == id then
        { r with
          respondentName :=
            (match patch.respondentName with
             | .undefined => r.respondentName
             | n => n.toColumn)
          respondentEmail :=
            (match patch.respondentEmail with
             | .undefined => r.respondentEmail
             | e => e.toColumn)
          updatedAt := now }
      else r) = db.responses := by
    conv_rhs => rw [← List.map_id db.responses]
    apply List.map_congr_left
    intro r hr
    have : (r.id == id) = false := by simpa using hmissing r hr
    simp [this]
  unfold ResponseModel.updateResponseRow
  rw [hmap]

theorem deleteAnswerRows_none {db : Db} {id : Nat} (hnone : ∀ a ∈ db.answers, a.responseId ≠ id) :
    deleteAnswerRows id db = db := by
  have hfilter : db.answers.filter (fun a => !(a.responseId == id)) = db.answers := by
    rw [List.filter_eq_self]
    intro a ha
    simpa using hnone a ha
  unfold deleteAnswerRows
  rw [hfilter]

theorem ResponseModel.getById_unknown {id : Nat} (w : World)
    (hmissing : ∀ r ∈ w.db.responses, r.id ≠ id) :
    ∃ e, ResponseModel.getById id w = (.error e, w.next) := by
  cases h : w.faults.head?.join with
  | some msg =>
      simp only [ResponseModel.getById, Eff.bind_apply, Eff.bind, FormsClone.query,
        withDb_rejected h]
      exact ⟨_, rfl⟩
  | none =>
      have hacc : w.Accepts := h
      have hfilter : w.db.responses.filter (fun r => r.id == id) = [] := by
        rw [List.filter_eq_nil_iff]
        intro r hr
        simpa using hmissing r hr
      simp only [ResponseModel.getById, Eff.bind_apply, Eff.bind, hacc.query, hfilter,
        Eff.throw]
      exact ⟨_, rfl⟩

/-- The function `ResponseModel.update`, called with an id that no response and no
answer carries and with a payload that brings no answer, throws and leaves the
tables as they were. -/
theorem ResponseModel.update_unknown {id : Nat} (patch : ResponseUpdateInput) (w : World)
    (hmissing : ∀ r ∈ w.db.responses, r.id ≠ id)
    (hnone : ∀ a ∈ w.db.answers, a.responseId ≠ id)
    (hpayload : patch.answers = none ∨ patch.answers = some []) :
    ∃ e w1, ResponseModel.update id patch w = (.error e, w1) ∧ w1.db = w.db := by
  rcases execute_cases (ResponseModel.updateResponseRow id patch) w with ⟨e, h1⟩ | h1
  · exact ⟨e, w.next, by simp only [ResponseModel.update, Eff.bind_apply, Eff.bind, h1], rfl⟩
  · rw [updateResponseRow_missing hmissing] at h1
    have hw1 : ({ w.next with db := w.db } : World) = w.next := rfl
    rw [hw1] at h1
    rcases hpayload with hans | hans
    · obtain ⟨e, he⟩ := ResponseModel.getById_unknown w.next hmissing
      exact ⟨e, w.next.next, by
        simp only [ResponseModel.update, Eff.bind_apply, Eff.bind, h1, hans, Eff.pure_apply,
          he], rfl⟩
    · rcases execute_cases (fun _ db => deleteAnswerRows id db) w.next with ⟨e, h2⟩ | h2
      · exact ⟨e, w.next.next, by
          simp only [ResponseModel.update, Eff.bind_apply, Eff.bind, h1, hans, h2], rfl⟩
      · have hdel : deleteAnswerRows id w.next.db = w.next.db := deleteAnswerRows_none hnone
        rw [hdel] at h2
        have hw2 : ({ w.next.next with db := w.next.db } : World) = w.next.next := rfl
        rw [hw2] at h2
        obtain ⟨e, he⟩ := ResponseModel.getById_unknown w.next.next hmissing
        exact ⟨e, w.next.next.next, by
          simp only [ResponseModel.update, Eff.bind_apply, Eff.bind, h1, hans, h2,
            ResponseModel.insertAnswers, Eff.pure_apply, he], rfl⟩

/-- The function `ResponseModel.update`, its `UPDATE` being rejected by the
store, throws and has written nothing. -/
theorem ResponseModel.update_rejected {id : Nat} (patch : ResponseUpdateInput) (w : World)
    (hrej : ¬ w.Accepts) :
    ∃ e, ResponseModel.update id patch w = (.error e, w.next) := by
  rcases execute_cases (ResponseModel.updateResponseRow id patch) w with ⟨e, h1⟩ | h1
  · exact ⟨e, by simp only [ResponseModel.update, Eff.bind_apply, Eff.bind, h1]⟩
  · cases h : w.faults.head?.join with
    | none => exact absurd h hrej
    | some msg =>
        rw [FormsClone.execute, withDb_rejected h] at h1
        cases h1

/-- C30, as stated, fails.  User 2 sends one new answer for response 7 of their
form 20: the old answer is deleted, the `INSERT` of the new one is refused, the
mutation returns an `Error` envelope, and the response has lost its answer and
has a new `updatedAt`.  The same when the store itself fails late: with the
fourth statement rejected (`SQLITE_BUSY`), renaming the respondent and clearing
the answers returns an `Error` envelope although both writes have been made.
And for an id that does not resolve, on a table that takes the answers: the
answer sent for response 99 is stored before `RESPONSE_NOT_FOUND` is
returned. -/
theorem update_response_error_after_writes :
    sampleDb.responses = [response7] ∧ sampleDb.answers = [answer3] ∧
    (Mutation.updateResponse 20 7 { answers := some [answerBlue] } userB sampleWorld).1
      = .ok (createError "RESPONSE_NOT_FOUND"
          "SQLITE_CONSTRAINT: NOT NULL constraint failed: answer_values.formId" 404) ∧
    (Mutation.updateResponse 20 7 { answers := some [answerBlue] } userB sampleWorld).2.db.answers
      = [] ∧
    (Mutation.updateResponse 20 7 { answers := some [answerBlue] } userB
        sampleWorld).2.db.responses
      = [{ response7 with updatedAt := 11 }] ∧
    (Mutation.updateResponse 20 7 renameAndClear userB busyWorld).1
      = .ok (createError "RESPONSE_NOT_FOUND" "SQLITE_BUSY: database is locked" 404) ∧
    (Mutation.updateResponse 20 7 renameAndClear userB busyWorld).2.db.answers = [] ∧
    (Mutation.updateResponse 20 7 renameAndClear userB busyWorld).2.db.responses
      = [{ response7 with respondentName := some "S", updatedAt := 11 }] ∧
    lenientDb.responses = [response7] ∧ lenientDb.answers = [answer3] ∧
    (Mutation.updateResponse 20 99 { answers := some [answerBlue] } userB lenientWorld).1
      = .ok (createError "RESPONSE_NOT_FOUND" "Response with id 99 not found" 404) ∧
    (Mutation.updateResponse 20 99 { answers := some [answerBlue] } userB lenientWorld).2.db.answers
      = [answer3, newAnswerRow lenientDb 11 99 1 "Blue"] :=
  ⟨rfl, rfl, rfl, rfl, rfl, rfl, rfl, rfl, rfl, rfl, rfl, rfl⟩

/-- C30, amended: `updateResponse` is not atomic, and an `Error` envelope leaves
the store unchanged in these cases.  First, when nothing is written: the
caller is anonymous, the form lookup is rejected by the store, the form is not
stored, the caller does not own it, or the `UPDATE` of the response row is
rejected by the store.  Second, when the id names no stored response, no
stored answer carries it, and the payload has no `answers` field or an empty
list.  In both cases the result is an `Error` envelope and every table is as
before. -/
theorem update_response_error_keeps_store (w : World) (formId id : Nat)
    (input : ResponseUpdateInput) (context : Context) :
    ((context.user = none ∨ ¬ w.Accepts ∨ w.db.findForm formId = none ∨
        (∃ row caller, w.db.findForm formId = some row ∧ context.user = some caller ∧
          row.userId ≠ caller.id) ∨ ¬ w.next.Accepts) →
      ReturnsError (Mutation.updateResponse formId id input context w) ∧
      (Mutation.updateResponse formId id input context w).2.db = w.db) ∧
    ((∀ r ∈ w.db.responses, r.id ≠ id) → (∀ a ∈ w.db.answers, a.responseId ≠ id) →
      (input.answers = none ∨ input.answers = some []) →
      ReturnsError (Mutation.updateResponse formId id input context w) ∧
      (Mutation.updateResponse formId id input context w).2.db = w.db) := by
  cases context with
  | mk user =>
  cases user with
  | none => exact ⟨fun _ => ⟨⟨_, rfl⟩, rfl⟩, fun _ _ _ => ⟨⟨_, rfl⟩, rfl⟩⟩
  | some caller =>
  cases h : w.faults.head?.join with
  | some msg =>
      simp only [Mutation.updateResponse, Eff.tryCatch, Eff.bind_apply, Eff.bind,
        getAuthenticatedUser_some, FormModel.getById_rejected h]
      split_ifs <;> exact ⟨fun _ => ⟨⟨_, rfl⟩, rfl⟩, fun _ _ _ => ⟨⟨_, rfl⟩, rfl⟩⟩
  | none =>
      have hacc : w.Accepts := h
      cases hrow : w.db.findForm formId with
      | none =>
          simp only [Mutation.updateResponse, Eff.tryCatch, Eff.bind_apply, Eff.bind,
            getAuthenticatedUser_some, FormModel.getById_missing hacc hrow]
          split_ifs <;> exact ⟨fun _ => ⟨⟨_, rfl⟩, rfl⟩, fun _ _ _ => ⟨⟨_, rfl⟩, rfl⟩⟩
      | some row =>
          by_cases hown : row.toForm.userId = caller.id
          · refine ⟨fun hearly => ?_, fun hmissing hnone hpayload => ?_⟩
            · rcases hearly with
                hu | hrej | hnoform | ⟨row1, caller1, hrow1, hcaller, hne⟩ | hupd
              · cases hu
              · exact absurd hacc hrej
              · cases hnoform
              · simp only [Option.some.injEq] at hrow1
                simp only [Context.mk.injEq, Option.some.injEq] at hcaller
                rw [← hrow1, ← hcaller] at hne
                exact absurd hown hne
              · obtain ⟨e, hrun⟩ := @ResponseModel.update_rejected id input w.next hupd
                simp only [Mutation.updateResponse, Eff.tryCatch, Eff.bind_apply, Eff.bind,
                  getAuthenticatedUser_some, FormModel.getById_found hacc hrow, ne_eq, hown,
                  not_true_eq_false, if_false, hrun]
                split_ifs <;> exact ⟨⟨_, rfl⟩, rfl⟩
            · obtain ⟨e, w1, hrun, hdb⟩ :=
                ResponseModel.update_unknown input w.next hmissing hnone hpayload
              simp only [Mutation.updateResponse, Eff.tryCatch, Eff.bind_apply, Eff.bind,
                getAuthenticatedUser_some, FormModel.getById_found hacc hrow, ne_eq, hown,
                not_true_eq_false, if_false, hrun]
              split_ifs <;> exact ⟨⟨_, rfl⟩, hdb⟩
          · simp only [Mutation.updateResponse, Eff.tryCatch, Eff.bind_apply, Eff.bind,
              getAuthenticatedUser_some, FormModel.getById_found hacc hrow, ne_eq, hown,
              not_false_eq_true, if_true, Eff.pure_apply]
            exact ⟨fun _ => ⟨⟨_, rfl⟩, rfl⟩, fun _ _ _ => ⟨⟨_, rfl⟩, rfl⟩⟩

/-- Witness of `update_response_error_keeps_store`: user 1 sends an answer for
response 7 of form 20, which user 2 owns; user 2 renames response 99, which
does not exist. -/
theorem update_response_error_keeps_store_witness :
    sampleWorld.db.findForm 20 = some formB ∧ userA.user = some identityA ∧
    formB.userId ≠ identityA.id ∧
    ReturnsError (Mutation.updateResponse 20 7 { answers := some [answerBlue] } userA
      sampleWorld) ∧
    (Mutation.updateResponse 20 7 { answers := some [answerBlue] } userA sampleWorld).2.db
      = sampleWorld.db ∧
    (∀ r ∈ lenientWorld.db.responses, r.id ≠ 99) ∧
    (∀ a ∈ lenientWorld.db.answers, a.responseId ≠ 99) ∧
    ReturnsError (Mutation.updateResponse 20 99 { respondentName := .value "S" } userB
      lenientWorld) ∧
    (Mutation.updateResponse 20 99 { respondentName := .value "S" } userB lenientWorld).2.db
      = lenientWorld.db := by
  have h1 := (update_response_error_keeps_store sampleWorld 20 7
    { answers := some [answerBlue] } userA).1
    (Or.inr (Or.inr (Or.inr (Or.inl ⟨formB, identityA, rfl, rfl, by decide⟩))))
  have h2 := (update_response_error_keeps_store lenientWorld 20 99
    { respondentName := .value "S" } userB).2 (by decide) (by decide) (Or.inl rfl)
  exact ⟨rfl, rfl, by decide, h1.1, h1.2, by decide, by decide, h2.1, h2.2⟩

end FormsClone
